import Mathlib

/-! moviesBox: the metadata aggregation and caching layer.

A shallow embedding of the two service classes of the repository,
`CineNovaMovieService` (app.js, TMDB) and `MovieService` (server.js, OMDb),
together with the theorems that settle the claims of the specification.

JavaScript values are the JSON values the provider can send, together with
the built-in objects a property read can surface; asynchronous calls are
functions on an explicit `World` (cache, clock, log of outbound requests),
and the provider is a parameter of every operation.
-/

set_option autoImplicit false

/-! ## JavaScript values -/

/-- JavaScript values: the JSON-shaped ones, and `native name` for a built-in
object of the runtime (a native function such as `Object`, or
`Object.prototype`), which is never part of JSON data but is what a computed
property read returns for an inherited member name. Numbers are the integers
(provider ids, pages); floating point is outside the model. -/
inductive Val where
  | undefined
  | null
  | bool (b : Bool)
  | num (n : Int)
  | str (s : String)
  | arr (items : List Val)
  | obj (fields : List (String × Val))
  | native (name : String)
  deriving Inhabited

mutual
/-- Decidable equality of values (structural). -/
def Val.decEq : (a b : Val) → Decidable (a = b)
  | .undefined, .undefined => isTrue rfl
  | .null, .null => isTrue rfl
  | .bool a, .bool b =>
    if h : a = b then isTrue (by rw [h]) else isFalse (by intro e; cases e; exact h rfl)
  | .num a, .num b =>
    if h : a = b then isTrue (by rw [h]) else isFalse (by intro e; cases e; exact h rfl)
  | .str a, .str b =>
    if h : a = b then isTrue (by rw [h]) else isFalse (by intro e; cases e; exact h rfl)
  | .arr a, .arr b =>
    match Val.decEqList a b with
    | isTrue h => isTrue (by rw [h])
    | isFalse h => isFalse (by intro e; cases e; exact h rfl)
  | .obj a, .obj b =>
    match Val.decEqFields a b with
    | isTrue h => isTrue (by rw [h])
    | isFalse h => isFalse (by intro e; cases e; exact h rfl)
  | .native a, .native b =>
    if h : a = b then isTrue (by rw [h]) else isFalse (by intro e; cases e; exact h rfl)
  | .undefined, .null | .undefined, .bool _ | .undefined, .num _ | .undefined, .str _
  | .undefined, .arr _ | .undefined, .obj _ | .undefined, .native _
  | .null, .undefined | .null, .bool _ | .null, .num _ | .null, .str _ | .null, .arr _
  | .null, .obj _ | .null, .native _
  | .bool _, .undefined | .bool _, .null | .bool _, .num _ | .bool _, .str _ | .bool _, .arr _
  | .bool _, .obj _ | .bool _, .native _
  | .num _, .undefined | .num _, .null | .num _, .bool _ | .num _, .str _ | .num _, .arr _
  | .num _, .obj _ | .num _, .native _
  | .str _, .undefined | .str _, .null | .str _, .bool _ | .str _, .num _ | .str _, .arr _
  | .str _, .obj _ | .str _, .native _
  | .arr _, .undefined | .arr _, .null | .arr _, .bool _ | .arr _, .num _ | .arr _, .str _
  | .arr _, .obj _ | .arr _, .native _
  | .obj _, .undefined | .obj _, .null | .obj _, .bool _ | .obj _, .num _ | .obj _, .str _
  | .obj _, .arr _ | .obj _, .native _
  | .native _, .undefined | .native _, .null | .native _, .bool _ | .native _, .num _
  | .native _, .str _ | .native _, .arr _ | .native _, .obj _ => isFalse nofun
/-- Decidable equality of arrays of values. -/
def Val.decEqList : (a b : List Val) → Decidable (a = b)
  | [], [] => isTrue rfl
  | [], _ :: _ => isFalse nofun
  | _ :: _, [] => isFalse nofun
  | x :: xs, y :: ys =>
    match Val.decEq x y, Val.decEqList xs ys with
    | isTrue h, isTrue h2 => isTrue (by rw [h, h2])
    | isFalse h, _ => isFalse (by intro e; cases e; exact h rfl)
    | _, isFalse h => isFalse (by intro e; cases e; exact h rfl)
/-- Decidable equality of field lists. -/
def Val.decEqFields : (a b : List (String × Val)) → Decidable (a = b)
  | [], [] => isTrue rfl
  | [], _ :: _ => isFalse nofun
  | _ :: _, [] => isFalse nofun
  | (k, x) :: xs, (l, y) :: ys =>
    if hk : k = l then
      match Val.decEq x y, Val.decEqFields xs ys with
      | isTrue h, isTrue h2 => isTrue (by rw [h, h2, hk])
      | isFalse h, _ => isFalse (by intro e; cases e; exact h rfl)
      | _, isFalse h => isFalse (by intro e; cases e; exact h rfl)
    else isFalse (by intro e; cases e; exact hk rfl)
end

instance : DecidableEq Val := Val.decEq

/-- The one error the services can meet while computing: a `TypeError`
(reading a property of `undefined`/`null`, calling a non-function). -/
inductive JsError where
  | typeError
  deriving DecidableEq

/-- A computation that returns or throws. -/
abbrev Js (α : Type) := Except JsError α

instance {α : Type} [DecidableEq α] : DecidableEq (Js α)
  | .ok a, .ok b =>
    if h : a = b then isTrue (congrArg Except.ok h)
    else isFalse (fun e => h (Except.ok.inj e))
  | .error a, .error b =>
    if h : a = b then isTrue (congrArg Except.error h)
    else isFalse (fun e => h (Except.error.inj e))
  | .ok _, .error _ => isFalse nofun
  | .error _, .ok _ => isFalse nofun

/-- Truthiness: what `!!v` and `if (v)` see. -/
def truthy : Val → Bool
  | .undefined => false
  | .null => false
  | .bool b => b
  | .num n => n != 0
  | .str s => s != ""
  | .arr _ => true
  | .obj _ => true
  | .native _ => true

/-- Own-field lookup in an object's field list; a missing field reads as
`undefined`. -/
def objGet (fields : List (String × Val)) (name : String) : Val :=
  (fields.lookup name).getD .undefined

/-- Writing one field of an object under construction: an existing key keeps
its place and takes the new value, a new key goes last. -/
def objSet : List (String × Val) → String → Val → List (String × Val)
  | [], name, v => [(name, v)]
  | (k, x) :: rest, name, v =>
    if k == name then (k, v) :: rest else (k, x) :: objSet rest name v

/-- The property read `v.name` for the data property names the services read
(`id`, `canPlay`, `results`, `Response`, `Search`, `imdbID`), none of which is
the name of an inherited member: a `TypeError` on `undefined` and `null`, the
own field of an object, `undefined` on every other value. -/
def getProp (v : Val) (name : String) : Js Val :=
  match v with
  | .undefined => .error .typeError
  | .null => .error .typeError
  | .obj fields => .ok (objGet fields name)
  | _ => .ok .undefined

/-- Index keys `"0"`, `"1"`, ... paired with the items, starting at `i`. -/
def indexed : Nat → List Val → List (String × Val)
  | _, [] => []
  | i, x :: xs => (toString i, x) :: indexed (i + 1) xs

/-- The own enumerable properties `{...v}` copies: the fields of an object,
the indexed items of an array, the indexed characters of a string, nothing for
the other values (`null`, `undefined` and the built-ins included). -/
def spread : Val → List (String × Val)
  | .obj fields => fields
  | .arr items => indexed 0 items
  | .str s => indexed 0 (s.data.map fun c => Val.str (String.singleton c))
  | _ => []

/-- The fields of `{...a, ...b}` continued: every field of `extra` written
onto `base` in order. -/
def assign (base extra : List (String × Val)) : List (String × Val) :=
  extra.foldl (fun acc kv => objSet acc kv.1 kv.2) base

/-- The string conversion of a built-in: the source text of a native function,
`[object Object]` for `Object.prototype`. -/
def nativeText (name : String) : String :=
  if name = "Object.prototype" then "[object Object]"
  else "function " ++ name ++ "() { [native code] }"

/-- The members every plain object inherits from `Object.prototype`: what a
computed read `o[key]` returns under these names when `o` has no own field of
that name. -/
def objectPrototype : List (String × Val) :=
  [("constructor", .native "Object"),
   ("__defineGetter__", .native "__defineGetter__"),
   ("__defineSetter__", .native "__defineSetter__"),
   ("hasOwnProperty", .native "hasOwnProperty"),
   ("__lookupGetter__", .native "__lookupGetter__"),
   ("__lookupSetter__", .native "__lookupSetter__"),
   ("isPrototypeOf", .native "isPrototypeOf"),
   ("propertyIsEnumerable", .native "propertyIsEnumerable"),
   ("toString", .native "toString"),
   ("valueOf", .native "valueOf"),
   ("__proto__", .native "Object.prototype"),
   ("toLocaleString", .native "toLocaleString")]

/-- The computed property read `o[key]` on a plain object with the own fields
`fields`, for an arbitrary string `key`: the own field, else the inherited
member of that name, else `undefined`. -/
def objIndex (fields : List (String × Val)) (key : String) : Val :=
  match fields.lookup key with
  | some v => v
  | none => objGet objectPrototype key

/-- The string `key` is the name of a member every plain object inherits. -/
def Inherited (key : String) : Prop :=
  key ∈ objectPrototype.map Prod.fst

instance (key : String) : Decidable (Inherited key) :=
  inferInstanceAs (Decidable (key ∈ objectPrototype.map Prod.fst))

mutual
/-- The abstract operation `ToString`, as a template literal applies it. An
object with an own `toString` field (never callable in JSON data) cannot be
converted. -/
def Val.toStr : Val → Js String
  | .undefined => .ok "undefined"
  | .null => .ok "null"
  | .bool b => .ok (if b then "true" else "false")
  | .num n => .ok (toString n)
  | .str s => .ok s
  | .arr items => Val.join items
  | .obj fields => if fields.lookup "toString" |>.isSome then .error .typeError
    else .ok "[object Object]"
  | .native name => .ok (nativeText name)
/-- The body of `Array.prototype.join` with the default separator: `null` and
`undefined` items contribute the empty string. -/
def Val.join : List Val → Js String
  | [] => .ok ""
  | [x] => Val.joinItem x
  | x :: y :: rest =>
    match Val.joinItem x, Val.join (y :: rest) with
    | .ok a, .ok b => .ok (a ++ "," ++ b)
    | _, _ => .error .typeError
/-- One item of a join. -/
def Val.joinItem : Val → Js String
  | .undefined => .ok ""
  | .null => .ok ""
  | .bool b => .ok (if b then "true" else "false")
  | .num n => .ok (toString n)
  | .str s => .ok s
  | .arr items => Val.join items
  | .obj fields => if fields.lookup "toString" |>.isSome then .error .typeError
    else .ok "[object Object]"
  | .native name => .ok (nativeText name)
end

/-- The method call `v.toString()`: a `TypeError` on `undefined` and `null`,
otherwise the string conversion of the value. -/
def Val.toStringCall : Val → Js String
  | .undefined => .error .typeError
  | .null => .error .typeError
  | v => v.toStr

/-- The callback of `Array.prototype.map` applied item by item; the first
throw aborts the whole map. -/
def mapItems (f : Val → Js Val) : List Val → Js (List Val)
  | [] => .ok []
  | x :: xs =>
    match f x with
    | .error e => .error e
    | .ok y =>
      match mapItems f xs with
      | .error e => .error e
      | .ok ys => .ok (y :: ys)

/-- The call `v.map(f)`: defined on arrays only. -/
def mapArray (f : Val → Js Val) : Val → Js Val
  | .arr items =>
    match mapItems f items with
    | .error e => .error e
    | .ok ys => .ok (.arr ys)
  | _ => .error .typeError

/-! ## The cache and the outside world -/

/-- One cache entry: the stored value and the instant (milliseconds) after
which it is no longer served. -/
structure CacheEntry where
  value : Val
  expires : Nat
  deriving DecidableEq

/-- The in-memory cache: at most one live binding per key, newest first. -/
abbrev Cache := List (String × CacheEntry)

/-- Modelled from the spec: the cache library (not part of the repository's
sources). The entry of `key` that is still alive at `now`: "a cache entry is
never returned after `now > created_at + ttl`". -/
def Cache.live (c : Cache) (now : Nat) (key : String) : Option Val :=
  match c.lookup key with
  | some e => if e.expires < now then none else some e.value
  | none => none

/-- Modelled from the spec: `cache.get(key)`, the live value or `undefined`. -/
def Cache.get (c : Cache) (now : Nat) (key : String) : Val :=
  (c.live now key).getD .undefined

/-- Modelled from the spec: `cache.set(key, value, ttl)` with `ttl` in
seconds; the entry is created (or overwritten) with `created_at = now`. -/
def Cache.set (c : Cache) (now : Nat) (key : String) (value : Val) (ttl : Nat) : Cache :=
  (key, { value := value, expires := now + ttl * 1000 }) :: c.filter (fun kv => kv.1 != key)

/-- The default time-to-live of both caches, `new NodeCache({ stdTTL: 600 })`,
used by a `set` without a third argument. -/
def stdTTL : Nat := 600

/-- An outbound HTTP GET: the URL and the query parameters. -/
structure Request where
  url : String
  params : List (String × Val)
  deriving DecidableEq

/-- The metadata provider seen from the service: the answer to the `n`-th
outbound request of the process. `none` is a rejected `axios` promise (network
error, timeout, non-2xx status); `some data` is `response.data`. -/
abbrev Upstream := Nat → Request → Option Val

/-- The state a call runs against: the shared cache, the clock (milliseconds)
and the log of outbound requests issued so far, oldest first. A call is
modelled at one instant of the clock. -/
structure World where
  cache : Cache
  now : Nat
  sent : List Request
  deriving DecidableEq

/-- The world with one more outbound request on its log. -/
def World.send (w : World) (r : Request) : World :=
  { w with sent := w.sent ++ [r] }

/-- The world after `cache.set(key, value, ttl)`. -/
def World.store (w : World) (key : String) (value : Val) (ttl : Nat) : World :=
  { w with cache := w.cache.set w.now key value ttl }

/-! ## app.js: `CineNovaMovieService` -/

namespace CineNova

def TMDB_API_KEY : String := "028e8d9cfa50775d8e0a17c990c7ecac"
def TMDB_BASE_URL : String := "https://api.themoviedb.org/3"

/-- One descriptor literal of `initializeVideoSources`. Every literal has
`type: "mp4"` and `quality: "1080p"`. -/
def descriptor (title streamUrl downloadUrl size duration : String) : Val :=
  .obj [("title", .str title), ("streamUrl", .str streamUrl),
    ("downloadUrl", .str downloadUrl), ("type", .str "mp4"), ("quality", .str "1080p"),
    ("size", .str size), ("duration", .str duration)]

/-- The object literal returned by `initializeVideoSources()`, kept in
`this.videoSources`. -/
def videoSources : List (String × Val) :=
  [("299534", descriptor "Avengers: Endgame" "/api/stream/avengers" "/api/download/avengers"
      "1.8GB" "3h 1m"),
   ("181808", descriptor "Star Wars: The Last Jedi" "/api/stream/starwars"
      "/api/download/starwars" "2.1GB" "2h 32m"),
   ("284054", descriptor "Black Panther" "/api/stream/blackpanther"
      "/api/download/blackpanther" "1.9GB" "2h 14m"),
   ("283995", descriptor "Guardians of the Galaxy Vol 2" "/api/stream/guardians"
      "/api/download/guardians" "2.0GB" "2h 17m"),
   ("335983", descriptor "Venom" "/api/stream/venom" "/api/download/venom" "1.7GB" "1h 52m"),
   ("297762", descriptor "Wonder Woman" "/api/stream/wonderwoman" "/api/download/wonderwoman"
      "1.8GB" "2h 21m"),
   ("353081", descriptor "Mission Impossible Fallout" "/api/stream/mission"
      "/api/download/mission" "2.2GB" "2h 28m"),
   ("383498", descriptor "Deadpool 2" "/api/stream/deadpool" "/api/download/deadpool"
      "1.9GB" "1h 59m")]

/-- The table lookup `this.videoSources[key]`, a computed read on the plain
object literal: the descriptor the literal holds under `key`; for the name of
a member every object inherits (`constructor`, `toString`, `__proto__`, ...)
that inherited built-in; `undefined` otherwise. -/
def videoSourceOf (key : String) : Val :=
  objIndex videoSources key

/-- The record built by the three enrichment sites:
`{ ...movie, canPlay: !!this.videoSources[key], canDownload: true,
   videoSource: this.videoSources[key] }`. -/
def overlay (movie : Val) (key : String) : Val :=
  .obj (objSet (objSet (objSet (spread movie)
    "canPlay" (.bool (truthy (videoSourceOf key))))
    "canDownload" (.bool true))
    "videoSource" (videoSourceOf key))

/-- The callback of `results.map(...)` in `getTrendingMovies` and
`searchMovies`; the key is `movie.id.toString()`. -/
def enrich (movie : Val) : Js Val :=
  match getProp movie "id" with
  | .error e => .error e
  | .ok id =>
    match id.toStringCall with
    | .error e => .error e
    | .ok key => .ok (overlay movie key)

/-- The expression `response.data.results.map(movie => ...)`. -/
def enrichResults (data : Val) : Js Val :=
  match getProp data "results" with
  | .error e => .error e
  | .ok results => mapArray enrich results

/-- Result of `getFallbackContent()`: the empty array. -/
def getFallbackContent : Val := .arr []

def trendingRequest : Request :=
  { url := TMDB_BASE_URL ++ "/trending/movie/week", params := [("api_key", .str TMDB_API_KEY)] }

def searchRequest (query : String) : Request :=
  { url := TMDB_BASE_URL ++ "/search/movie",
    params := [("api_key", .str TMDB_API_KEY), ("query", .str query),
      ("include_adult", .bool false)] }

def detailsRequest (movieId : String) : Request :=
  { url := TMDB_BASE_URL ++ "/movie/" ++ movieId, params := [("api_key", .str TMDB_API_KEY)] }

/-- The shared shape of `getTrendingMovies` and `searchMovies`: serve the
cache when it holds a truthy value, otherwise one request, the enrichment of
its result list and a cache write with the default TTL; any throw on the way
leaves the cache alone and returns `fallback`. -/
def fetchList (u : Upstream) (w : World) (cacheKey : String) (req : Request)
    (fallback : Val) : Val × World :=
  let movies := w.cache.get w.now cacheKey
  if truthy movies then (movies, w)
  else
    match u w.sent.length req with
    | none => (fallback, w.send req)
    | some data =>
      match enrichResults data with
      | .error _ => (fallback, w.send req)
      | .ok movies => (movies, (w.send req).store cacheKey movies stdTTL)

/-- Method `getTrendingMovies()`. -/
def getTrendingMovies (u : Upstream) (w : World) : Val × World :=
  fetchList u w "trending_movies" trendingRequest getFallbackContent

/-- Method `searchMovies(query)`. -/
def searchMovies (u : Upstream) (w : World) (query : String) : Val × World :=
  fetchList u w ("search_" ++ query) (searchRequest query) (.arr [])

/-- Method `getMovieDetails(movieId)`; `movieId` is the route parameter, a
string, so `movieId.toString()` is `movieId`. -/
def getMovieDetails (u : Upstream) (w : World) (movieId : String) : Val × World :=
  let cacheKey := "movie_" ++ movieId
  let movieDetails := w.cache.get w.now cacheKey
  if truthy movieDetails then (movieDetails, w)
  else
    match u w.sent.length (detailsRequest movieId) with
    | none => (.null, w.send (detailsRequest movieId))
    | some data =>
      let movieDetails := overlay data movieId
      (movieDetails, (w.send (detailsRequest movieId)).store cacheKey movieDetails stdTTL)

/-- The callback loop of `movies.find(movie => movie.canPlay)`: the first
item whose `canPlay` is truthy, `undefined` when there is none. -/
def findCanPlay : List Val → Js Val
  | [] => .ok .undefined
  | movie :: rest =>
    match getProp movie "canPlay" with
    | .error e => .error e
    | .ok c => if truthy c then .ok movie else findCanPlay rest

/-- Method `getFeaturedMovie(movies)`:
`movies.find(movie => movie.canPlay) || movies[0]`. -/
def getFeaturedMovie (movies : List Val) : Js Val :=
  match findCanPlay movies with
  | .error e => .error e
  | .ok found => if truthy found then .ok found else .ok (movies.head?.getD .undefined)

/-- Method `getOtherMovies(movies, featuredMovie)`:
`movies.filter(movie => movie.id !== featuredMovie.id)`. The callback runs
once per item, so nothing is read from `featuredMovie` on an empty array.
`!==` is equality of values; it is exact for the scalar ids of the provider. -/
def getOtherMovies : List Val → Val → Js (List Val)
  | [], _ => .ok []
  | movie :: rest, featuredMovie =>
    match getProp movie "id" with
    | .error e => .error e
    | .ok a =>
      match getProp featuredMovie "id" with
      | .error e => .error e
      | .ok b =>
        match getOtherMovies rest featuredMovie with
        | .error e => .error e
        | .ok others => if a != b then .ok (movie :: others) else .ok others

end CineNova

/-! ## server.js: `MovieService` -/

namespace MovieService

def OMDB_API_KEY : String := "ac11900d"
def OMDB_BASE_URL : String := "https://www.omdbapi.com/"

/-- One entry literal of `sampleMovies` in `initializeSampleMovies`. -/
def movieFile (title downloadUrl filename quality size : String) : Val :=
  .obj [("title", .str title), ("downloadUrl", .str downloadUrl), ("filename", .str filename),
    ("quality", .str quality), ("size", .str size)]

/-- The literal `sampleMovies`, whose entries fill the `movieFiles` map. -/
def sampleMovies : List (String × Val) :=
  [("tt0109830", movieFile "Forrest Gump"
      "https://commondatastorage.googleapis.com/gtv-videos-bucket/sample/BigBuckBunny.mp4"
      "Forrest_Gump_1994.mp4" "720p" "125MB"),
   ("tt0111161", movieFile "The Shawshank Redemption"
      "https://commondatastorage.googleapis.com/gtv-videos-bucket/sample/ElephantsDream.mp4"
      "Shawshank_Redemption_1994.mp4" "720p" "98MB"),
   ("tt0068646", movieFile "The Godfather"
      "https://commondatastorage.googleapis.com/gtv-videos-bucket/sample/ForBiggerBlazes.mp4"
      "The_Godfather_1972.mp4" "720p" "156MB"),
   ("tt0468569", movieFile "The Dark Knight"
      "https://commondatastorage.googleapis.com/gtv-videos-bucket/sample/ForBiggerEscapes.mp4"
      "The_Dark_Knight_2008.mp4" "1080p" "210MB"),
   ("tt0050083", movieFile "12 Angry Men"
      "https://commondatastorage.googleapis.com/gtv-videos-bucket/sample/ForBiggerFun.mp4"
      "12_Angry_Men_1957.mp4" "480p" "87MB")]

/-- The table lookup `this.movieFiles.get(key)` on the map built from
`sampleMovies`: only a string can equal one of its keys. -/
def movieFileOf : Val → Val
  | .str s => objGet sampleMovies s
  | _ => .undefined

def searchRequest (query : String) (page : Int) : Request :=
  { url := OMDB_BASE_URL,
    params := [("apikey", .str OMDB_API_KEY), ("s", .str query), ("page", .num page),
      ("type", .str "movie")] }

def detailsRequest (imdbID : Val) : Request :=
  { url := OMDB_BASE_URL,
    params := [("apikey", .str OMDB_API_KEY), ("i", imdbID), ("plot", .str "full")] }

/-- Result of `getSampleData()`. -/
def getSampleData : Val :=
  .obj [("Search", .arr [.obj [("imdbID", .str "tt0109830"), ("Title", .str "Forrest Gump"),
      ("Year", .str "1994"), ("Type", .str "movie"),
      ("Poster", .str "https://m.media-amazon.com/images/M/MV5BNWIwODRlZTUtY2U3ZS00Yzg1LWJhNzYtMmZiYmEyNmU1NjMzXkEyXkFqcGdeQXVyMTQxNzMzNDI@._V1_SX300.jpg"),
      ("Plot", .str "The presidencies of Kennedy and Johnson, the Vietnam War, the Watergate scandal and other historical events unfold from the perspective of an Alabama man with an IQ of 75, whose only desire is to be reunited with his childhood sweetheart."),
      ("canDownload", .bool true),
      ("downloadInfo", movieFileOf (.str "tt0109830"))]]),
    ("totalResults", .str "1"), ("Response", .str "True")]

/-- How far a call of `getMovieDetails` gets before it first has to wait:
either it has already returned (`settled`: a cache hit, or `null` after a
throw while building the key), or its request is on the wire as outbound
request number `seq` (`waiting`). -/
inductive Started where
  | settled (v : Val)
  | waiting (seq : Nat) (cacheKey : String)
  deriving DecidableEq

/-- The synchronous first part of `getMovieDetails(imdbID)`: build the key
`movie-${imdbID}`, read the cache, and on a miss issue the request. -/
def detailsStart (w : World) (imdbID : Val) : Started × World :=
  match imdbID.toStr with
  | .error _ => (.settled .null, w)
  | .ok s =>
    let cacheKey := "movie-" ++ s
    let cached := w.cache.get w.now cacheKey
    if truthy cached then (.settled cached, w)
    else (.waiting w.sent.length cacheKey, w.send (detailsRequest imdbID))

/-- The record `{ ...response.data, canDownload: !!downloadInfo, downloadInfo }`
of `getMovieDetails`, with `downloadInfo = this.movieFiles.get(imdbID)`. -/
def enhancedData (data imdbID : Val) : Val :=
  .obj (objSet (objSet (spread data)
    "canDownload" (.bool (truthy (movieFileOf imdbID))))
    "downloadInfo" (movieFileOf imdbID))

/-- The rest of `getMovieDetails(imdbID)` once the answer is in: on
`Response === 'True'` the enhanced record is cached for 3600 seconds and
returned; every other outcome is `null`. -/
def detailsFinish (u : Upstream) (w : World) (imdbID : Val) : Started → Val × World
  | .settled v => (v, w)
  | .waiting seq cacheKey =>
    match u seq (detailsRequest imdbID) with
    | none => (.null, w)
    | some data =>
      match getProp data "Response" with
      | .error _ => (.null, w)
      | .ok r =>
        if r = .str "True" then
          (enhancedData data imdbID, w.store cacheKey (enhancedData data imdbID) 3600)
        else (.null, w)

/-- Method `getMovieDetails(imdbID)`. -/
def getMovieDetails (u : Upstream) (w : World) (imdbID : Val) : Val × World :=
  detailsFinish u (detailsStart w imdbID).2 imdbID (detailsStart w imdbID).1

/-- One callback of `response.data.Search.map(async movie => ...)` after its
synchronous start: `rejected` when reading `movie.imdbID` threw, otherwise the
started `getMovieDetails(movie.imdbID)`. -/
inductive Task where
  | rejected
  | running (movie imdbID : Val) (s : Started)
  deriving DecidableEq

/-- The synchronous pass of `Search.map(async ...)`: every callback runs up to
its first wait before any answer arrives, so every item reads the cache as it
was and every miss puts one request on the wire. -/
def startItems (w : World) : List Val → List Task × World
  | [] => ([], w)
  | movie :: rest =>
    match getProp movie "imdbID" with
    | .error _ => (.rejected :: (startItems w rest).1, (startItems w rest).2)
    | .ok imdbID =>
      (.running movie imdbID (detailsStart w imdbID).1 ::
          (startItems (detailsStart w imdbID).2 rest).1,
        (startItems (detailsStart w imdbID).2 rest).2)

/-- The record `{ ...movie, ...details, canDownload: !!downloadInfo, downloadInfo }`
of `searchMovies`, with `downloadInfo = this.movieFiles.get(movie.imdbID)`. -/
def enhancedMovie (movie details imdbID : Val) : Val :=
  .obj (objSet (objSet (assign (spread movie) (spread details))
    "canDownload" (.bool (truthy (movieFileOf imdbID))))
    "downloadInfo" (movieFileOf imdbID))

/-- The callbacks resumed, answers taken in the order the requests were
issued; `Promise.all` yields the enhanced items, or nothing when a callback
rejected (the started detail calls still run to their end). -/
def finishItems (u : Upstream) (w : World) : List Task → Option (List Val) × World
  | [] => (some [], w)
  | .rejected :: rest => (none, (finishItems u w rest).2)
  | .running movie imdbID s :: rest =>
    ((finishItems u (detailsFinish u w imdbID s).2 rest).1.map
        (fun items => enhancedMovie movie (detailsFinish u w imdbID s).1 imdbID :: items),
      (finishItems u (detailsFinish u w imdbID s).2 rest).2)

/-- The cache key of a search, the template literal
`search-${query}-${page}`. -/
def searchKey (query : String) (page : Int) : String :=
  "search-" ++ query ++ "-" ++ toString page

/-- The `else` result of `searchMovies`: the provider answered without
`Response === 'True'`. -/
def emptyResult : Val :=
  .obj [("Search", .arr []), ("totalResults", .str "0"), ("Response", .str "False")]

/-- The part of `searchMovies` after `Response === 'True'`: enhance the items
of `response.data.Search`, cache `{ ...response.data, Search }` for 600
seconds and return it; a throw or a rejected callback ends in the `catch`,
which returns `getSampleData()`. -/
def enhanceSearch (u : Upstream) (w : World) (cacheKey : String) (data : Val) : Val × World :=
  match getProp data "Search" with
  | .ok (.arr items) =>
    match finishItems u (startItems w items).2 (startItems w items).1 with
    | (some enhancedMovies, w') =>
      (.obj (objSet (spread data) "Search" (.arr enhancedMovies)),
        w'.store cacheKey (.obj (objSet (spread data) "Search" (.arr enhancedMovies))) 600)
    | (none, w') => (getSampleData, w')
  | _ => (getSampleData, w)

/-- Method `searchMovies(query, page = 1)`. -/
def searchMovies (u : Upstream) (w : World) (query : String) (page : Int) : Val × World :=
  let cacheKey := searchKey query page
  let cached := w.cache.get w.now cacheKey
  if truthy cached then (cached, w)
  else
    match u w.sent.length (searchRequest query page) with
    | none => (getSampleData, w.send (searchRequest query page))
    | some data =>
      match getProp data "Response" with
      | .error _ => (getSampleData, w.send (searchRequest query page))
      | .ok r =>
        if r = .str "True" then
          enhanceSearch u (w.send (searchRequest query page)) cacheKey data
        else (emptyResult, w.send (searchRequest query page))

/-- The array `popularSearches` of `getTrendingMovies`. -/
def popularSearches : List String := ["avengers", "batman", "superman", "spiderman", "iron man"]

/-- Method `getTrendingMovies()`; `pick` is the index
`Math.floor(Math.random() * popularSearches.length)`. -/
def getTrendingMovies (u : Upstream) (w : World) (pick : Fin 5) : Val × World :=
  searchMovies u w (popularSearches.getD pick.val "") 1

end MovieService


/-! ## app.js: what an enriched record looks like, and the reachable states -/

namespace CineNova

/-- The stream reference a descriptor declares, `descriptor.streamUrl`. -/
def streamUrlOf : Val → Val
  | .obj fields => objGet fields "streamUrl"
  | _ => .undefined

/-- The `videoSources` table holds a descriptor under `key`, and that
descriptor declares a stream reference. -/
def HasStreamDescriptor (key : String) : Prop :=
  ∃ d, videoSources.lookup key = some d ∧ truthy (streamUrlOf d) = true

/-- The three overlay fields of a record, as computed from the table key
`key`. -/
def Overlaid (key : String) (r : Val) : Prop :=
  getProp r "canPlay" = .ok (.bool (truthy (videoSourceOf key))) ∧
  getProp r "canDownload" = .ok (.bool true) ∧
  getProp r "videoSource" = .ok (videoSourceOf key)

/-- An item of a listing: its overlay was computed from its own `id`, through
`id.toString()`. -/
def ItemOK (item : Val) : Prop :=
  ∃ id key, getProp item "id" = .ok id ∧ id.toStringCall = .ok key ∧ Overlaid key item

/-- A listing: an array of enriched items. -/
def ListOK (v : Val) : Prop :=
  ∃ items, v = .arr items ∧ ∀ item ∈ items, ItemOK item

/-- What the cache may hold under `key`: under a detail key `movie_<id>` a
record overlaid for `id`, under every other key a listing. -/
def EntryOK (key : String) (v : Val) : Prop :=
  (∀ id, key = "movie_" ++ id → Overlaid id v) ∧ ((∀ id, key ≠ "movie_" ++ id) → ListOK v)

/-- The invariant of the cache of app.js. -/
def CacheOK (c : Cache) : Prop :=
  ∀ k e, (k, e) ∈ c → EntryOK k e.value

/-- The states the process of app.js can be in: it starts with an empty cache
and no request sent; time passes; the three service methods run, against any
provider behaviour. -/
inductive Reachable : World → Prop where
  | start (now : Nat) : Reachable { cache := [], now := now, sent := [] }
  | tick (w : World) (t : Nat) : Reachable w → w.now ≤ t → Reachable { w with now := t }
  | trending (u : Upstream) (w : World) : Reachable w → Reachable (getTrendingMovies u w).2
  | search (u : Upstream) (w : World) (query : String) :
      Reachable w → Reachable (searchMovies u w query).2
  | details (u : Upstream) (w : World) (movieId : String) :
      Reachable w → Reachable (getMovieDetails u w movieId).2

end CineNova

/-! ## app.js: the vocabulary of the claims and concrete scenarios -/

namespace CineNova

/-- The `canPlay` flag of `r` is a boolean, true exactly when the table holds
a descriptor under `key` that declares a stream reference. -/
def CanPlayMatchesTable (key : String) (r : Val) : Prop :=
  ∃ b, getProp r "canPlay" = .ok (.bool b) ∧ (b = true ↔ HasStreamDescriptor key)

/-- The `canDownload` flag of `r` is a boolean, true exactly when the table
holds a descriptor under `key`. -/
def CanDownloadMatchesTable (key : String) (r : Val) : Prop :=
  ∃ b, getProp r "canDownload" = .ok (.bool b) ∧ (b = true ↔ (videoSources.lookup key).isSome)

/-- The `videoSource` field of `r` is what the table holds under `key`: the
descriptor itself, or `undefined` when the table has no such key. -/
def VideoSourceMatchesTable (key : String) (r : Val) : Prop :=
  getProp r "videoSource" = .ok
    (match videoSources.lookup key with
     | some d => d
     | none => .undefined)

/-- Every item of the listing `v` satisfies `P` for the table key of its own
id, `item.id.toString()`. -/
def ForItems (P : String → Val → Prop) (v : Val) : Prop :=
  ∃ items, v = .arr items ∧
    ∀ item ∈ items, ∃ id key, getProp item "id" = .ok id ∧ id.toStringCall = .ok key ∧ P key item

/-- The featured record the specification describes: the first record whose
`canPlay` is truthy, else the first record, else nothing. -/
def featuredSpec (records : List (List (String × Val))) : Val :=
  match records.find? (fun r => truthy (objGet r "canPlay")) with
  | some r => .obj r
  | none =>
    match records with
    | [] => .undefined
    | r :: _ => .obj r

/-- A provider whose weekly trending list has three titles, the second and
third of them in the `videoSources` table, and which fails every other
request. -/
def trendingOnly : Upstream := fun _ r =>
  if r = trendingRequest then
    some (.obj [("page", .num 1), ("results", .arr [
      .obj [("id", .num 1), ("title", .str "A")],
      .obj [("id", .num 299534), ("title", .str "Avengers: Endgame")],
      .obj [("id", .num 181808), ("title", .str "Star Wars: The Last Jedi")]])])
  else none

/-- The process at start-up, at time 0. -/
def initial : World := { cache := [], now := 0, sent := [] }

/-- The state after one `getTrendingMovies()` against `trendingOnly`. -/
def afterTrending : World := (getTrendingMovies trendingOnly initial).2

/-- The records A, B, C of the featured-item example. -/
def recordA : List (String × Val) := [("id", .num 1), ("title", .str "A"), ("canPlay", .bool false)]
def recordB : List (String × Val) := [("id", .num 2), ("title", .str "B"), ("canPlay", .bool true)]
def recordC : List (String × Val) := [("id", .num 3), ("title", .str "C"), ("canPlay", .bool true)]

end CineNova

/-! ## server.js: enhanced records, fetch outcomes and the reachable states -/

namespace MovieService

/-- The two overlay fields of a record, as computed from the table lookup for
`imdbID`. -/
def Enhanced (imdbID : Val) (r : Val) : Prop :=
  getProp r "canDownload" = .ok (.bool (truthy (movieFileOf imdbID))) ∧
  getProp r "downloadInfo" = .ok (movieFileOf imdbID)

/-- The `movieFiles` table holds a descriptor under `imdbID`. -/
def HasDescriptor (imdbID : Val) : Prop :=
  ∃ s d, imdbID = .str s ∧ sampleMovies.lookup s = some d

/-- The `canDownload` flag of `r` is a boolean, true exactly when the table
holds a descriptor under `imdbID`. -/
def CanDownloadMatchesTable (imdbID : Val) (r : Val) : Prop :=
  ∃ b, getProp r "canDownload" = .ok (.bool b) ∧ (b = true ↔ HasDescriptor imdbID)

/-- The `downloadInfo` field of `r` is what the table holds under `imdbID`:
the descriptor itself, or `undefined` when the table has no such key. -/
def DownloadInfoMatchesTable (imdbID : Val) (r : Val) : Prop :=
  getProp r "downloadInfo" = .ok
    (match imdbID with
     | .str s =>
       (match sampleMovies.lookup s with
        | some d => d
        | none => .undefined)
     | _ => .undefined)

/-- A detail fetch that succeeds: the cache has nothing live under the key of
`imdbID`, and the provider answers the request with `data` whose `Response` is
`'True'`. -/
def DetailsFetched (u : Upstream) (w : World) (imdbID data : Val) : Prop :=
  ∃ s, imdbID.toStr = .ok s ∧ truthy (w.cache.get w.now ("movie-" ++ s)) = false ∧
    u w.sent.length (detailsRequest imdbID) = some data ∧
    getProp data "Response" = .ok (.str "True")

/-- A search fetch that succeeds: the cache has nothing live under the search
key, and the provider answers the request with `data` whose `Response` is
`'True'` and whose `Search` is the array `items`, none of them `null` or
`undefined`. -/
def SearchFetched (u : Upstream) (w : World) (query : String) (page : Int)
    (data : Val) (items : List Val) : Prop :=
  truthy (w.cache.get w.now (searchKey query page)) = false ∧
  u w.sent.length (searchRequest query page) = some data ∧
  getProp data "Response" = .ok (.str "True") ∧
  getProp data "Search" = .ok (.arr items) ∧
  ∀ movie ∈ items, movie ≠ .null ∧ movie ≠ .undefined

/-- The detail requests a search puts on the wire for the provider's `items`,
in order: one for every item whose detail record is not live in the cache. -/
def missingDetails (w : World) : List Val → List Request
  | [] => []
  | movie :: rest =>
    match getProp movie "imdbID" with
    | .error _ => missingDetails w rest
    | .ok imdbID =>
      match imdbID.toStr with
      | .error _ => missingDetails w rest
      | .ok s =>
        if truthy (w.cache.get w.now ("movie-" ++ s)) then missingDetails w rest
        else detailsRequest imdbID :: missingDetails w rest

/-- The requests a search that misses the cache issues after its own search
request: the missing detail requests when the provider answered with
`Response === 'True'` and an array `Search`, none otherwise. -/
def followUpRequests (u : Upstream) (w : World) (query : String) (page : Int) : List Request :=
  match u w.sent.length (searchRequest query page) with
  | none => []
  | some data =>
    match getProp data "Response", getProp data "Search" with
    | .ok (.str "True"), .ok (.arr items) => missingDetails w items
    | _, _ => []

/-- A started callback of item `movie`: it did not reject. -/
def Runs (movie : Val) (t : Task) : Prop :=
  ∃ imdbID st, getProp movie "imdbID" = .ok imdbID ∧ t = .running movie imdbID st

/-- An enhanced item built from the provider's item `movie`. -/
def BuiltFrom (movie item : Val) : Prop :=
  ∃ imdbID details, getProp movie "imdbID" = .ok imdbID ∧
    item = enhancedMovie movie details imdbID

/-- An id as the provider and the routes supply it: a string, or missing. -/
def PlainId (imdbID : Val) : Prop :=
  (∃ s, imdbID = .str s) ∨ imdbID = .undefined

/-- A provider whose search items carry plain ids. -/
def PlainIds (u : Upstream) : Prop :=
  ∀ n req data items movie imdbID, u n req = some data →
    getProp data "Search" = .ok (.arr items) → movie ∈ items →
    getProp movie "imdbID" = .ok imdbID → PlainId imdbID

/-- A started detail call waits, if it waits, on the cache key of its id. -/
def StartedFor (imdbID : Val) (st : Started) : Prop :=
  ∀ seq key, st = .waiting seq key → ∃ s, imdbID.toStr = .ok s ∧ key = "movie-" ++ s

/-- Every running callback carries a plain id and waits on the key of that
id. -/
def TasksPlain (tasks : List Task) : Prop :=
  ∀ t ∈ tasks, ∀ movie imdbID st, t = .running movie imdbID st →
    PlainId imdbID ∧ StartedFor imdbID st

/-- The invariant of the detail entries of the cache of server.js: the record
under `movie-<id>` was enhanced for `id`. -/
def DetailKeysOK (c : Cache) : Prop :=
  ∀ s e, ("movie-" ++ s, e) ∈ c → Enhanced (.str s) e.value

/-- Every value in the cache is an object. -/
def AllObjects (c : Cache) : Prop :=
  ∀ k e, (k, e) ∈ c → ∃ fields, e.value = .obj fields

/-- The states the process of server.js can be in: it starts with an empty
cache and no request sent; time passes; the three service methods run,
against any provider behaviour. -/
inductive Reachable : World → Prop where
  | start (now : Nat) : Reachable { cache := [], now := now, sent := [] }
  | tick (w : World) (t : Nat) : Reachable w → w.now ≤ t → Reachable { w with now := t }
  | search (u : Upstream) (w : World) (query : String) (page : Int) :
      Reachable w → Reachable (searchMovies u w query page).2
  | details (u : Upstream) (w : World) (imdbID : Val) :
      Reachable w → Reachable (getMovieDetails u w imdbID).2
  | trending (u : Upstream) (w : World) (pick : Fin 5) :
      Reachable w → Reachable (getTrendingMovies u w pick).2

/-- The states server.js can reach when every id it is given is plain: the
route parameters are strings, and the provider's search items carry plain
ids. -/
inductive ReachablePlain : World → Prop where
  | start (now : Nat) : ReachablePlain { cache := [], now := now, sent := [] }
  | tick (w : World) (t : Nat) : ReachablePlain w → w.now ≤ t → ReachablePlain { w with now := t }
  | search (u : Upstream) (w : World) (query : String) (page : Int) :
      PlainIds u → ReachablePlain w → ReachablePlain (searchMovies u w query page).2
  | details (u : Upstream) (w : World) (imdbID : String) :
      ReachablePlain w → ReachablePlain (getMovieDetails u w (.str imdbID)).2
  | trending (u : Upstream) (w : World) (pick : Fin 5) :
      PlainIds u → ReachablePlain w → ReachablePlain (getTrendingMovies u w pick).2

end MovieService

/-! ## server.js: concrete scenarios -/

namespace MovieService

/-- The process at start-up, at time 0. -/
def initial : World := { cache := [], now := 0, sent := [] }

/-- The detail payload of a title the provider knows. -/
def forrestDetails : Val :=
  .obj [("Title", .str "Forrest Gump"), ("Year", .str "1994"), ("imdbID", .str "tt0109830"),
    ("Response", .str "True")]

/-- The result items of the scenario: two titles, the first of them in the
`movieFiles` table. -/
def forrestItems : List Val :=
  [.obj [("Title", .str "Forrest Gump"), ("Year", .str "1994"), ("imdbID", .str "tt0109830")],
   .obj [("Title", .str "Forrest"), ("Year", .str "2006"), ("imdbID", .str "tt0000001")]]

/-- The search payload of the scenario. -/
def forrestSearch : Val :=
  .obj [("Search", .arr forrestItems), ("totalResults", .str "2"), ("Response", .str "True")]

/-- A provider that answers every search with `forrestSearch`, the detail
request for `tt0109830` with `forrestDetails`, and every other detail request
with `Response: 'False'`. -/
def omdb : Upstream := fun _ r =>
  match r.params.lookup "s", r.params.lookup "i" with
  | some _, _ => some forrestSearch
  | none, some (.str "tt0109830") => some forrestDetails
  | none, _ => some (.obj [("Response", .str "False"), ("Error", .str "Error getting data.")])

/-- A provider that finds nothing: every answer is `Response: 'False'`. -/
def notFound : Upstream := fun _ _ =>
  some (.obj [("Response", .str "False"), ("Error", .str "Movie not found!")])

/-- The state after one `searchMovies('forrest', 1)` against `omdb`. -/
def afterSearch : World := (searchMovies omdb initial "forrest" 1).2

/-- The state after one `searchMovies('zzzz', 1)` against `notFound`. -/
def afterNotFound : World := (searchMovies notFound initial "zzzz" 1).2

end MovieService

/-! ## The methods as promises: what can be thrown, and where it is caught -/

/-- What a block of an `async` method can throw: an error raised by the
computation itself, or the rejection of the outbound request it awaits. -/
inductive Thrown where
  | error (e : JsError)
  | requestFailed
  deriving DecidableEq

/-- How a block completes: normally with a value, or by throwing. For a whole
`async` method: its promise resolves with the value, or rejects. -/
abbrev Completion (α : Type) := Except Thrown α

/-- A block of code run against the world: its completion and the world it
leaves. -/
abbrev Step (α : Type) := World → Completion α × World

/-- The expression `await axios.get(url, { params })`: the request goes on the
wire; a rejected request throws. -/
def axiosGet (u : Upstream) (req : Request) : Step Val := fun w =>
  match u w.sent.length req with
  | none => (.error .requestFailed, w.send req)
  | some data => (.ok data, w.send req)

/-- The statement `try { body } catch (error) { handler }`: whatever `body`
throws is caught, and `handler` runs in the world `body` left. -/
def catchAll {α : Type} (body handler : Step α) : Step α := fun w =>
  match body w with
  | (.ok a, w') => (.ok a, w')
  | (.error _, w') => handler w'

namespace CineNova

/-- The `try` block of `getTrendingMovies` and of `searchMovies`: await the
request, map the result list, write the cache. -/
def fetchListBody (u : Upstream) (cacheKey : String) (req : Request) : Step Val := fun w =>
  match axiosGet u req w with
  | (.error e, w1) => (.error e, w1)
  | (.ok data, w1) =>
    match enrichResults data with
    | .error e => (.error (.error e), w1)
    | .ok movies => (.ok movies, w1.store cacheKey movies stdTTL)

/-- The shared shape of `getTrendingMovies` and `searchMovies` with its
`try`/`catch` spelled out; the cache read stands before the `try`. -/
def fetchListPromise (u : Upstream) (cacheKey : String) (req : Request) (fallback : Val) :
    Step Val := fun w =>
  if truthy (w.cache.get w.now cacheKey) then (.ok (w.cache.get w.now cacheKey), w)
  else catchAll (fetchListBody u cacheKey req) (fun w' => (.ok fallback, w')) w

/-- The promise of `getTrendingMovies()`. -/
def getTrendingMoviesPromise (u : Upstream) : Step Val :=
  fetchListPromise u "trending_movies" trendingRequest getFallbackContent

/-- The request of `searchMovies(query)` for an argument of any kind: `query`
goes into the parameters as it is. -/
def searchRequestOf (query : Val) : Request :=
  { url := TMDB_BASE_URL ++ "/search/movie",
    params := [("api_key", .str TMDB_API_KEY), ("query", query),
      ("include_adult", .bool false)] }

/-- The promise of `searchMovies(query)`, for an argument of any kind. The
template literal `search_${query}` and the cache read stand before the `try`,
so an argument whose string conversion throws rejects the promise. -/
def searchMoviesPromise (u : Upstream) (query : Val) : Step Val := fun w =>
  match query.toStr with
  | .error e => (.error (.error e), w)
  | .ok s => fetchListPromise u ("search_" ++ s) (searchRequestOf query) (.arr []) w

/-- The `try` block of `getMovieDetails(movieId)`; `s` is the text of
`${movieId}`, and the table key is `movieId.toString()`. -/
def detailsBody (u : Upstream) (movieId : Val) (s : String) : Step Val := fun w =>
  match axiosGet u (detailsRequest s) w with
  | (.error e, w1) => (.error e, w1)
  | (.ok data, w1) =>
    match movieId.toStringCall with
    | .error e => (.error (.error e), w1)
    | .ok key =>
      (.ok (overlay data key), w1.store ("movie_" ++ s) (overlay data key) stdTTL)

/-- The promise of `getMovieDetails(movieId)`, for an argument of any kind.
The template literal `movie_${movieId}` and the cache read stand before the
`try`, so an argument whose string conversion throws rejects the promise. -/
def getMovieDetailsPromise (u : Upstream) (movieId : Val) : Step Val := fun w =>
  match movieId.toStr with
  | .error e => (.error (.error e), w)
  | .ok s =>
    if truthy (w.cache.get w.now ("movie_" ++ s)) then
      (.ok (w.cache.get w.now ("movie_" ++ s)), w)
    else catchAll (detailsBody u movieId s) (fun w' => (.ok .null, w')) w

end CineNova

namespace MovieService

/-- The `try` block of `getMovieDetails(imdbID)`, which holds the whole
method body. -/
def detailsBody (u : Upstream) (imdbID : Val) : Step Val := fun w =>
  match imdbID.toStr with
  | .error e => (.error (.error e), w)
  | .ok s =>
    if truthy (w.cache.get w.now ("movie-" ++ s)) then (.ok (w.cache.get w.now ("movie-" ++ s)), w)
    else
      match axiosGet u (detailsRequest imdbID) w with
      | (.error e, w1) => (.error e, w1)
      | (.ok data, w1) =>
        match getProp data "Response" with
        | .error e => (.error (.error e), w1)
        | .ok r =>
          if r = .str "True" then
            (.ok (enhancedData data imdbID),
              w1.store ("movie-" ++ s) (enhancedData data imdbID) 3600)
          else (.ok .null, w1)

/-- The promise of `getMovieDetails(imdbID)`: the `catch` returns `null`. -/
def getMovieDetailsPromise (u : Upstream) (imdbID : Val) : Step Val :=
  catchAll (detailsBody u imdbID) (fun w' => (.ok .null, w'))

/-- The `try` block of `searchMovies(query, page)`, which holds the whole
method body. `Search.map` throws unless `Search` is an array, and
`await Promise.all(...)` throws when a callback rejected. -/
def searchBody (u : Upstream) (query : String) (page : Int) : Step Val := fun w =>
  if truthy (w.cache.get w.now (searchKey query page)) then
    (.ok (w.cache.get w.now (searchKey query page)), w)
  else
    match axiosGet u (searchRequest query page) w with
    | (.error e, w1) => (.error e, w1)
    | (.ok data, w1) =>
      match getProp data "Response" with
      | .error e => (.error (.error e), w1)
      | .ok r =>
        if r = .str "True" then
          match getProp data "Search" with
          | .ok (.arr items) =>
            match finishItems u (startItems w1 items).2 (startItems w1 items).1 with
            | (some enhancedMovies, w2) =>
              (.ok (.obj (objSet (spread data) "Search" (.arr enhancedMovies))),
                w2.store (searchKey query page)
                  (.obj (objSet (spread data) "Search" (.arr enhancedMovies))) 600)
            | (none, w2) => (.error (.error .typeError), w2)
          | _ => (.error (.error .typeError), w1)
        else (.ok emptyResult, w1)

/-- The promise of `searchMovies(query, page)`: the `catch` returns
`getSampleData()`. -/
def searchMoviesPromise (u : Upstream) (query : String) (page : Int) : Step Val :=
  catchAll (searchBody u query page) (fun w' => (.ok getSampleData, w'))

/-- The request of `searchMovies(query, page)` for arguments of any kind:
both go into the parameters as they are. -/
def searchRequestOf (query page : Val) : Request :=
  { url := OMDB_BASE_URL,
    params := [("apikey", .str OMDB_API_KEY), ("s", query), ("page", page),
      ("type", .str "movie")] }

/-- The `try` block of `searchMovies` once its cache key is built: the cache
read, the request `req`, the enhancement and the cache write. -/
def searchBodyWith (u : Upstream) (cacheKey : String) (req : Request) : Step Val := fun w =>
  if truthy (w.cache.get w.now cacheKey) then (.ok (w.cache.get w.now cacheKey), w)
  else
    match axiosGet u req w with
    | (.error e, w1) => (.error e, w1)
    | (.ok data, w1) =>
      match getProp data "Response" with
      | .error e => (.error (.error e), w1)
      | .ok r =>
        if r = .str "True" then
          match getProp data "Search" with
          | .ok (.arr items) =>
            match finishItems u (startItems w1 items).2 (startItems w1 items).1 with
            | (some enhancedMovies, w2) =>
              (.ok (.obj (objSet (spread data) "Search" (.arr enhancedMovies))),
                w2.store cacheKey
                  (.obj (objSet (spread data) "Search" (.arr enhancedMovies))) 600)
            | (none, w2) => (.error (.error .typeError), w2)
          | _ => (.error (.error .typeError), w1)
        else (.ok emptyResult, w1)

/-- The `try` block of `searchMovies(query, page = 1)` for arguments of any
kind: the template literal `search-${query}-${page}` converts both, inside the
`try`. -/
def searchBodyOf (u : Upstream) (query page : Val) : Step Val := fun w =>
  match query.toStr with
  | .error e => (.error (.error e), w)
  | .ok q =>
    match page.toStr with
    | .error e => (.error (.error e), w)
    | .ok p => searchBodyWith u ("search-" ++ q ++ "-" ++ p) (searchRequestOf query page) w

/-- The promise of `searchMovies(query, page = 1)` for arguments of any kind:
an `undefined` page takes the default, and the `catch` returns
`getSampleData()`. -/
def searchMoviesPromiseOf (u : Upstream) (query page : Val) : Step Val :=
  catchAll (searchBodyOf u query (if page = .undefined then .num 1 else page))
    (fun w' => (.ok getSampleData, w'))

/-- The promise of `getTrendingMovies()`: the promise of the search it
delegates to. -/
def getTrendingMoviesPromise (u : Upstream) (pick : Fin 5) : Step Val :=
  searchMoviesPromise u (popularSearches.getD pick.val "") 1

/-- The cache key `getTrendingMovies()` works with when it picks the
`pick`-th popular search. -/
def trendingKey (pick : Fin 5) : String :=
  searchKey (popularSearches.getD pick.val "") 1

/-- Method `getDownloadInfo(imdbID)`: `this.movieFiles.get(imdbID)`. -/
def getDownloadInfo (imdbID : Val) : Val :=
  movieFileOf imdbID

end MovieService

/-! ## Failures of the provider: vocabulary and scenarios -/

/-- A provider that is down: every request is rejected. -/
def down : Upstream := fun _ _ => none

/-- The provider did not deliver for the `n`-th request `req`: the request
was rejected, or (server.js) the answer does not carry `Response: 'True'`. -/
def FailsOrNotTrue (u : Upstream) (n : Nat) (req : Request) : Prop :=
  u n req = none ∨ ∃ data, u n req = some data ∧ getProp data "Response" ≠ .ok (.str "True")

namespace CineNova

/-- The malformed payloads of a successful response: no result list, a
result item that is `null` (or `undefined`), a result item without `id`. -/
def Malformed (data : Val) : Prop :=
  (∀ items, getProp data "results" ≠ .ok (.arr items)) ∨
  (∃ items, getProp data "results" = .ok (.arr items) ∧
    ∃ item ∈ items, item = .null ∨ item = .undefined ∨
      getProp item "id" = .ok .undefined ∨ getProp item "id" = .ok .null)

/-- A provider that answers every request with a payload that has no result
list. -/
def noResults : Upstream := fun _ _ => some (.obj [("status_message", .str "Invalid API key")])

/-- A provider whose result list holds a `null` item and an item without
`id`. -/
def badItems : Upstream := fun _ _ =>
  some (.obj [("results", .arr [.obj [("id", .num 1)], .null, .obj [("title", .str "X")]])])

end CineNova

namespace MovieService

/-- A provider that answers `Response: 'True'` without a `Search` list. -/
def noSearchList : Upstream := fun _ _ => some (.obj [("Response", .str "True")])

/-- A provider whose `Search` list holds a `null` item and an item without
`imdbID`; detail requests are answered `Response: 'False'`. -/
def badItems : Upstream := fun _ r =>
  match r.params.lookup "s" with
  | some _ =>
    some (.obj [("Search", .arr [.null, .obj [("Title", .str "X")]]), ("Response", .str "True")])
  | none => some (.obj [("Response", .str "False")])

end MovieService

/-! ## Cache keys: reading a page number back -/

/-- The value of a decimal digit character. -/
def digitValue (c : Char) : Nat :=
  c.toNat - '0'.toNat

/-- The number a list of decimal digit characters denotes. -/
def decodeDigits (cs : List Char) : Nat :=
  cs.foldl (fun acc c => acc * 10 + digitValue c) 0

/-! ## server.js: playback sources, the download proxy and the detail routes -/

/-- The property read `v.name` on a value that was tested truthy before (so
it is neither `undefined` nor `null`, on which the read would throw). -/
def field (v : Val) (name : String) : Val :=
  match getProp v name with
  | .ok x => x
  | .error _ => .undefined

/-- What a route handler answers: the status code and the JSON body.
`res.json(body)` answers with status 200 unless `res.status(code)` was called
first. -/
structure HttpResponse where
  status : Nat
  body : Val
  deriving DecidableEq

/-- The response object `res` as `downloadMovie` uses it: the headers set so
far and the stream piped into it, if any. -/
structure Res where
  headers : List (String × Val)
  piped : Option Val
  deriving DecidableEq

/-- The call `res.setHeader(name, value)`: the header is recorded, except that
the value `undefined` is refused with a `TypeError` carrying this message. -/
def Res.setHeader (res : Res) (name : String) (value : Val) : Except String Res :=
  if value = .undefined then
    .error ("Invalid value \"undefined\" for header \"" ++ name ++ "\"")
  else .ok { res with headers := objSet res.headers name value }

/-- The answer of a byte source to a streaming GET: the value of
`response.headers['content-length']` (`undefined` when the source sent none)
and the stream `response.data`. -/
structure StreamResponse where
  contentLength : Val
  data : Val
  deriving DecidableEq

/-- The byte sources seen from the service: the answer to the `n`-th outbound
request of the process. `.error message` is a rejected `axios` promise whose
error carries `message`. -/
abbrev ByteSource := Nat → Request → Except String StreamResponse

namespace MovieService

/-- Method `getVideoSources(imdbID)`. -/
def getVideoSources (imdbID : Val) : Val :=
  let movieInfo := movieFileOf imdbID
  if truthy movieInfo then
    .arr [.obj [("quality", field movieInfo "quality"), ("url", field movieInfo "downloadUrl"),
      ("type", .str "video/mp4"), ("title", field movieInfo "title")]]
  else .arr []

/-- The request `axios({ method: 'GET', url: movieInfo.downloadUrl,
responseType: 'stream' })`; the `downloadUrl` of every descriptor is a
string. -/
def downloadRequest (movieInfo : Val) : Request :=
  { url := match field movieInfo "downloadUrl" with
      | .str s => s
      | _ => "",
    params := [] }

/-- The statements of the `try` block of `downloadMovie` after the answer of
the byte source is in: three headers, then the pipe. A throw carries the
message of the error. -/
def sendFile (movieInfo : Val) (response : StreamResponse) (res : Res) : Except String Unit × Res :=
  match (field movieInfo "filename").toStr with
  | .error _ => (.error "Cannot convert object to primitive value", res)
  | .ok filename =>
    match res.setHeader "Content-Disposition" (.str ("attachment; filename=\"" ++ filename ++ "\"")) with
    | .error message => (.error message, res)
    | .ok res1 =>
      match res1.setHeader "Content-Type" (.str "video/mp4") with
      | .error message => (.error message, res1)
      | .ok res2 =>
        match res2.setHeader "Content-Length" response.contentLength with
        | .error message => (.error message, res2)
        | .ok res3 => (.ok (), { res3 with piped := some response.data })

/-- Method `downloadMovie(imdbID, res)`: the outcome of the returned promise
(`.error message` is a rejection with `new Error(message)`), the world and the
response object afterwards. -/
def downloadMovie (src : ByteSource) (w : World) (res : Res) (imdbID : Val) :
    Except String Unit × World × Res :=
  let movieInfo := movieFileOf imdbID
  if truthy movieInfo then
    match src w.sent.length (downloadRequest movieInfo) with
    | .error message =>
      (.error ("Download failed: " ++ message), w.send (downloadRequest movieInfo), res)
    | .ok response =>
      match sendFile movieInfo response res with
      | (.error message, res') =>
        (.error ("Download failed: " ++ message), w.send (downloadRequest movieInfo), res')
      | (.ok (), res') => (.ok (), w.send (downloadRequest movieInfo), res')
  else (.error "Movie not available for download", w, res)

/-- The handler of `GET /api/movie/:id`: `res.json(movie || {})`, and
`res.json({})` in the `catch`. -/
def apiMovie (u : Upstream) (w : World) (id : String) : HttpResponse × World :=
  match getMovieDetailsPromise u (.str id) w with
  | (.ok movie, w') =>
    ({ status := 200, body := if truthy movie then movie else .obj [] }, w')
  | (.error _, w') => ({ status := 200, body := .obj [] }, w')

/-- The reads the detail page `GET /movie/:id` makes on its record for the
download box: `movie.canDownload`, and under a truthy `canDownload` the reads
`movie.downloadInfo.quality` and `movie.downloadInfo.size`. -/
def pageDownloadInfo (movie : Val) : Js (Option (Val × Val)) :=
  match getProp movie "canDownload" with
  | .error e => .error e
  | .ok canDownload =>
    if truthy canDownload then
      match getProp movie "downloadInfo" with
      | .error e => .error e
      | .ok downloadInfo =>
        match getProp downloadInfo "quality", getProp downloadInfo "size" with
        | .ok quality, .ok size => .ok (some (quality, size))
        | _, _ => .error .typeError
    else .ok none

end MovieService

namespace CineNova

/-- The handler of `GET /api/movie/:id`: the record when it is truthy, a 404
with `{ error: 'Movie not found' }` otherwise, a 500 in the `catch`. -/
def apiMovie (u : Upstream) (w : World) (id : String) : HttpResponse × World :=
  match getMovieDetailsPromise u (.str id) w with
  | (.ok movie, w') =>
    if truthy movie then ({ status := 200, body := movie }, w')
    else ({ status := 404, body := .obj [("error", .str "Movie not found")] }, w')
  | (.error _, w') =>
    ({ status := 500, body := .obj [("error", .str "Internal server error")] }, w')

end CineNova

/-! ## The service instances: the table as a field of `this`

The methods once more, this time reading the availability table from the
instance they run on and handing the instance back, so that what a method
does to the table is part of its result. -/

namespace CineNova

/-- An instance of `CineNovaMovieService` as its methods see it: the field
`this.videoSources`, and the world behind `this.cache` and `axios`. -/
structure Service where
  videoSources : List (String × Val)
  world : World
  deriving DecidableEq

/-- The constructor: `this.videoSources = this.initializeVideoSources()`. -/
def Service.create (w : World) : Service :=
  { videoSources := CineNova.videoSources, world := w }

/-- The record of the three enrichment sites, with both table reads
`this.videoSources[key]` made on the instance. -/
def Service.overlay (self : Service) (movie : Val) (key : String) : Val :=
  .obj (objSet (objSet (objSet (spread movie)
    "canPlay" (.bool (truthy (objIndex self.videoSources key))))
    "canDownload" (.bool true))
    "videoSource" (objIndex self.videoSources key))

/-- The callback of `results.map(...)`. -/
def Service.enrich (self : Service) (movie : Val) : Js Val :=
  match getProp movie "id" with
  | .error e => .error e
  | .ok id =>
    match id.toStringCall with
    | .error e => .error e
    | .ok key => .ok (self.overlay movie key)

/-- The expression `response.data.results.map(movie => ...)`. -/
def Service.enrichResults (self : Service) (data : Val) : Js Val :=
  match getProp data "results" with
  | .error e => .error e
  | .ok results => mapArray self.enrich results

/-- The shared shape of `getTrendingMovies` and `searchMovies`. -/
def Service.fetchList (self : Service) (u : Upstream) (cacheKey : String) (req : Request)
    (fallback : Val) : Val × Service :=
  let movies := self.world.cache.get self.world.now cacheKey
  if truthy movies then (movies, self)
  else
    match u self.world.sent.length req with
    | none => (fallback, { self with world := self.world.send req })
    | some data =>
      match self.enrichResults data with
      | .error _ => (fallback, { self with world := self.world.send req })
      | .ok movies =>
        (movies, { self with world := (self.world.send req).store cacheKey movies stdTTL })

/-- Method `getFallbackContent()`. -/
def Service.getFallbackContent (self : Service) : Val × Service :=
  (.arr [], self)

/-- Method `getTrendingMovies()`. -/
def Service.getTrendingMovies (self : Service) (u : Upstream) : Val × Service :=
  self.fetchList u "trending_movies" trendingRequest self.getFallbackContent.1

/-- Method `searchMovies(query)`. -/
def Service.searchMovies (self : Service) (u : Upstream) (query : String) : Val × Service :=
  self.fetchList u ("search_" ++ query) (searchRequest query) (.arr [])

/-- Method `getMovieDetails(movieId)`. -/
def Service.getMovieDetails (self : Service) (u : Upstream) (movieId : String) : Val × Service :=
  let cacheKey := "movie_" ++ movieId
  let movieDetails := self.world.cache.get self.world.now cacheKey
  if truthy movieDetails then (movieDetails, self)
  else
    match u self.world.sent.length (detailsRequest movieId) with
    | none => (.null, { self with world := self.world.send (detailsRequest movieId) })
    | some data =>
      let movieDetails := self.overlay data movieId
      (movieDetails, { self with
        world := (self.world.send (detailsRequest movieId)).store cacheKey movieDetails stdTTL })

/-- Method `getFeaturedMovie(movies)`: reads its argument only. -/
def Service.getFeaturedMovie (self : Service) (movies : List Val) : Js Val × Service :=
  (CineNova.getFeaturedMovie movies, self)

/-- Method `getOtherMovies(movies, featuredMovie)`: reads its arguments
only. -/
def Service.getOtherMovies (self : Service) (movies : List Val) (featuredMovie : Val) :
    Js (List Val) × Service :=
  (CineNova.getOtherMovies movies featuredMovie, self)

end CineNova

namespace MovieService

/-- An instance of `MovieService` as its methods see it: the entries of the
map `this.movieFiles`, and the world behind `this.cache` and `axios`. -/
structure Service where
  movieFiles : List (String × Val)
  world : World
  deriving DecidableEq

/-- The constructor: `this.movieFiles = new Map()` filled by
`initializeSampleMovies()` with the entries of `sampleMovies`. -/
def Service.create (w : World) : Service :=
  { movieFiles := MovieService.sampleMovies, world := w }

/-- The table lookup `this.movieFiles.get(key)` on the instance. -/
def Service.movieFile (self : Service) : Val → Val
  | .str s => objGet self.movieFiles s
  | _ => .undefined

/-- The record `{ ...response.data, canDownload: !!downloadInfo, downloadInfo }`
of `getMovieDetails`. -/
def Service.enhancedData (self : Service) (data imdbID : Val) : Val :=
  .obj (objSet (objSet (spread data)
    "canDownload" (.bool (truthy (self.movieFile imdbID))))
    "downloadInfo" (self.movieFile imdbID))

/-- The rest of `getMovieDetails(imdbID)` once the answer is in. -/
def Service.detailsFinish (self : Service) (u : Upstream) (imdbID : Val) :
    Started → Val × Service
  | .settled v => (v, self)
  | .waiting seq cacheKey =>
    match u seq (detailsRequest imdbID) with
    | none => (.null, self)
    | some data =>
      match getProp data "Response" with
      | .error _ => (.null, self)
      | .ok r =>
        if r = .str "True" then
          (self.enhancedData data imdbID,
            { self with world := self.world.store cacheKey (self.enhancedData data imdbID) 3600 })
        else (.null, self)

/-- The instance after the synchronous first part of `getMovieDetails`, which
reads no table. -/
def Service.started (self : Service) (imdbID : Val) : Service :=
  { self with world := (detailsStart self.world imdbID).2 }

/-- Method `getMovieDetails(imdbID)`. -/
def Service.getMovieDetails (self : Service) (u : Upstream) (imdbID : Val) : Val × Service :=
  (self.started imdbID).detailsFinish u imdbID (detailsStart self.world imdbID).1

/-- The record `{ ...movie, ...details, canDownload: !!downloadInfo, downloadInfo }`
of `searchMovies`. -/
def Service.enhancedMovie (self : Service) (movie details imdbID : Val) : Val :=
  .obj (objSet (objSet (assign (spread movie) (spread details))
    "canDownload" (.bool (truthy (self.movieFile imdbID))))
    "downloadInfo" (self.movieFile imdbID))

/-- The callbacks of `Search.map(async ...)` resumed; each reads the table
after its detail call has returned. -/
def Service.finishItems (self : Service) (u : Upstream) : List Task → Option (List Val) × Service
  | [] => (some [], self)
  | .rejected :: rest => (none, (Service.finishItems self u rest).2)
  | .running movie imdbID s :: rest =>
    ((Service.finishItems (self.detailsFinish u imdbID s).2 u rest).1.map
        (fun items => (self.detailsFinish u imdbID s).2.enhancedMovie movie
          (self.detailsFinish u imdbID s).1 imdbID :: items),
      (Service.finishItems (self.detailsFinish u imdbID s).2 u rest).2)

/-- Method `getSampleData()`: one literal item whose `downloadInfo` is
`this.movieFiles.get("tt0109830")`. -/
def Service.getSampleData (self : Service) : Val × Service :=
  (.obj [("Search", .arr [.obj [("imdbID", .str "tt0109830"), ("Title", .str "Forrest Gump"),
      ("Year", .str "1994"), ("Type", .str "movie"),
      ("Poster", .str "https://m.media-amazon.com/images/M/MV5BNWIwODRlZTUtY2U3ZS00Yzg1LWJhNzYtMmZiYmEyNmU1NjMzXkEyXkFqcGdeQXVyMTQxNzMzNDI@._V1_SX300.jpg"),
      ("Plot", .str "The presidencies of Kennedy and Johnson, the Vietnam War, the Watergate scandal and other historical events unfold from the perspective of an Alabama man with an IQ of 75, whose only desire is to be reunited with his childhood sweetheart."),
      ("canDownload", .bool true),
      ("downloadInfo", self.movieFile (.str "tt0109830"))]]),
    ("totalResults", .str "1"), ("Response", .str "True")], self)

/-- The part of `searchMovies` after `Response === 'True'`. -/
def Service.enhanceSearch (self : Service) (u : Upstream) (cacheKey : String) (data : Val) :
    Val × Service :=
  match getProp data "Search" with
  | .ok (.arr items) =>
    match Service.finishItems { self with world := (startItems self.world items).2 } u
        (startItems self.world items).1 with
    | (some enhancedMovies, after) =>
      let result := Val.obj (objSet (spread data) "Search" (.arr enhancedMovies))
      (result, { after with world := after.world.store cacheKey result 600 })
    | (none, after) => after.getSampleData
  | _ => self.getSampleData

/-- Method `searchMovies(query, page = 1)`. -/
def Service.searchMovies (self : Service) (u : Upstream) (query : String) (page : Int) :
    Val × Service :=
  let cacheKey := searchKey query page
  let cached := self.world.cache.get self.world.now cacheKey
  if truthy cached then (cached, self)
  else
    match u self.world.sent.length (searchRequest query page) with
    | none =>
      Service.getSampleData { self with world := self.world.send (searchRequest query page) }
    | some data =>
      match getProp data "Response" with
      | .error _ =>
        Service.getSampleData { self with world := self.world.send (searchRequest query page) }
      | .ok r =>
        if r = .str "True" then
          Service.enhanceSearch { self with world := self.world.send (searchRequest query page) }
            u cacheKey data
        else (emptyResult, { self with world := self.world.send (searchRequest query page) })

/-- Method `getTrendingMovies()`. -/
def Service.getTrendingMovies (self : Service) (u : Upstream) (pick : Fin 5) : Val × Service :=
  self.searchMovies u (popularSearches.getD pick.val "") 1

/-- Method `getVideoSources(imdbID)`. -/
def Service.getVideoSources (self : Service) (imdbID : Val) : Val × Service :=
  let movieInfo := self.movieFile imdbID
  if truthy movieInfo then
    (.arr [.obj [("quality", field movieInfo "quality"), ("url", field movieInfo "downloadUrl"),
      ("type", .str "video/mp4"), ("title", field movieInfo "title")]], self)
  else (.arr [], self)

/-- Method `getDownloadInfo(imdbID)`. -/
def Service.getDownloadInfo (self : Service) (imdbID : Val) : Val × Service :=
  (self.movieFile imdbID, self)

/-- Method `downloadMovie(imdbID, res)`. -/
def Service.downloadMovie (self : Service) (src : ByteSource) (res : Res) (imdbID : Val) :
    Except String Unit × Service × Res :=
  let movieInfo := self.movieFile imdbID
  if truthy movieInfo then
    match src self.world.sent.length (downloadRequest movieInfo) with
    | .error message =>
      (.error ("Download failed: " ++ message),
        { self with world := self.world.send (downloadRequest movieInfo) }, res)
    | .ok response =>
      match sendFile movieInfo response res with
      | (.error message, res') =>
        (.error ("Download failed: " ++ message),
          { self with world := self.world.send (downloadRequest movieInfo) }, res')
      | (.ok (), res') =>
        (.ok (), { self with world := self.world.send (downloadRequest movieInfo) }, res')
  else (.error "Movie not available for download", self, res)

end MovieService

/-! ## Scenarios of the download proxy -/

namespace MovieService

/-- A byte source that refuses every connection. -/
def unreachable : ByteSource := fun _ _ => .error "connect ECONNREFUSED"

/-- A response object nothing has been written to. -/
def freshRes : Res := { headers := [], piped := none }

end MovieService

/-! ## server.js: the cache writes of a call, and what they store -/

namespace MovieService

/-- Every running callback waits, if it waits, on the cache key of its id. -/
def TasksKeyed (tasks : List Task) : Prop :=
  ∀ t ∈ tasks, ∀ movie imdbID st, t = .running movie imdbID st → StartedFor imdbID st

/-- The cache `c2` is the cache `c1` after a sequence of `cache.set` calls
made at instant `now`, each with a key, a value and a TTL that `P` admits. -/
inductive Writes (now : Nat) (P : String → Val → Nat → Prop) (c1 : Cache) : Cache → Prop where
  | done : Writes now P c1 c1
  | write (c2 : Cache) (key : String) (value : Val) (ttl : Nat) :
      Writes now P c1 c2 → P key value ttl → Writes now P c1 (c2.set now key value ttl)

/-- The shape of the cache write of `getMovieDetails`: a key `movie-...`, the
enhanced record of an answer, 3600 seconds. -/
def DetailWrite (key : String) (value : Val) (ttl : Nat) : Prop :=
  (∃ s, key = "movie-" ++ s) ∧ (∃ data imdbID, value = enhancedData data imdbID) ∧ ttl = 3600

/-- The shape of the cache write of `searchMovies` itself: the key of the
search, the answer with its `Search` replaced by enhanced items, 600
seconds. -/
def SearchWrite (cacheKey : String) (key : String) (value : Val) (ttl : Nat) : Prop :=
  key = cacheKey ∧
  (∃ data items, value = .obj (objSet (spread data) "Search" (.arr items)) ∧
    ∀ item ∈ items, ∃ movie details imdbID, item = enhancedMovie movie details imdbID) ∧
  ttl = 600

/-- The flag `canDownload` of `r` is a boolean that is true exactly when the
field `downloadInfo` of `r` is present (not `undefined`). -/
def DownloadConsistent (r : Val) : Prop :=
  ∃ b d, getProp r "canDownload" = .ok (.bool b) ∧ getProp r "downloadInfo" = .ok d ∧
    (b = true ↔ d ≠ .undefined)

/-- A result whose `Search` is an array of records, each with the two overlay
fields of some id. -/
def EnhancedListing (v : Val) : Prop :=
  ∃ items, getProp v "Search" = .ok (.arr items) ∧ ∀ item ∈ items, ∃ imdbID, Enhanced imdbID item

/-- The invariant of the cache of server.js as to what it can hand out: under
a key `movie-...` a record with the overlay fields of some id, under every
other key an enhanced listing. -/
def HandOK (c : Cache) : Prop :=
  ∀ k e, (k, e) ∈ c →
    ((∃ s, k = "movie-" ++ s) → ∃ imdbID, Enhanced imdbID e.value) ∧
    ((∀ s, k ≠ "movie-" ++ s) → EnhancedListing e.value)

end MovieService

/-! ## Both variants: what a fetched listing owes to the provider's items -/

namespace CineNova

/-- A listing fetch that succeeds: nothing live is cached under `cacheKey`,
the provider answers `req` with `data`, and `data.results` is the array
`items`, each item with an `id` that has a `toString()`. -/
def ListFetched (u : Upstream) (w : World) (cacheKey : String) (req : Request)
    (data : Val) (items : List Val) : Prop :=
  truthy (w.cache.get w.now cacheKey) = false ∧
  u w.sent.length req = some data ∧
  getProp data "results" = .ok (.arr items) ∧
  ∀ item ∈ items, ∃ id key, getProp item "id" = .ok id ∧ id.toStringCall = .ok key

/-- The record `r` is the enrichment of the provider's item `movie`: its three
overlay fields are computed from `movie.id`, and every other field reads as
the own property of `movie` of that name. -/
def EnrichedFrom (movie r : Val) : Prop :=
  ∃ id key, getProp movie "id" = .ok id ∧ id.toStringCall = .ok key ∧ Overlaid key r ∧
    ∀ name, name ≠ "canPlay" → name ≠ "canDownload" → name ≠ "videoSource" →
      getProp r name = .ok (objGet (spread movie) name)

/-- The result items of the provider `trendingOnly`. -/
def trendingItems : List Val :=
  [.obj [("id", .num 1), ("title", .str "A")],
   .obj [("id", .num 299534), ("title", .str "Avengers: Endgame")],
   .obj [("id", .num 181808), ("title", .str "Star Wars: The Last Jedi")]]

/-- The answer of the provider `trendingOnly` to the trending request. -/
def trendingData : Val :=
  .obj [("page", .num 1), ("results", .arr trendingItems)]

end CineNova

namespace MovieService

/-- The detail lookup for `imdbID` fails in a call that starts in `w`: nothing
live is cached under the key of `imdbID`, and the provider rejects the detail
request or answers it without `Response: 'True'`, whenever it is sent. -/
def DetailFails (u : Upstream) (w : World) (imdbID : Val) : Prop :=
  (∀ s, imdbID.toStr = .ok s → truthy (w.cache.get w.now ("movie-" ++ s)) = false) ∧
  ∀ n, FailsOrNotTrue u n (detailsRequest imdbID)

/-- The callback of item `movie` started its detail call against the cache
and the clock of `w`. -/
def StartedIn (w : World) (movie : Val) (t : Task) : Prop :=
  ∃ imdbID w2, getProp movie "imdbID" = .ok imdbID ∧ w2.cache = w.cache ∧ w2.now = w.now ∧
    t = .running movie imdbID (detailsStart w2 imdbID).1

/-- The record `item` is the enhancement of the provider's item `movie`: its
two overlay fields are computed from `movie.imdbID`, and when the detail
lookup for that id fails, every other field reads as the own property of
`movie` of that name. -/
def EnhancedFrom (u : Upstream) (w : World) (movie item : Val) : Prop :=
  ∃ imdbID, getProp movie "imdbID" = .ok imdbID ∧ Enhanced imdbID item ∧
    (DetailFails u w imdbID → ∀ name, name ≠ "canDownload" → name ≠ "downloadInfo" →
      getProp item name = .ok (objGet (spread movie) name))

/-- A provider that answers every search with `forrestSearch` and rejects
every detail request. -/
def searchOnly : Upstream := fun _ r =>
  match r.params.lookup "s" with
  | some _ => some forrestSearch
  | none => none

end MovieService

/-! ## Scenarios at the edges of the id space -/

namespace CineNova

/-- A provider that answers the trending request with `trendingData` and every
other request with a record that has a title only. -/
def anyTitle : Upstream := fun _ r =>
  if r = trendingRequest then some trendingData
  else some (.obj [("title", .str "Untitled")])

end CineNova

namespace MovieService

/-- A provider whose search result carries its one item's id as a one-element
array, and which answers every detail request with `Response: 'True'`. -/
def arrayIds : Upstream := fun _ r =>
  match r.params.lookup "s" with
  | some _ =>
    some (.obj [("Search", .arr [.obj [("Title", .str "Forrest Gump"),
        ("imdbID", .arr [.str "tt0109830"])]]),
      ("totalResults", .str "1"), ("Response", .str "True")])
  | none => some (.obj [("Title", .str "Forrest Gump"), ("Response", .str "True")])

/-- The state after one `searchMovies('forrest', 1)` against `arrayIds`. -/
def afterArraySearch : World := (searchMovies arrayIds initial "forrest" 1).2

/-- A search item with the id `tt0000001`. -/
def otherIdItem : Val :=
  .obj [("Title", .str "Forrest"), ("imdbID", .str "tt0000001")]

/-- A detail answer that carries the id `tt0109830`. -/
def otherIdDetails : Val :=
  .obj [("Title", .str "Forrest Gump"), ("imdbID", .str "tt0109830"), ("Response", .str "True")]

/-- A provider whose search result is the one item `otherIdItem` and whose
detail answers are all `otherIdDetails`. -/
def otherId : Upstream := fun _ r =>
  match r.params.lookup "s" with
  | some _ =>
    some (.obj [("Search", .arr [otherIdItem]), ("totalResults", .str "1"),
      ("Response", .str "True")])
  | none => some otherIdDetails

end MovieService

namespace MovieService

/-- The malformed payloads of an answer of the provider of server.js: a
payload on which `Response` cannot be read (`null`), or `Response: 'True'`
without a `Search` array, or with a `Search` array that holds a `null` (or
`undefined`) item. -/
def Malformed (data : Val) : Prop :=
  (∃ e, getProp data "Response" = .error e) ∨
  (getProp data "Response" = .ok (.str "True") ∧
    ((∀ items, getProp data "Search" ≠ .ok (.arr items)) ∨
      ∃ items, getProp data "Search" = .ok (.arr items) ∧
        ∃ item ∈ items, item = .null ∨ item = .undefined))

end MovieService

/-- An object whose own `toString` is not a function (what the query string
`?q[toString]=x` can parse to): its conversion to a string throws. -/
def unconvertible : Val := .obj [("toString", .str "x")]
/-! ## Objects, keys and the cache: basic facts -/

theorem objGet_objSet_same (fields : List (String × Val)) (name : String) (v : Val) :
    objGet (objSet fields name v) name = v := by
  induction fields with
  | nil => simp [objSet, objGet, List.lookup]
  | cons kv rest ih =>
    obtain ⟨k, x⟩ := kv
    by_cases h : k = name
    · subst h
      simp [objSet, objGet, List.lookup]
    · have h2 : (name == k) = false := by simpa using fun e => h e.symm
      simp only [objSet, beq_iff_eq, h, if_false]
      simpa [objGet, List.lookup, h2] using ih

theorem objGet_objSet_ne (fields : List (String × Val)) (name other : String) (v : Val)
    (hne : other ≠ name) : objGet (objSet fields name v) other = objGet fields other := by
  induction fields with
  | nil =>
    have h2 : (other == name) = false := by simpa using hne
    simp [objSet, objGet, List.lookup, h2]
  | cons kv rest ih =>
    obtain ⟨k, x⟩ := kv
    by_cases h : k = name
    · subst h
      have h2 : (other == k) = false := by simpa using hne
      simp [objSet, objGet, List.lookup, h2]
    · simp only [objSet, beq_iff_eq, h, if_false]
      by_cases h3 : other = k
      · subst h3
        simp [objGet, List.lookup]
      · have h4 : (other == k) = false := by simpa using h3
        simpa [objGet, List.lookup, h4] using ih

theorem mem_of_lookup_eq_some {α : Type} (l : List (String × α)) (k : String) (x : α)
    (h : l.lookup k = some x) : (k, x) ∈ l := by
  induction l with
  | nil => simp [List.lookup] at h
  | cons kv rest ih =>
    obtain ⟨k', x'⟩ := kv
    by_cases hk : k = k'
    · subst hk
      simp [List.lookup] at h
      simp [h]
    · have h2 : (k == k') = false := by simpa using hk
      simp only [List.lookup, h2] at h
      exact List.mem_cons_of_mem _ (ih h)

theorem lookup_filter_ne {α : Type} (l : List (String × α)) (k other : String)
    (hne : other ≠ k) : (l.filter (fun kv => kv.1 != k)).lookup other = l.lookup other := by
  induction l with
  | nil => rfl
  | cons kv rest ih =>
    obtain ⟨k', x'⟩ := kv
    by_cases hk : k' = k
    · subst hk
      have h2 : (other == k') = false := by simpa using hne
      simp [List.filter, List.lookup, h2, ih]
    · have h3 : (k' != k) = true := by simpa using hk
      simp only [List.filter, h3]
      by_cases h4 : other = k'
      · subst h4
        simp [List.lookup]
      · have h5 : (other == k') = false := by simpa using h4
        simp [List.lookup, h5, ih]

theorem Cache.live_set_same (c : Cache) (now t : Nat) (key : String) (v : Val) (ttl : Nat) :
    (c.set now key v ttl).live t key = if now + ttl * 1000 < t then none else some v := by
  simp [Cache.set, Cache.live, List.lookup]

theorem Cache.live_set_ne (c : Cache) (now t : Nat) (key other : String) (v : Val) (ttl : Nat)
    (hne : other ≠ key) : (c.set now key v ttl).live t other = c.live t other := by
  have h2 : (other == key) = false := by simpa using hne
  simp [Cache.set, Cache.live, List.lookup, h2, lookup_filter_ne _ _ _ hne]

theorem Cache.mem_set (c : Cache) (now : Nat) (key : String) (v : Val) (ttl : Nat)
    (k : String) (e : CacheEntry) (h : (k, e) ∈ c.set now key v ttl) :
    (k = key ∧ e.value = v ∧ e.expires = now + ttl * 1000) ∨ (k, e) ∈ c := by
  simp only [Cache.set, List.mem_cons, List.mem_filter] at h
  rcases h with h | h
  · left
    cases h
    exact ⟨rfl, rfl, rfl⟩
  · exact Or.inr h.1

theorem Cache.mem_of_live (c : Cache) (now : Nat) (key : String) (v : Val)
    (h : c.live now key = some v) : ∃ e, (key, e) ∈ c ∧ e.value = v := by
  unfold Cache.live at h
  cases hl : c.lookup key with
  | none => simp [hl] at h
  | some e =>
    simp only [hl] at h
    by_cases hx : e.expires < now
    · simp [hx] at h
    · simp only [hx, if_false, Option.some.injEq] at h
      exact ⟨e, mem_of_lookup_eq_some _ _ _ hl, h⟩

theorem Cache.live_of_truthy_get (c : Cache) (now : Nat) (key : String)
    (h : truthy (c.get now key) = true) : c.live now key = some (c.get now key) := by
  unfold Cache.get at h ⊢
  cases hl : c.live now key with
  | none => simp [hl, truthy] at h
  | some v => simp

theorem Cache.get_of_live (c : Cache) (now : Nat) (key : String) (v : Val)
    (h : c.live now key = some v) : c.get now key = v := by
  simp [Cache.get, h]

theorem append_left_cancel_string (p a b : String) (h : p ++ a = p ++ b) : a = b := by
  have h2 := congrArg String.data h
  simp only [String.data_append] at h2
  exact String.ext (List.append_cancel_left h2)

theorem ne_of_data_head_ne (p q a b : String) (c d : Char) (pr qr : List Char)
    (hp : p.data = c :: pr) (hq : q.data = d :: qr) (hcd : c ≠ d) : p ++ a ≠ q ++ b := by
  intro h
  have h2 := congrArg String.data h
  simp only [String.data_append, hp, hq, List.cons_append, List.cons.injEq] at h2
  exact hcd h2.1

theorem lookup_eq_none_of_not_mem {α : Type} (l : List (String × α)) (k : String)
    (h : k ∉ l.map Prod.fst) : l.lookup k = none := by
  induction l with
  | nil => rfl
  | cons kv rest ih =>
    obtain ⟨k2, x⟩ := kv
    simp only [List.map_cons, List.mem_cons, not_or] at h
    have h2 : (k == k2) = false := by simpa using h.1
    simp [List.lookup, h2, ih h.2]

theorem objIndex_own (fields : List (String × Val)) (key : String) (v : Val)
    (h : fields.lookup key = some v) : objIndex fields key = v := by
  simp only [objIndex, h]

theorem objIndex_plain (fields : List (String × Val)) (key : String)
    (h : ¬ Inherited key) :
    objIndex fields key = (match fields.lookup key with
      | some v => v
      | none => .undefined) := by
  unfold objIndex
  cases fields.lookup key with
  | some v => rfl
  | none => simp only [objGet, lookup_eq_none_of_not_mem _ _ h, Option.getD_none]

theorem inherited_members_truthy : ∀ kv ∈ objectPrototype, truthy kv.2 = true := by
  decide

theorem objIndex_inherited (fields : List (String × Val)) (key : String)
    (hown : fields.lookup key = none) (h : Inherited key) :
    truthy (objIndex fields key) = true := by
  simp only [objIndex, hown, objGet]
  cases hl : objectPrototype.lookup key with
  | none =>
    exfalso
    unfold Inherited at h
    obtain ⟨kv, hmem, hk⟩ := List.mem_map.1 h
    have hne : objectPrototype.lookup key ≠ none := by
      intro hnone
      have := List.lookup_eq_none_iff.1 hnone kv hmem
      simp [hk] at this
    exact hne hl
  | some v => exact inherited_members_truthy (key, v) (mem_of_lookup_eq_some _ _ _ hl)

/-! ## app.js: enrichment and the cache invariant -/

namespace CineNova

theorem overlaid_overlay (movie : Val) (key : String) : Overlaid key (overlay movie key) := by
  refine ⟨?_, ?_, ?_⟩
  · simp only [overlay, getProp]
    rw [objGet_objSet_ne _ _ _ _ (by decide), objGet_objSet_ne _ _ _ _ (by decide),
      objGet_objSet_same]
  · simp only [overlay, getProp]
    rw [objGet_objSet_ne _ _ _ _ (by decide), objGet_objSet_same]
  · simp only [overlay, getProp]
    rw [objGet_objSet_same]

theorem getProp_overlay_other (movie : Val) (key name : String) (h1 : name ≠ "canPlay")
    (h2 : name ≠ "canDownload") (h3 : name ≠ "videoSource") :
    getProp (overlay movie key) name = .ok (objGet (spread movie) name) := by
  simp only [overlay, getProp]
  rw [objGet_objSet_ne _ _ _ _ h3, objGet_objSet_ne _ _ _ _ h2, objGet_objSet_ne _ _ _ _ h1]

theorem enrich_ok (movie r : Val) (h : enrich movie = .ok r) : ItemOK r := by
  unfold enrich at h
  cases hid : getProp movie "id" with
  | error e => simp [hid] at h
  | ok id =>
    simp only [hid] at h
    cases hkey : id.toStringCall with
    | error e => simp [hkey] at h
    | ok key =>
      simp only [hkey, Except.ok.injEq] at h
      subst h
      refine ⟨id, key, ?_, hkey, overlaid_overlay movie key⟩
      rw [getProp_overlay_other _ _ _ (by decide) (by decide) (by decide)]
      cases movie with
      | obj fields => simpa [getProp, spread] using hid
      | undefined => simp [getProp] at hid
      | null => simp [getProp] at hid
      | bool b =>
        simp only [getProp, Except.ok.injEq] at hid
        subst hid
        simp [Val.toStringCall] at hkey
      | num n =>
        simp only [getProp, Except.ok.injEq] at hid
        subst hid
        simp [Val.toStringCall] at hkey
      | str s =>
        simp only [getProp, Except.ok.injEq] at hid
        subst hid
        simp [Val.toStringCall] at hkey
      | arr items =>
        simp only [getProp, Except.ok.injEq] at hid
        subst hid
        simp [Val.toStringCall] at hkey
      | native name =>
        simp only [getProp, Except.ok.injEq] at hid
        subst hid
        simp [Val.toStringCall] at hkey

theorem mapItems_enrich_ok (items rs : List Val) (h : mapItems enrich items = .ok rs) :
    ∀ r ∈ rs, ItemOK r := by
  induction items generalizing rs with
  | nil =>
    simp only [mapItems, Except.ok.injEq] at h
    subst h
    simp
  | cons x xs ih =>
    unfold mapItems at h
    cases hx : enrich x with
    | error e => simp [hx] at h
    | ok y =>
      simp only [hx] at h
      cases hxs : mapItems enrich xs with
      | error e => simp [hxs] at h
      | ok ys =>
        simp only [hxs, Except.ok.injEq] at h
        subst h
        intro r hr
        rcases List.mem_cons.mp hr with hr | hr
        · subst hr
          exact enrich_ok x r hx
        · exact ih ys hxs r hr

theorem enrichResults_ok (data v : Val) (h : enrichResults data = .ok v) : ListOK v := by
  unfold enrichResults at h
  cases hres : getProp data "results" with
  | error e => simp [hres] at h
  | ok results =>
    simp only [hres] at h
    cases results with
    | arr items =>
      simp only [mapArray] at h
      cases hm : mapItems enrich items with
      | error e => simp [hm] at h
      | ok rs =>
        simp only [hm, Except.ok.injEq] at h
        exact ⟨rs, h.symm, mapItems_enrich_ok items rs hm⟩
    | _ => simp [mapArray] at h

theorem listOK_empty : ListOK (.arr []) := ⟨[], rfl, by simp⟩

theorem movie_key_injective (a b : String) (h : "movie_" ++ a = "movie_" ++ b) : a = b :=
  append_left_cancel_string _ _ _ h

theorem trending_key_not_movie (id : String) : "trending_movies" ≠ "movie_" ++ id := by
  have h := ne_of_data_head_ne "trending_movies" "movie_" "" id 't' 'm' _ _ rfl rfl (by decide)
  simpa using h

theorem search_key_not_movie (query id : String) : "search_" ++ query ≠ "movie_" ++ id :=
  ne_of_data_head_ne "search_" "movie_" query id 's' 'm' _ _ rfl rfl (by decide)

theorem cacheOK_store (w : World) (key : String) (v : Val) (ttl : Nat) (h : CacheOK w.cache)
    (hv : EntryOK key v) : CacheOK (w.store key v ttl).cache := by
  intro k e hmem
  rcases Cache.mem_set _ _ _ _ _ _ _ hmem with ⟨hk, hval, _⟩ | hold
  · rw [hk, hval]
    exact hv
  · exact h k e hold

theorem entryOK_of_truthy_get (w : World) (key : String) (h : CacheOK w.cache)
    (ht : truthy (w.cache.get w.now key) = true) : EntryOK key (w.cache.get w.now key) := by
  obtain ⟨e, hmem, hval⟩ := Cache.mem_of_live _ _ _ _ (Cache.live_of_truthy_get _ _ _ ht)
  rw [← hval]
  exact h key e hmem

theorem fetchList_hit (u : Upstream) (w : World) (key : String) (req : Request) (fallback : Val)
    (ht : truthy (w.cache.get w.now key) = true) :
    fetchList u w key req fallback = (w.cache.get w.now key, w) := by
  simp [fetchList, ht]

theorem fetchList_rejected (u : Upstream) (w : World) (key : String) (req : Request)
    (fallback : Val) (ht : truthy (w.cache.get w.now key) = false)
    (hu : u w.sent.length req = none) :
    fetchList u w key req fallback = (fallback, w.send req) := by
  simp [fetchList, ht, hu]

theorem fetchList_malformed (u : Upstream) (w : World) (key : String) (req : Request)
    (fallback data : Val) (e : JsError) (ht : truthy (w.cache.get w.now key) = false)
    (hu : u w.sent.length req = some data) (he : enrichResults data = .error e) :
    fetchList u w key req fallback = (fallback, w.send req) := by
  simp [fetchList, ht, hu, he]

theorem fetchList_fresh (u : Upstream) (w : World) (key : String) (req : Request)
    (fallback data movies : Val) (ht : truthy (w.cache.get w.now key) = false)
    (hu : u w.sent.length req = some data) (he : enrichResults data = .ok movies) :
    fetchList u w key req fallback = (movies, (w.send req).store key movies stdTTL) := by
  simp [fetchList, ht, hu, he]

theorem getMovieDetails_hit (u : Upstream) (w : World) (movieId : String)
    (ht : truthy (w.cache.get w.now ("movie_" ++ movieId)) = true) :
    getMovieDetails u w movieId = (w.cache.get w.now ("movie_" ++ movieId), w) := by
  simp [getMovieDetails, ht]

theorem getMovieDetails_rejected (u : Upstream) (w : World) (movieId : String)
    (ht : truthy (w.cache.get w.now ("movie_" ++ movieId)) = false)
    (hu : u w.sent.length (detailsRequest movieId) = none) :
    getMovieDetails u w movieId = (.null, w.send (detailsRequest movieId)) := by
  simp [getMovieDetails, ht, hu]

theorem getMovieDetails_fresh (u : Upstream) (w : World) (movieId : String) (data : Val)
    (ht : truthy (w.cache.get w.now ("movie_" ++ movieId)) = false)
    (hu : u w.sent.length (detailsRequest movieId) = some data) :
    getMovieDetails u w movieId =
      (overlay data movieId,
        (w.send (detailsRequest movieId)).store ("movie_" ++ movieId) (overlay data movieId)
          stdTTL) := by
  simp [getMovieDetails, ht, hu]

theorem fetchList_ok (u : Upstream) (w : World) (key : String) (req : Request) (fallback : Val)
    (h : CacheOK w.cache) (hkey : ∀ id, key ≠ "movie_" ++ id) (hf : ListOK fallback) :
    ListOK (fetchList u w key req fallback).1 ∧
      CacheOK (fetchList u w key req fallback).2.cache := by
  cases ht : truthy (w.cache.get w.now key) with
  | true =>
    rw [fetchList_hit u w key req fallback ht]
    exact ⟨(entryOK_of_truthy_get w key h ht).2 hkey, h⟩
  | false =>
    cases hu : u w.sent.length req with
    | none =>
      rw [fetchList_rejected u w key req fallback ht hu]
      exact ⟨hf, h⟩
    | some data =>
      cases he : enrichResults data with
      | error e =>
        rw [fetchList_malformed u w key req fallback data e ht hu he]
        exact ⟨hf, h⟩
      | ok movies =>
        rw [fetchList_fresh u w key req fallback data movies ht hu he]
        have hl := enrichResults_ok data movies he
        exact ⟨hl, cacheOK_store (w.send req) key movies stdTTL h
          ⟨fun id hid => absurd hid (hkey id), fun _ => hl⟩⟩

theorem getMovieDetails_ok (u : Upstream) (w : World) (movieId : String) (h : CacheOK w.cache) :
    ((getMovieDetails u w movieId).1 = .null ∨ Overlaid movieId (getMovieDetails u w movieId).1) ∧
      CacheOK (getMovieDetails u w movieId).2.cache := by
  cases ht : truthy (w.cache.get w.now ("movie_" ++ movieId)) with
  | true =>
    rw [getMovieDetails_hit u w movieId ht]
    exact ⟨Or.inr ((entryOK_of_truthy_get w _ h ht).1 movieId rfl), h⟩
  | false =>
    cases hu : u w.sent.length (detailsRequest movieId) with
    | none =>
      rw [getMovieDetails_rejected u w movieId ht hu]
      exact ⟨Or.inl rfl, h⟩
    | some data =>
      rw [getMovieDetails_fresh u w movieId data ht hu]
      refine ⟨Or.inr (overlaid_overlay data movieId), ?_⟩
      refine cacheOK_store (w.send (detailsRequest movieId)) _ _ stdTTL h ⟨?_, ?_⟩
      · intro id hid
        rw [← movie_key_injective _ _ hid]
        exact overlaid_overlay data movieId
      · intro hno
        exact absurd rfl (hno movieId)

theorem cacheOK_of_reachable (w : World) (h : Reachable w) : CacheOK w.cache := by
  induction h with
  | start now => intro k e hmem; simp at hmem
  | tick w t _ _ ih => exact ih
  | trending u w _ ih =>
    exact (fetchList_ok u w _ _ _ ih trending_key_not_movie listOK_empty).2
  | search u w query _ ih =>
    exact (fetchList_ok u w _ _ _ ih (search_key_not_movie query) listOK_empty).2
  | details u w movieId _ ih => exact (getMovieDetails_ok u w movieId ih).2

end CineNova

/-! ## server.js: the two passes of a search and what they change -/

namespace MovieService

theorem enhanced_enhancedData (data imdbID : Val) : Enhanced imdbID (enhancedData data imdbID) := by
  refine ⟨?_, ?_⟩
  · simp only [enhancedData, getProp]
    rw [objGet_objSet_ne _ _ _ _ (by decide), objGet_objSet_same]
  · simp only [enhancedData, getProp]
    rw [objGet_objSet_same]

theorem enhanced_enhancedMovie (movie details imdbID : Val) :
    Enhanced imdbID (enhancedMovie movie details imdbID) := by
  refine ⟨?_, ?_⟩
  · simp only [enhancedMovie, getProp]
    rw [objGet_objSet_ne _ _ _ _ (by decide), objGet_objSet_same]
  · simp only [enhancedMovie, getProp]
    rw [objGet_objSet_same]

theorem detailsStart_cache (w : World) (imdbID : Val) :
    (detailsStart w imdbID).2.cache = w.cache ∧ (detailsStart w imdbID).2.now = w.now := by
  unfold detailsStart
  cases imdbID.toStr with
  | error e => exact ⟨rfl, rfl⟩
  | ok s =>
    cases ht : truthy (w.cache.get w.now ("movie-" ++ s)) <;> simp [ht, World.send]

theorem detailsStart_hit (w : World) (imdbID : Val) (s : String) (hs : imdbID.toStr = .ok s)
    (ht : truthy (w.cache.get w.now ("movie-" ++ s)) = true) :
    detailsStart w imdbID = (.settled (w.cache.get w.now ("movie-" ++ s)), w) := by
  simp [detailsStart, hs, ht]

theorem detailsStart_miss (w : World) (imdbID : Val) (s : String) (hs : imdbID.toStr = .ok s)
    (ht : truthy (w.cache.get w.now ("movie-" ++ s)) = false) :
    detailsStart w imdbID =
      (.waiting w.sent.length ("movie-" ++ s), w.send (detailsRequest imdbID)) := by
  simp [detailsStart, hs, ht]

theorem detailsStart_unkeyed (w : World) (imdbID : Val) (e : JsError)
    (hs : imdbID.toStr = .error e) : detailsStart w imdbID = (.settled .null, w) := by
  simp [detailsStart, hs]

theorem detailsStart_sent (w : World) (imdbID : Val) :
    (detailsStart w imdbID).2.sent = w.sent ++ missingDetails w [.obj [("imdbID", imdbID)]] := by
  have hg : getProp (.obj [("imdbID", imdbID)]) "imdbID" = .ok imdbID := by
    simp [getProp, objGet, List.lookup]
  simp only [missingDetails, hg]
  cases hs : imdbID.toStr with
  | error e => simp [detailsStart_unkeyed w imdbID e hs]
  | ok s =>
    cases ht : truthy (w.cache.get w.now ("movie-" ++ s)) with
    | true => simp [detailsStart_hit w imdbID s hs ht, ht]
    | false => simp [detailsStart_miss w imdbID s hs ht, World.send, ht]

theorem detailsFinish_settled (u : Upstream) (w : World) (imdbID v : Val) :
    detailsFinish u w imdbID (.settled v) = (v, w) := rfl

theorem detailsFinish_rejected (u : Upstream) (w : World) (imdbID : Val) (seq : Nat)
    (key : String) (hu : u seq (detailsRequest imdbID) = none) :
    detailsFinish u w imdbID (.waiting seq key) = (.null, w) := by
  simp [detailsFinish, hu]

theorem detailsFinish_thrown (u : Upstream) (w : World) (imdbID data : Val) (seq : Nat)
    (key : String) (e : JsError) (hu : u seq (detailsRequest imdbID) = some data)
    (hr : getProp data "Response" = .error e) :
    detailsFinish u w imdbID (.waiting seq key) = (.null, w) := by
  simp [detailsFinish, hu, hr]

theorem detailsFinish_notTrue (u : Upstream) (w : World) (imdbID data r : Val) (seq : Nat)
    (key : String) (hu : u seq (detailsRequest imdbID) = some data)
    (hr : getProp data "Response" = .ok r) (hne : r ≠ .str "True") :
    detailsFinish u w imdbID (.waiting seq key) = (.null, w) := by
  simp [detailsFinish, hu, hr, hne]

theorem detailsFinish_true (u : Upstream) (w : World) (imdbID data : Val) (seq : Nat)
    (key : String) (hu : u seq (detailsRequest imdbID) = some data)
    (hr : getProp data "Response" = .ok (.str "True")) :
    detailsFinish u w imdbID (.waiting seq key) =
      (enhancedData data imdbID, w.store key (enhancedData data imdbID) 3600) := by
  simp [detailsFinish, hu, hr]

theorem detailsFinish_outcome (u : Upstream) (w : World) (imdbID : Val) (st : Started) :
    (∃ v, detailsFinish u w imdbID st = (v, w)) ∨
    (∃ key data, detailsFinish u w imdbID st =
      (enhancedData data imdbID, w.store key (enhancedData data imdbID) 3600)) := by
  cases st with
  | settled v => exact Or.inl ⟨v, rfl⟩
  | waiting seq key =>
    cases hu : u seq (detailsRequest imdbID) with
    | none => exact Or.inl ⟨_, detailsFinish_rejected u w imdbID seq key hu⟩
    | some data =>
      cases hr : getProp data "Response" with
      | error e => exact Or.inl ⟨_, detailsFinish_thrown u w imdbID data seq key e hu hr⟩
      | ok r =>
        by_cases hne : r = .str "True"
        · subst hne
          exact Or.inr ⟨key, data, detailsFinish_true u w imdbID data seq key hu hr⟩
        · exact Or.inl ⟨_, detailsFinish_notTrue u w imdbID data r seq key hu hr hne⟩

theorem detailsFinish_frame (u : Upstream) (w : World) (imdbID : Val) (st : Started) :
    (detailsFinish u w imdbID st).2.sent = w.sent ∧ (detailsFinish u w imdbID st).2.now = w.now := by
  rcases detailsFinish_outcome u w imdbID st with ⟨v, h⟩ | ⟨key, data, h⟩ <;> rw [h] <;>
    exact ⟨rfl, rfl⟩

theorem allObjects_store (w : World) (key : String) (fields : List (String × Val)) (ttl : Nat)
    (h : AllObjects w.cache) : AllObjects (w.store key (.obj fields) ttl).cache := by
  intro k e hmem
  rcases Cache.mem_set _ _ _ _ _ _ _ hmem with ⟨_, hval, _⟩ | hold
  · exact ⟨fields, hval⟩
  · exact h k e hold

theorem detailsFinish_allObjects (u : Upstream) (w : World) (imdbID : Val) (st : Started)
    (h : AllObjects w.cache) : AllObjects (detailsFinish u w imdbID st).2.cache := by
  rcases detailsFinish_outcome u w imdbID st with ⟨v, h2⟩ | ⟨key, data, h2⟩
  · rw [h2]
    exact h
  · rw [h2]
    exact allObjects_store w key _ 3600 h

theorem missingDetails_congr (w w' : World) (hc : w'.cache = w.cache) (hn : w'.now = w.now)
    (items : List Val) : missingDetails w' items = missingDetails w items := by
  induction items with
  | nil => rfl
  | cons movie rest ih => simp only [missingDetails, hc, hn, ih]

theorem startItems_frame (w : World) (items : List Val) :
    (startItems w items).2.cache = w.cache ∧ (startItems w items).2.now = w.now ∧
      (startItems w items).2.sent = w.sent ++ missingDetails w items := by
  induction items generalizing w with
  | nil => simp [startItems, missingDetails]
  | cons movie rest ih =>
    unfold startItems
    cases hg : getProp movie "imdbID" with
    | error e =>
      simp only [missingDetails, hg]
      exact ih w
    | ok imdbID =>
      simp only
      obtain ⟨hc, hn⟩ := detailsStart_cache w imdbID
      obtain ⟨ihc, ihn, ihs⟩ := ih (detailsStart w imdbID).2
      refine ⟨ihc.trans hc, ihn.trans hn, ?_⟩
      rw [ihs, detailsStart_sent, missingDetails_congr _ _ hc hn, List.append_assoc]
      congr 1
      have hg2 : getProp (.obj [("imdbID", imdbID)]) "imdbID" = .ok imdbID := by
        simp [getProp, objGet, List.lookup]
      simp only [missingDetails, hg, hg2]
      cases imdbID.toStr with
      | error e => rfl
      | ok s => cases ht : truthy (w.cache.get w.now ("movie-" ++ s)) <;> simp [ht]

theorem finishItems_frame (u : Upstream) (w : World) (tasks : List Task) :
    (finishItems u w tasks).2.sent = w.sent ∧ (finishItems u w tasks).2.now = w.now := by
  induction tasks generalizing w with
  | nil => exact ⟨rfl, rfl⟩
  | cons t rest ih =>
    cases t with
    | rejected => exact ih w
    | running movie imdbID st =>
      simp only [finishItems]
      obtain ⟨h1, h2⟩ := ih (detailsFinish u w imdbID st).2
      obtain ⟨h3, h4⟩ := detailsFinish_frame u w imdbID st
      exact ⟨h1.trans h3, h2.trans h4⟩

theorem finishItems_allObjects (u : Upstream) (w : World) (tasks : List Task)
    (h : AllObjects w.cache) : AllObjects (finishItems u w tasks).2.cache := by
  induction tasks generalizing w with
  | nil => exact h
  | cons t rest ih =>
    cases t with
    | rejected => exact ih w h
    | running movie imdbID st =>
      simp only [finishItems]
      exact ih _ (detailsFinish_allObjects u w imdbID st h)

theorem getProp_ok_of_ne_null (v : Val) (name : String) (h : v ≠ .null ∧ v ≠ .undefined) :
    ∃ x, getProp v name = .ok x := by
  cases v with
  | undefined => exact absurd rfl h.2
  | null => exact absurd rfl h.1
  | bool b => exact ⟨_, rfl⟩
  | num n => exact ⟨_, rfl⟩
  | str s => exact ⟨_, rfl⟩
  | arr items => exact ⟨_, rfl⟩
  | obj fields => exact ⟨_, rfl⟩
  | native name => exact ⟨_, rfl⟩

theorem startItems_runs (w : World) (items : List Val)
    (h : ∀ movie ∈ items, movie ≠ .null ∧ movie ≠ .undefined) :
    List.Forall₂ Runs items (startItems w items).1 := by
  induction items generalizing w with
  | nil => exact List.Forall₂.nil
  | cons movie rest ih =>
    obtain ⟨imdbID, hid⟩ := getProp_ok_of_ne_null movie "imdbID" (h movie (List.mem_cons_self _ _))
    have hrest : ∀ m ∈ rest, m ≠ .null ∧ m ≠ .undefined :=
      fun m hm => h m (List.mem_cons_of_mem _ hm)
    simp only [startItems, hid]
    exact List.Forall₂.cons ⟨imdbID, _, hid, rfl⟩ (ih _ hrest)

theorem finishItems_built (u : Upstream) (w : World) (items : List Val) (tasks : List Task)
    (h : List.Forall₂ Runs items tasks) :
    ∃ enhanced, (finishItems u w tasks).1 = some enhanced ∧
      List.Forall₂ BuiltFrom items enhanced := by
  induction h generalizing w with
  | nil => exact ⟨[], rfl, List.Forall₂.nil⟩
  | @cons movie t rest tasks hrun _ ih =>
    obtain ⟨imdbID, st, hid, ht⟩ := hrun
    subst ht
    obtain ⟨enhanced, he, hb⟩ := ih (detailsFinish u w imdbID st).2
    refine ⟨enhancedMovie movie (detailsFinish u w imdbID st).1 imdbID :: enhanced, ?_, ?_⟩
    · simp [finishItems, he]
    · exact List.Forall₂.cons ⟨imdbID, _, hid, rfl⟩ hb

theorem searchMovies_hit (u : Upstream) (w : World) (query : String) (page : Int)
    (ht : truthy (w.cache.get w.now (searchKey query page)) = true) :
    searchMovies u w query page = (w.cache.get w.now (searchKey query page), w) := by
  simp [searchMovies, ht]

theorem searchMovies_rejected (u : Upstream) (w : World) (query : String) (page : Int)
    (ht : truthy (w.cache.get w.now (searchKey query page)) = false)
    (hu : u w.sent.length (searchRequest query page) = none) :
    searchMovies u w query page = (getSampleData, w.send (searchRequest query page)) := by
  simp [searchMovies, ht, hu]

theorem searchMovies_thrown (u : Upstream) (w : World) (query : String) (page : Int)
    (data : Val) (e : JsError)
    (ht : truthy (w.cache.get w.now (searchKey query page)) = false)
    (hu : u w.sent.length (searchRequest query page) = some data)
    (hr : getProp data "Response" = .error e) :
    searchMovies u w query page = (getSampleData, w.send (searchRequest query page)) := by
  simp [searchMovies, ht, hu, hr]

theorem searchMovies_notTrue (u : Upstream) (w : World) (query : String) (page : Int)
    (data r : Val) (ht : truthy (w.cache.get w.now (searchKey query page)) = false)
    (hu : u w.sent.length (searchRequest query page) = some data)
    (hr : getProp data "Response" = .ok r) (hne : r ≠ .str "True") :
    searchMovies u w query page = (emptyResult, w.send (searchRequest query page)) := by
  simp [searchMovies, ht, hu, hr, hne]

theorem searchMovies_true (u : Upstream) (w : World) (query : String) (page : Int)
    (data : Val) (ht : truthy (w.cache.get w.now (searchKey query page)) = false)
    (hu : u w.sent.length (searchRequest query page) = some data)
    (hr : getProp data "Response" = .ok (.str "True")) :
    searchMovies u w query page =
      enhanceSearch u (w.send (searchRequest query page)) (searchKey query page) data := by
  simp [searchMovies, ht, hu, hr]

theorem enhanceSearch_noList (u : Upstream) (w : World) (key : String) (data : Val)
    (h : ∀ items, getProp data "Search" ≠ .ok (.arr items)) :
    enhanceSearch u w key data = (getSampleData, w) := by
  unfold enhanceSearch
  split
  · next items heq => exact absurd heq (h items)
  · rfl

theorem enhanceSearch_list (u : Upstream) (w : World) (key : String) (data : Val)
    (items : List Val) (h : getProp data "Search" = .ok (.arr items)) :
    enhanceSearch u w key data =
      (match finishItems u (startItems w items).2 (startItems w items).1 with
       | (some enhancedMovies, w') =>
         (.obj (objSet (spread data) "Search" (.arr enhancedMovies)),
           w'.store key (.obj (objSet (spread data) "Search" (.arr enhancedMovies))) 600)
       | (none, w') => (getSampleData, w')) := by
  unfold enhanceSearch
  simp only [h]

theorem enhanceSearch_outcome (u : Upstream) (w : World) (key : String) (data : Val)
    (items : List Val) (h : getProp data "Search" = .ok (.arr items)) :
    (∃ enhanced, (finishItems u (startItems w items).2 (startItems w items).1).1 = some enhanced ∧
      enhanceSearch u w key data =
        (.obj (objSet (spread data) "Search" (.arr enhanced)),
          (finishItems u (startItems w items).2 (startItems w items).1).2.store key
            (.obj (objSet (spread data) "Search" (.arr enhanced))) 600)) ∨
    ((finishItems u (startItems w items).2 (startItems w items).1).1 = none ∧
      enhanceSearch u w key data =
        (getSampleData, (finishItems u (startItems w items).2 (startItems w items).1).2)) := by
  rw [enhanceSearch_list u w key data items h]
  cases hf : finishItems u (startItems w items).2 (startItems w items).1 with
  | mk r w2 =>
    cases r with
    | none => exact Or.inr ⟨rfl, rfl⟩
    | some enhanced => exact Or.inl ⟨enhanced, rfl, rfl⟩

theorem enhanceSearch_frame (u : Upstream) (w : World) (key : String) (data : Val) :
    (enhanceSearch u w key data).2.now = w.now ∧
    (enhanceSearch u w key data).2.sent = w.sent ++
      (match getProp data "Search" with
       | .ok (.arr items) => missingDetails w items
       | _ => []) := by
  by_cases h : ∃ items, getProp data "Search" = .ok (.arr items)
  · obtain ⟨items, h⟩ := h
    obtain ⟨_, hn, hs⟩ := startItems_frame w items
    obtain ⟨fs, fn⟩ := finishItems_frame u (startItems w items).2 (startItems w items).1
    simp only [h]
    rcases enhanceSearch_outcome u w key data items h with ⟨enhanced, _, he⟩ | ⟨_, he⟩
    · rw [he]
      exact ⟨fn.trans hn, fs.trans hs⟩
    · rw [he]
      exact ⟨fn.trans hn, fs.trans hs⟩
  · have h2 : ∀ items, getProp data "Search" ≠ .ok (.arr items) := fun items hi => h ⟨items, hi⟩
    rw [enhanceSearch_noList u w key data h2]
    refine ⟨rfl, ?_⟩
    split
    · next items heq => exact absurd heq (h2 items)
    · simp

theorem enhanceSearch_allObjects (u : Upstream) (w : World) (key : String) (data : Val)
    (h : AllObjects w.cache) : AllObjects (enhanceSearch u w key data).2.cache := by
  by_cases hl : ∃ items, getProp data "Search" = .ok (.arr items)
  · obtain ⟨items, hl⟩ := hl
    have hst : AllObjects (startItems w items).2.cache := by
      rw [(startItems_frame w items).1]
      exact h
    have hfin := finishItems_allObjects u (startItems w items).2 (startItems w items).1 hst
    rcases enhanceSearch_outcome u w key data items hl with ⟨enhanced, _, he⟩ | ⟨_, he⟩
    · rw [he]
      exact allObjects_store _ key _ 600 hfin
    · rw [he]
      exact hfin
  · rw [enhanceSearch_noList u w key data (fun items hi => hl ⟨items, hi⟩)]
    exact h

theorem searchMovies_allObjects (u : Upstream) (w : World) (query : String) (page : Int)
    (h : AllObjects w.cache) : AllObjects (searchMovies u w query page).2.cache := by
  cases ht : truthy (w.cache.get w.now (searchKey query page)) with
  | true =>
    rw [searchMovies_hit u w query page ht]
    exact h
  | false =>
    cases hu : u w.sent.length (searchRequest query page) with
    | none =>
      rw [searchMovies_rejected u w query page ht hu]
      exact h
    | some data =>
      cases hr : getProp data "Response" with
      | error e =>
        rw [searchMovies_thrown u w query page data e ht hu hr]
        exact h
      | ok r =>
        by_cases hne : r = .str "True"
        · subst hne
          rw [searchMovies_true u w query page data ht hu hr]
          exact enhanceSearch_allObjects u _ _ data h
        · rw [searchMovies_notTrue u w query page data r ht hu hr hne]
          exact h

theorem followUp_rejected (u : Upstream) (w : World) (query : String) (page : Int)
    (hu : u w.sent.length (searchRequest query page) = none) :
    followUpRequests u w query page = [] := by
  simp [followUpRequests, hu]

theorem followUp_thrown (u : Upstream) (w : World) (query : String) (page : Int)
    (data : Val) (e : JsError) (hu : u w.sent.length (searchRequest query page) = some data)
    (hr : getProp data "Response" = .error e) : followUpRequests u w query page = [] := by
  simp [followUpRequests, hu, hr]

theorem followUp_notTrue (u : Upstream) (w : World) (query : String) (page : Int)
    (data r : Val) (hu : u w.sent.length (searchRequest query page) = some data)
    (hr : getProp data "Response" = .ok r) (hne : r ≠ .str "True") :
    followUpRequests u w query page = [] := by
  simp only [followUpRequests, hu, hr]
  split
  · next heq _ => exact absurd (Except.ok.inj heq) hne
  · rfl

theorem followUp_list (u : Upstream) (w : World) (query : String) (page : Int)
    (data : Val) (items : List Val)
    (hu : u w.sent.length (searchRequest query page) = some data)
    (hr : getProp data "Response" = .ok (.str "True"))
    (hl : getProp data "Search" = .ok (.arr items)) :
    followUpRequests u w query page = missingDetails w items := by
  simp [followUpRequests, hu, hr, hl]

theorem followUp_noList (u : Upstream) (w : World) (query : String) (page : Int)
    (data : Val) (hu : u w.sent.length (searchRequest query page) = some data)
    (hl : ∀ items, getProp data "Search" ≠ .ok (.arr items)) :
    followUpRequests u w query page = [] := by
  simp only [followUpRequests, hu]
  split
  · next items _ heq => exact absurd heq (hl items)
  · rfl

theorem searchMovies_sent (u : Upstream) (w : World) (query : String) (page : Int)
    (ht : truthy (w.cache.get w.now (searchKey query page)) = false) :
    (searchMovies u w query page).2.sent =
      w.sent ++ searchRequest query page :: followUpRequests u w query page := by
  cases hu : u w.sent.length (searchRequest query page) with
  | none =>
    rw [searchMovies_rejected u w query page ht hu, followUp_rejected u w query page hu]
    rfl
  | some data =>
    cases hr : getProp data "Response" with
    | error e =>
      rw [searchMovies_thrown u w query page data e ht hu hr,
        followUp_thrown u w query page data e hu hr]
      rfl
    | ok r =>
      by_cases hne : r = .str "True"
      · subst hne
        rw [searchMovies_true u w query page data ht hu hr,
          (enhanceSearch_frame u _ _ data).2]
        by_cases hl : ∃ items, getProp data "Search" = .ok (.arr items)
        · obtain ⟨items, hl⟩ := hl
          rw [followUp_list u w query page data items hu hr hl]
          simp only [hl, World.send, List.append_assoc, List.singleton_append]
          rw [missingDetails_congr
            { cache := w.cache, now := w.now, sent := w.sent ++ [searchRequest query page] }
            w rfl rfl items]
        · have hl2 : ∀ items, getProp data "Search" ≠ .ok (.arr items) :=
            fun items hi => hl ⟨items, hi⟩
          rw [followUp_noList u w query page data hu hl2]
          have hm : (match getProp data "Search" with
              | .ok (.arr items) => missingDetails (w.send (searchRequest query page)) items
              | _ => []) = [] := by
            split
            · next items heq => exact absurd heq (hl2 items)
            · rfl
          rw [hm]
          simp [World.send]
      · rw [searchMovies_notTrue u w query page data r ht hu hr hne,
          followUp_notTrue u w query page data r hu hr hne]
        rfl

theorem searchMovies_fresh (u : Upstream) (w : World) (query : String) (page : Int)
    (data : Val) (items : List Val) (h : SearchFetched u w query page data items) :
    ∃ (enhanced : List Val) (w2 : World), List.Forall₂ BuiltFrom items enhanced ∧
      searchMovies u w query page =
        (.obj (objSet (spread data) "Search" (.arr enhanced)),
          w2.store (searchKey query page)
            (.obj (objSet (spread data) "Search" (.arr enhanced))) 600) ∧
      w2.now = w.now := by
  obtain ⟨ht, hu, hr, hl, hnn⟩ := h
  rw [searchMovies_true u w query page data ht hu hr]
  obtain ⟨enhanced, he, hb⟩ := finishItems_built u
    (startItems (w.send (searchRequest query page)) items).2 items _
    (startItems_runs (w.send (searchRequest query page)) items hnn)
  rcases enhanceSearch_outcome u (w.send (searchRequest query page)) (searchKey query page)
    data items hl with ⟨enhanced2, he2, heq⟩ | ⟨hnone, _⟩
  · rw [he] at he2
    cases he2
    refine ⟨enhanced, _, hb, heq, ?_⟩
    rw [(finishItems_frame u _ _).2, (startItems_frame _ items).2.1]
    rfl
  · rw [he] at hnone
    cases hnone

theorem getMovieDetails_cached (u : Upstream) (w : World) (imdbID : Val) (s : String)
    (hs : imdbID.toStr = .ok s) (ht : truthy (w.cache.get w.now ("movie-" ++ s)) = true) :
    getMovieDetails u w imdbID = (w.cache.get w.now ("movie-" ++ s), w) := by
  simp [getMovieDetails, detailsStart_hit w imdbID s hs ht, detailsFinish]

theorem getMovieDetails_fetched (u : Upstream) (w : World) (imdbID data : Val)
    (h : DetailsFetched u w imdbID data) :
    ∃ s, imdbID.toStr = .ok s ∧ getMovieDetails u w imdbID =
      (enhancedData data imdbID,
        (w.send (detailsRequest imdbID)).store ("movie-" ++ s) (enhancedData data imdbID)
          3600) := by
  obtain ⟨s, hs, ht, hu, hr⟩ := h
  refine ⟨s, hs, ?_⟩
  simp only [getMovieDetails, detailsStart_miss w imdbID s hs ht]
  exact detailsFinish_true u _ imdbID data _ _ hu hr

theorem getMovieDetails_allObjects (u : Upstream) (w : World) (imdbID : Val)
    (h : AllObjects w.cache) : AllObjects (getMovieDetails u w imdbID).2.cache := by
  unfold getMovieDetails
  refine detailsFinish_allObjects u _ imdbID _ ?_
  rw [(detailsStart_cache w imdbID).1]
  exact h

theorem allObjects_of_reachable (w : World) (h : Reachable w) : AllObjects w.cache := by
  induction h with
  | start now => intro k e hmem; simp at hmem
  | tick w t _ _ ih => exact ih
  | search u w query page _ ih => exact searchMovies_allObjects u w query page ih
  | details u w imdbID _ ih => exact getMovieDetails_allObjects u w imdbID ih
  | trending u w pick _ ih => exact searchMovies_allObjects u w _ 1 ih

theorem truthy_of_live_entry (w : World) (h : AllObjects w.cache) (key : String) (v : Val)
    (hl : w.cache.live w.now key = some v) : truthy (w.cache.get w.now key) = true := by
  obtain ⟨e, hmem, hval⟩ := Cache.mem_of_live _ _ _ _ hl
  obtain ⟨fields, hf⟩ := h key e hmem
  rw [Cache.get_of_live _ _ _ _ hl, ← hval, hf]
  rfl

/-! ### The detail entries of the cache -/

theorem movieFileOf_of_plain (imdbID : Val) (s : String) (h : PlainId imdbID)
    (hs : imdbID.toStr = .ok s) : movieFileOf (.str s) = movieFileOf imdbID := by
  rcases h with ⟨s2, h⟩ | h
  · subst h
    simp only [Val.toStr, Except.ok.injEq] at hs
    rw [hs]
  · subst h
    simp only [Val.toStr, Except.ok.injEq] at hs
    subst hs
    decide

theorem detail_key_injective (a b : String) (h : "movie-" ++ a = "movie-" ++ b) : a = b :=
  append_left_cancel_string _ _ _ h

theorem search_key_not_detail (query : String) (page : Int) (s : String) :
    searchKey query page ≠ "movie-" ++ s := by
  intro h
  have h2 := congrArg String.data h
  simp only [searchKey, String.data_append] at h2
  simp only [List.cons_append, List.cons.injEq] at h2
  exact absurd h2.1 (by decide)

theorem detailKeysOK_store_detail (w : World) (s : String) (v : Val) (ttl : Nat)
    (h : DetailKeysOK w.cache) (hv : Enhanced (.str s) v) :
    DetailKeysOK (w.store ("movie-" ++ s) v ttl).cache := by
  intro s2 e hmem
  rcases Cache.mem_set _ _ _ _ _ _ _ hmem with ⟨hk, hval, _⟩ | hold
  · rw [detail_key_injective _ _ hk, hval]
    exact hv
  · exact h s2 e hold

theorem detailKeysOK_store_other (w : World) (key : String) (v : Val) (ttl : Nat)
    (h : DetailKeysOK w.cache) (hkey : ∀ s, key ≠ "movie-" ++ s) :
    DetailKeysOK (w.store key v ttl).cache := by
  intro s2 e hmem
  rcases Cache.mem_set _ _ _ _ _ _ _ hmem with ⟨hk, _, _⟩ | hold
  · exact absurd hk.symm (hkey s2)
  · exact h s2 e hold

theorem detailsStart_startedFor (w : World) (imdbID : Val) :
    StartedFor imdbID (detailsStart w imdbID).1 := by
  intro seq key hst
  cases hs : imdbID.toStr with
  | error e =>
    rw [detailsStart_unkeyed w imdbID e hs] at hst
    cases hst
  | ok s =>
    cases ht : truthy (w.cache.get w.now ("movie-" ++ s)) with
    | true =>
      rw [detailsStart_hit w imdbID s hs ht] at hst
      cases hst
    | false =>
      rw [detailsStart_miss w imdbID s hs ht] at hst
      cases hst
      exact ⟨s, rfl, rfl⟩

theorem detailsFinish_keysOK (u : Upstream) (w : World) (imdbID : Val) (st : Started)
    (hst : StartedFor imdbID st) (hid : PlainId imdbID) (h : DetailKeysOK w.cache) :
    DetailKeysOK (detailsFinish u w imdbID st).2.cache := by
  cases st with
  | settled v => exact h
  | waiting seq key =>
    obtain ⟨s, hs, hkey⟩ := hst seq key rfl
    subst hkey
    cases hu : u seq (detailsRequest imdbID) with
    | none =>
      rw [detailsFinish_rejected u w imdbID seq _ hu]
      exact h
    | some data =>
      cases hr : getProp data "Response" with
      | error e =>
        rw [detailsFinish_thrown u w imdbID data seq _ e hu hr]
        exact h
      | ok r =>
        by_cases hne : r = .str "True"
        · subst hne
          rw [detailsFinish_true u w imdbID data seq _ hu hr]
          refine detailKeysOK_store_detail w s _ 3600 h ?_
          unfold Enhanced
          rw [movieFileOf_of_plain imdbID s hid hs]
          exact enhanced_enhancedData data imdbID
        · rw [detailsFinish_notTrue u w imdbID data r seq _ hu hr hne]
          exact h

theorem startItems_tasksPlain (w : World) (items : List Val)
    (h : ∀ movie ∈ items, ∀ imdbID, getProp movie "imdbID" = .ok imdbID → PlainId imdbID) :
    TasksPlain (startItems w items).1 := by
  induction items generalizing w with
  | nil => intro t ht; simp [startItems] at ht
  | cons movie rest ih =>
    have hrest : ∀ m ∈ rest, ∀ imdbID, getProp m "imdbID" = .ok imdbID → PlainId imdbID :=
      fun m hm => h m (List.mem_cons_of_mem _ hm)
    unfold startItems
    cases hg : getProp movie "imdbID" with
    | error e =>
      intro t ht
      rcases List.mem_cons.mp ht with ht | ht
      · intro movie2 imdbID st heq
        rw [ht] at heq
        cases heq
      · exact ih w hrest t ht
    | ok imdbID =>
      intro t ht
      rcases List.mem_cons.mp ht with ht | ht
      · intro movie2 imdbID2 st heq
        rw [ht] at heq
        cases heq
        exact ⟨h movie (List.mem_cons_self _ _) imdbID hg, detailsStart_startedFor w imdbID⟩
      · exact ih _ hrest t ht

theorem finishItems_keysOK (u : Upstream) (w : World) (tasks : List Task)
    (ht : TasksPlain tasks) (h : DetailKeysOK w.cache) :
    DetailKeysOK (finishItems u w tasks).2.cache := by
  induction tasks generalizing w with
  | nil => exact h
  | cons t rest ih =>
    have hrest : TasksPlain rest := fun t2 ht2 => ht t2 (List.mem_cons_of_mem _ ht2)
    cases t with
    | rejected => exact ih w hrest h
    | running movie imdbID st =>
      simp only [finishItems]
      obtain ⟨hid, hst⟩ := ht _ (List.mem_cons_self _ _) movie imdbID st rfl
      exact ih _ hrest (detailsFinish_keysOK u w imdbID st hst hid h)

theorem enhanceSearch_keysOK (u : Upstream) (w : World) (query : String) (page : Int)
    (data : Val)
    (hplain : ∀ items, getProp data "Search" = .ok (.arr items) → ∀ movie ∈ items,
      ∀ imdbID, getProp movie "imdbID" = .ok imdbID → PlainId imdbID)
    (h : DetailKeysOK w.cache) :
    DetailKeysOK (enhanceSearch u w (searchKey query page) data).2.cache := by
  by_cases hl : ∃ items, getProp data "Search" = .ok (.arr items)
  · obtain ⟨items, hl⟩ := hl
    have hst : DetailKeysOK (startItems w items).2.cache := by
      rw [(startItems_frame w items).1]
      exact h
    have hfin := finishItems_keysOK u (startItems w items).2 (startItems w items).1
      (startItems_tasksPlain w items (hplain items hl)) hst
    rcases enhanceSearch_outcome u w (searchKey query page) data items hl with
      ⟨enhanced, _, he⟩ | ⟨_, he⟩
    · rw [he]
      exact detailKeysOK_store_other _ _ _ 600 hfin (search_key_not_detail query page)
    · rw [he]
      exact hfin
  · rw [enhanceSearch_noList u w _ data (fun items hi => hl ⟨items, hi⟩)]
    exact h

theorem searchMovies_keysOK (u : Upstream) (w : World) (query : String) (page : Int)
    (hu : PlainIds u) (h : DetailKeysOK w.cache) :
    DetailKeysOK (searchMovies u w query page).2.cache := by
  cases ht : truthy (w.cache.get w.now (searchKey query page)) with
  | true =>
    rw [searchMovies_hit u w query page ht]
    exact h
  | false =>
    cases hq : u w.sent.length (searchRequest query page) with
    | none =>
      rw [searchMovies_rejected u w query page ht hq]
      exact h
    | some data =>
      cases hr : getProp data "Response" with
      | error e =>
        rw [searchMovies_thrown u w query page data e ht hq hr]
        exact h
      | ok r =>
        by_cases hne : r = .str "True"
        · subst hne
          rw [searchMovies_true u w query page data ht hq hr]
          exact enhanceSearch_keysOK u _ query page data
            (fun items hl movie hm imdbID hid => hu _ _ data items movie imdbID hq hl hm hid) h
        · rw [searchMovies_notTrue u w query page data r ht hq hr hne]
          exact h

theorem getMovieDetails_plain (u : Upstream) (w : World) (imdbID : Val) (s : String)
    (hid : PlainId imdbID) (hs : imdbID.toStr = .ok s) (h : DetailKeysOK w.cache) :
    ((getMovieDetails u w imdbID).1 = .null ∨ Enhanced imdbID (getMovieDetails u w imdbID).1) ∧
      DetailKeysOK (getMovieDetails u w imdbID).2.cache := by
  constructor
  · cases ht : truthy (w.cache.get w.now ("movie-" ++ s)) with
    | true =>
      rw [getMovieDetails_cached u w imdbID s hs ht]
      obtain ⟨e, hmem, hval⟩ := Cache.mem_of_live _ _ _ _ (Cache.live_of_truthy_get _ _ _ ht)
      right
      have he := h s e hmem
      unfold Enhanced at he ⊢
      rw [movieFileOf_of_plain imdbID s hid hs, hval] at he
      exact he
    | false =>
      simp only [getMovieDetails, detailsStart_miss w imdbID s hs ht]
      rcases detailsFinish_outcome u (w.send (detailsRequest imdbID)) imdbID
        (.waiting w.sent.length ("movie-" ++ s)) with ⟨v, hv⟩ | ⟨key, data, hv⟩
      · cases hq : u w.sent.length (detailsRequest imdbID) with
        | none =>
          rw [detailsFinish_rejected u _ imdbID _ _ hq]
          exact Or.inl rfl
        | some data =>
          cases hr : getProp data "Response" with
          | error e =>
            rw [detailsFinish_thrown u _ imdbID data _ _ e hq hr]
            exact Or.inl rfl
          | ok r =>
            by_cases hne : r = .str "True"
            · subst hne
              rw [detailsFinish_true u _ imdbID data _ _ hq hr]
              exact Or.inr (enhanced_enhancedData data imdbID)
            · rw [detailsFinish_notTrue u _ imdbID data r _ _ hq hr hne]
              exact Or.inl rfl
      · rw [hv]
        exact Or.inr (enhanced_enhancedData data imdbID)
  · unfold getMovieDetails
    refine detailsFinish_keysOK u _ imdbID _ (detailsStart_startedFor w imdbID) hid ?_
    rw [(detailsStart_cache w imdbID).1]
    exact h

end MovieService

/-! ## The promises resolve with what the methods return -/

theorem CineNova.fetchListPromise_eq (u : Upstream) (w : World) (key : String) (req : Request)
    (fallback : Val) :
    CineNova.fetchListPromise u key req fallback w =
      (.ok (CineNova.fetchList u w key req fallback).1,
        (CineNova.fetchList u w key req fallback).2) := by
  cases ht : truthy (w.cache.get w.now key) with
  | true =>
    rw [CineNova.fetchList_hit u w key req fallback ht]
    simp [CineNova.fetchListPromise, ht]
  | false =>
    cases hu : u w.sent.length req with
    | none =>
      rw [CineNova.fetchList_rejected u w key req fallback ht hu]
      simp [CineNova.fetchListPromise, ht, catchAll, CineNova.fetchListBody, axiosGet, hu]
    | some data =>
      cases he : CineNova.enrichResults data with
      | error e =>
        rw [CineNova.fetchList_malformed u w key req fallback data e ht hu he]
        simp [CineNova.fetchListPromise, ht, catchAll, CineNova.fetchListBody, axiosGet, hu, he]
      | ok movies =>
        rw [CineNova.fetchList_fresh u w key req fallback data movies ht hu he]
        simp [CineNova.fetchListPromise, ht, catchAll, CineNova.fetchListBody, axiosGet, hu, he]

theorem CineNova.getMovieDetailsPromise_eq (u : Upstream) (w : World) (movieId : String) :
    CineNova.getMovieDetailsPromise u (.str movieId) w =
      (.ok (CineNova.getMovieDetails u w movieId).1, (CineNova.getMovieDetails u w movieId).2) := by
  cases ht : truthy (w.cache.get w.now ("movie_" ++ movieId)) with
  | true =>
    rw [CineNova.getMovieDetails_hit u w movieId ht]
    simp [CineNova.getMovieDetailsPromise, Val.toStr, ht]
  | false =>
    cases hu : u w.sent.length (CineNova.detailsRequest movieId) with
    | none =>
      rw [CineNova.getMovieDetails_rejected u w movieId ht hu]
      simp [CineNova.getMovieDetailsPromise, Val.toStr, ht, catchAll, CineNova.detailsBody,
        axiosGet, hu]
    | some data =>
      rw [CineNova.getMovieDetails_fresh u w movieId data ht hu]
      simp [CineNova.getMovieDetailsPromise, Val.toStr, Val.toStringCall, ht, catchAll,
        CineNova.detailsBody, axiosGet, hu]

theorem CineNova.app_searchMoviesPromise_eq (u : Upstream) (w : World) (query : String) :
    CineNova.searchMoviesPromise u (.str query) w =
      (.ok (CineNova.searchMovies u w query).1, (CineNova.searchMovies u w query).2) := by
  have h : CineNova.searchMoviesPromise u (.str query) w =
      CineNova.fetchListPromise u ("search_" ++ query) (CineNova.searchRequest query) (.arr [])
        w := by
    simp [CineNova.searchMoviesPromise, Val.toStr, CineNova.searchRequestOf,
      CineNova.searchRequest]
  rw [h]
  exact CineNova.fetchListPromise_eq u w _ _ _

theorem catchAll_resolves {α : Type} (body handler : Step α)
    (h : ∀ w, ∃ v w2, handler w = (.ok v, w2)) (w : World) :
    ∃ v w2, catchAll body handler w = (.ok v, w2) := by
  unfold catchAll
  cases hb : body w with
  | mk r w1 =>
    cases r with
    | ok a => exact ⟨a, w1, rfl⟩
    | error e => exact h w1

theorem CineNova.searchMoviesPromise_resolves (u : Upstream) (w : World) (query : Val)
    (s : String) (hs : query.toStr = .ok s) :
    ∃ v w2, CineNova.searchMoviesPromise u query w = (.ok v, w2) := by
  unfold CineNova.searchMoviesPromise
  simp only [hs]
  exact ⟨_, _, CineNova.fetchListPromise_eq u w _ _ _⟩

theorem CineNova.getMovieDetailsPromise_resolves (u : Upstream) (w : World) (movieId : Val)
    (s : String) (hs : movieId.toStr = .ok s) :
    ∃ v w2, CineNova.getMovieDetailsPromise u movieId w = (.ok v, w2) := by
  unfold CineNova.getMovieDetailsPromise
  simp only [hs]
  split
  · exact ⟨_, _, rfl⟩
  · exact catchAll_resolves _ _ (fun w1 => ⟨_, _, rfl⟩) w

theorem MovieService.searchMoviesPromiseOf_resolves (u : Upstream) (w : World)
    (query page : Val) :
    ∃ v w2, MovieService.searchMoviesPromiseOf u query page w = (.ok v, w2) :=
  catchAll_resolves _ _ (fun _ => ⟨_, _, rfl⟩) w

/-- On a string query and an integer page the promise for arguments of any
kind is the promise of the typed method. -/
theorem MovieService.searchMoviesPromiseOf_typed (u : Upstream) (w : World) (query : String)
    (page : Int) :
    MovieService.searchMoviesPromiseOf u (.str query) (.num page) w =
      MovieService.searchMoviesPromise u query page w := by
  have hb : MovieService.searchBodyOf u (.str query) (.num page) =
      MovieService.searchBody u query page := rfl
  simp only [MovieService.searchMoviesPromiseOf, MovieService.searchMoviesPromise]
  have hp : (if Val.num page = Val.undefined then Val.num 1 else Val.num page) = Val.num page := by
    simp
  rw [hp, hb]

theorem MovieService.detailsPromise_eq (u : Upstream) (w : World) (imdbID : Val) :
    MovieService.getMovieDetailsPromise u imdbID w =
      (.ok (MovieService.getMovieDetails u w imdbID).1,
        (MovieService.getMovieDetails u w imdbID).2) := by
  cases hs : imdbID.toStr with
  | error e =>
    simp [MovieService.getMovieDetailsPromise, catchAll, MovieService.detailsBody, hs,
      MovieService.getMovieDetails, MovieService.detailsStart_unkeyed w imdbID e hs,
      MovieService.detailsFinish]
  | ok s =>
    cases ht : truthy (w.cache.get w.now ("movie-" ++ s)) with
    | true =>
      rw [MovieService.getMovieDetails_cached u w imdbID s hs ht]
      simp [MovieService.getMovieDetailsPromise, catchAll, MovieService.detailsBody, hs, ht]
    | false =>
      simp only [MovieService.getMovieDetails, MovieService.detailsStart_miss w imdbID s hs ht]
      cases hu : u w.sent.length (MovieService.detailsRequest imdbID) with
      | none =>
        rw [MovieService.detailsFinish_rejected u _ imdbID _ _ hu]
        simp [MovieService.getMovieDetailsPromise, catchAll, MovieService.detailsBody, hs, ht,
          axiosGet, hu]
      | some data =>
        cases hr : getProp data "Response" with
        | error e =>
          rw [MovieService.detailsFinish_thrown u _ imdbID data _ _ e hu hr]
          simp [MovieService.getMovieDetailsPromise, catchAll, MovieService.detailsBody, hs, ht,
            axiosGet, hu, hr]
        | ok r =>
          by_cases hne : r = .str "True"
          · subst hne
            rw [MovieService.detailsFinish_true u _ imdbID data _ _ hu hr]
            simp [MovieService.getMovieDetailsPromise, catchAll, MovieService.detailsBody, hs,
              ht, axiosGet, hu, hr]
          · rw [MovieService.detailsFinish_notTrue u _ imdbID data r _ _ hu hr hne]
            simp [MovieService.getMovieDetailsPromise, catchAll, MovieService.detailsBody, hs,
              ht, axiosGet, hu, hr, hne]

theorem MovieService.searchMoviesPromise_eq (u : Upstream) (w : World) (query : String)
    (page : Int) :
    MovieService.searchMoviesPromise u query page w =
      (.ok (MovieService.searchMovies u w query page).1,
        (MovieService.searchMovies u w query page).2) := by
  cases ht : truthy (w.cache.get w.now (MovieService.searchKey query page)) with
  | true =>
    rw [MovieService.searchMovies_hit u w query page ht]
    simp [MovieService.searchMoviesPromise, catchAll, MovieService.searchBody, ht]
  | false =>
    cases hu : u w.sent.length (MovieService.searchRequest query page) with
    | none =>
      rw [MovieService.searchMovies_rejected u w query page ht hu]
      simp [MovieService.searchMoviesPromise, catchAll, MovieService.searchBody, ht, axiosGet, hu]
    | some data =>
      cases hr : getProp data "Response" with
      | error e =>
        rw [MovieService.searchMovies_thrown u w query page data e ht hu hr]
        simp [MovieService.searchMoviesPromise, catchAll, MovieService.searchBody, ht, axiosGet,
          hu, hr]
      | ok r =>
        by_cases hne : r = .str "True"
        · subst hne
          rw [MovieService.searchMovies_true u w query page data ht hu hr]
          by_cases hl : ∃ items, getProp data "Search" = .ok (.arr items)
          · obtain ⟨items, hl⟩ := hl
            rcases MovieService.enhanceSearch_outcome u (w.send (MovieService.searchRequest query page))
              (MovieService.searchKey query page) data items hl with ⟨enhanced, hf, he⟩ | ⟨hf, he⟩
            · rw [he]
              cases hfin : MovieService.finishItems u
                (MovieService.startItems (w.send (MovieService.searchRequest query page)) items).2
                (MovieService.startItems (w.send (MovieService.searchRequest query page)) items).1
                with
              | mk r2 w2 =>
                rw [hfin] at hf
                simp only at hf
                subst hf
                simp [MovieService.searchMoviesPromise, catchAll, MovieService.searchBody, ht,
                  axiosGet, hu, hr, hl, hfin]
            · rw [he]
              cases hfin : MovieService.finishItems u
                (MovieService.startItems (w.send (MovieService.searchRequest query page)) items).2
                (MovieService.startItems (w.send (MovieService.searchRequest query page)) items).1
                with
              | mk r2 w2 =>
                rw [hfin] at hf
                simp only at hf
                subst hf
                simp [MovieService.searchMoviesPromise, catchAll, MovieService.searchBody, ht,
                  axiosGet, hu, hr, hl, hfin]
          · have hl2 : ∀ items, getProp data "Search" ≠ .ok (.arr items) :=
              fun items hi => hl ⟨items, hi⟩
            rw [MovieService.enhanceSearch_noList u _ _ data hl2]
            have hm : (match getProp data "Search" with
                | .ok (.arr items) =>
                  (match MovieService.finishItems u
                      (MovieService.startItems (w.send (MovieService.searchRequest query page))
                        items).2
                      (MovieService.startItems (w.send (MovieService.searchRequest query page))
                        items).1 with
                    | (some enhancedMovies, w2) =>
                      ((.ok (.obj (objSet (spread data) "Search" (.arr enhancedMovies))),
                        w2.store (MovieService.searchKey query page)
                          (.obj (objSet (spread data) "Search" (.arr enhancedMovies))) 600) :
                        Completion Val × World)
                    | (none, w2) => (.error (.error .typeError), w2))
                | _ => (.error (.error .typeError), w.send (MovieService.searchRequest query page)))
                = (.error (.error .typeError), w.send (MovieService.searchRequest query page)) := by
              split
              · next items heq => exact absurd heq (hl2 items)
              · rfl
            simp only [MovieService.searchMoviesPromise, catchAll, MovieService.searchBody, ht,
              axiosGet, hu, hr, Bool.false_eq_true, if_false, if_true, hm]
        · rw [MovieService.searchMovies_notTrue u w query page data r ht hu hr hne]
          simp [MovieService.searchMoviesPromise, catchAll, MovieService.searchBody, ht, axiosGet,
            hu, hr, hne]

/-! ## app.js: the claims on enrichment and on the featured item -/

namespace CineNova

theorem table_descriptors_declare_stream :
    ∀ kv ∈ videoSources, truthy kv.2 = true ∧ truthy (streamUrlOf kv.2) = true := by
  decide

theorem videoSourceOf_eq (key : String) (h : ¬ Inherited key) :
    videoSourceOf key = (match videoSources.lookup key with
      | some d => d
      | none => .undefined) :=
  objIndex_plain videoSources key h

theorem truthy_videoSourceOf_iff (key : String) (h : ¬ Inherited key) :
    truthy (videoSourceOf key) = true ↔ HasStreamDescriptor key := by
  rw [videoSourceOf_eq key h]
  unfold HasStreamDescriptor
  cases hl : videoSources.lookup key with
  | none => simp [truthy]
  | some d =>
    have hmem := mem_of_lookup_eq_some _ _ _ hl
    have hd := table_descriptors_declare_stream (key, d) hmem
    simp [hd.1, hd.2]

theorem forItems_of_listOK (P : String → Val → Prop) (v : Val)
    (hP : ∀ key r, Overlaid key r → P key r) (h : ListOK v) : ForItems P v := by
  obtain ⟨items, hv, hitems⟩ := h
  refine ⟨items, hv, fun item hmem => ?_⟩
  obtain ⟨id, key, hid, hkey, hov⟩ := hitems item hmem
  exact ⟨id, key, hid, hkey, hP key item hov⟩

theorem canPlayMatches_of_overlaid (key : String) (r : Val) (h : Overlaid key r)
    (hk : ¬ Inherited key) : CanPlayMatchesTable key r :=
  ⟨_, h.1, truthy_videoSourceOf_iff key hk⟩

theorem videoSourceMatches_of_overlaid (key : String) (r : Val) (h : Overlaid key r)
    (hk : ¬ Inherited key) : VideoSourceMatchesTable key r := by
  unfold VideoSourceMatchesTable
  rw [← videoSourceOf_eq key hk]
  exact h.2.2

theorem trending_listOK (u : Upstream) (w : World) (hw : Reachable w) :
    ListOK (getTrendingMovies u w).1 :=
  (fetchList_ok u w _ _ _ (cacheOK_of_reachable w hw) trending_key_not_movie listOK_empty).1

theorem search_listOK (u : Upstream) (w : World) (query : String) (hw : Reachable w) :
    ListOK (searchMovies u w query).1 :=
  (fetchList_ok u w _ _ _ (cacheOK_of_reachable w hw) (search_key_not_movie query)
    listOK_empty).1

theorem details_overlaid (u : Upstream) (w : World) (movieId : String) (hw : Reachable w) :
    (getMovieDetails u w movieId).1 = .null ∨ Overlaid movieId (getMovieDetails u w movieId).1 :=
  (getMovieDetails_ok u w movieId (cacheOK_of_reachable w hw)).1

theorem reachable_afterTrending : Reachable afterTrending :=
  Reachable.trending trendingOnly initial (Reachable.start 0)

/-- C1, the claim as stated fails: against a provider that answers the detail
request for the id `constructor`, `getMovieDetails('constructor')` returns a
record with `canPlay = true`, although the `videoSources` table holds no
descriptor under `constructor`: the computed read on the object literal
returns the inherited member `Object`. -/
theorem canPlay_true_for_inherited_name :
    videoSources.lookup "constructor" = none ∧
    videoSourceOf "constructor" = .native "Object" ∧
    getProp (getMovieDetails anyTitle initial "constructor").1 "canPlay" = .ok (.bool true) ∧
    ¬ CanPlayMatchesTable "constructor" (getMovieDetails anyTitle initial "constructor").1 := by
  refine ⟨by decide, by decide, by decide, ?_⟩
  rintro ⟨b, hb, hiff⟩
  have h1 : getProp (getMovieDetails anyTitle initial "constructor").1 "canPlay"
      = .ok (.bool true) := by decide
  rw [h1] at hb
  have hb2 : b = true := by
    injection hb with hb
    injection hb with hb
    exact hb.symm
  obtain ⟨d, hd, _⟩ := hiff.mp hb2
  rw [show videoSources.lookup "constructor" = none from rfl] at hd
  cases hd

/-- C1, amended. In every state app.js can reach and against every provider
behaviour, `getTrendingMovies` and `searchMovies` return an array in which
every record whose id is not the name of an inherited object member has
`canPlay = true` exactly when the `videoSources` table holds, under the
record's own id, a descriptor that declares a `streamUrl`; `getMovieDetails`
returns `null` (its failure value) or a record for which the same holds with
the requested id. Results served from the cache are included. -/
theorem canPlay_iff_stream_descriptor (w : World) (hw : Reachable w) (u : Upstream)
    (query movieId : String) :
    ForItems (fun key r => ¬ Inherited key → CanPlayMatchesTable key r)
      (getTrendingMovies u w).1 ∧
    ForItems (fun key r => ¬ Inherited key → CanPlayMatchesTable key r)
      (searchMovies u w query).1 ∧
    ((getMovieDetails u w movieId).1 = .null ∨
      (¬ Inherited movieId →
        CanPlayMatchesTable movieId (getMovieDetails u w movieId).1)) := by
  refine ⟨forItems_of_listOK _ _ canPlayMatches_of_overlaid (trending_listOK u w hw),
    forItems_of_listOK _ _ canPlayMatches_of_overlaid (search_listOK u w query hw), ?_⟩
  rcases details_overlaid u w movieId hw with h | h
  · exact Or.inl h
  · exact Or.inr (canPlayMatches_of_overlaid _ _ h)

/-- Witness of C1 (amended): the state after one trending call is reachable;
the theorem applies to the cached listing, and to a detail record fetched for
an id of the table, which is not `null` and has `canPlay = true`. -/
theorem canPlay_iff_stream_descriptor_witness :
    Reachable afterTrending ∧
    ForItems (fun key r => ¬ Inherited key → CanPlayMatchesTable key r)
      (getTrendingMovies anyTitle afterTrending).1 ∧
    ForItems (fun key r => ¬ Inherited key → CanPlayMatchesTable key r)
      (searchMovies trendingOnly afterTrending "batman").1 ∧
    ((getMovieDetails anyTitle afterTrending "299534").1 = .null ∨
      (¬ Inherited "299534" →
        CanPlayMatchesTable "299534" (getMovieDetails anyTitle afterTrending "299534").1)) ∧
    (getMovieDetails anyTitle afterTrending "299534").1 ≠ .null ∧
    ¬ Inherited "299534" ∧
    getProp (getMovieDetails anyTitle afterTrending "299534").1 "canPlay" = .ok (.bool true) :=
  ⟨reachable_afterTrending,
    (canPlay_iff_stream_descriptor afterTrending reachable_afterTrending anyTitle "batman"
      "299534").1,
    (canPlay_iff_stream_descriptor afterTrending reachable_afterTrending trendingOnly "batman"
      "299534").2.1,
    (canPlay_iff_stream_descriptor afterTrending reachable_afterTrending anyTitle "batman"
      "299534").2.2,
    by decide, by decide, by decide⟩

theorem canDownload_of_overlaid (key : String) (r : Val) (h : Overlaid key r) :
    getProp r "canDownload" = .ok (.bool true) ∧
      ((videoSources.lookup key).isSome = false → ¬ Inherited key →
        getProp r "canPlay" = .ok (.bool false) ∧ getProp r "videoSource" = .ok .undefined) := by
  refine ⟨h.2.1, fun habs hk => ?_⟩
  have hv : videoSourceOf key = .undefined := by
    rw [videoSourceOf_eq key hk]
    cases hl : videoSources.lookup key with
    | none => rfl
    | some d => simp [hl] at habs
  refine ⟨?_, ?_⟩
  · rw [h.1, hv]
    rfl
  · rw [h.2.2, hv]

/-- C3, the claim as stated fails, in both of its parts: the first record of
the trending listing of the scenario has id 1, the table holds no descriptor
under "1", and the record's `canDownload` is `true` (so `canDownload` is not
"true iff a descriptor exists", and it is not false for an absent id); and
the id `constructor` is absent from the table, yet the record that
`getMovieDetails('constructor')` returns has `canPlay = true`, the computed
read having returned an inherited member. -/
theorem canDownload_true_without_descriptor :
    (∃ item rest, (getTrendingMovies trendingOnly initial).1 = .arr (item :: rest) ∧
      getProp item "id" = .ok (.num 1) ∧ (Val.num 1).toStringCall = .ok "1" ∧
      videoSources.lookup "1" = none ∧
      getProp item "canDownload" = .ok (.bool true) ∧
      ¬ CanDownloadMatchesTable "1" item) ∧
    videoSources.lookup "constructor" = none ∧
    getProp (getMovieDetails anyTitle initial "constructor").1 "canPlay" = .ok (.bool true) := by
  refine ⟨?_, by decide, by decide⟩
  refine ⟨overlay (.obj [("id", .num 1), ("title", .str "A")]) "1",
    [overlay (.obj [("id", .num 299534), ("title", .str "Avengers: Endgame")]) "299534",
     overlay (.obj [("id", .num 181808), ("title", .str "Star Wars: The Last Jedi")]) "181808"],
    by decide, by decide, by decide, by decide, by decide, ?_⟩
  rintro ⟨b, hb, hiff⟩
  have h1 : getProp (overlay (.obj [("id", .num 1), ("title", .str "A")]) "1") "canDownload"
      = .ok (.bool true) := by decide
  rw [h1] at hb
  have hb2 : b = true := by
    injection hb with hb
    injection hb with hb
    exact hb.symm
  have h2 := hiff.mp hb2
  revert h2
  decide

/-- C3, amended. In every state app.js can reach and against every provider
behaviour, every record returned by `getTrendingMovies`, `searchMovies` or
(unless it returns `null`) `getMovieDetails` has `canDownload = true`,
whatever the table holds; and when the table has no descriptor under the
record's id and that id is not the name of an inherited object member,
enrichment sets `canPlay` to `false` and `videoSource` to `undefined`. -/
theorem canDownload_always_true (w : World) (hw : Reachable w) (u : Upstream)
    (query movieId : String) :
    ForItems (fun key r => getProp r "canDownload" = .ok (.bool true) ∧
      ((videoSources.lookup key).isSome = false → ¬ Inherited key →
        getProp r "canPlay" = .ok (.bool false) ∧ getProp r "videoSource" = .ok .undefined))
      (getTrendingMovies u w).1 ∧
    ForItems (fun key r => getProp r "canDownload" = .ok (.bool true) ∧
      ((videoSources.lookup key).isSome = false → ¬ Inherited key →
        getProp r "canPlay" = .ok (.bool false) ∧ getProp r "videoSource" = .ok .undefined))
      (searchMovies u w query).1 ∧
    ((getMovieDetails u w movieId).1 = .null ∨
      (getProp (getMovieDetails u w movieId).1 "canDownload" = .ok (.bool true) ∧
        ((videoSources.lookup movieId).isSome = false → ¬ Inherited movieId →
          getProp (getMovieDetails u w movieId).1 "canPlay" = .ok (.bool false) ∧
          getProp (getMovieDetails u w movieId).1 "videoSource" = .ok .undefined))) := by
  refine ⟨forItems_of_listOK _ _ canDownload_of_overlaid (trending_listOK u w hw),
    forItems_of_listOK _ _ canDownload_of_overlaid (search_listOK u w query hw), ?_⟩
  rcases details_overlaid u w movieId hw with h | h
  · exact Or.inl h
  · exact Or.inr (canDownload_of_overlaid _ _ h)

/-- Witness of C3 (amended): in the state after one trending call, the
cached listing, and a detail record fetched for the id `1`, which the table
does not hold: the record is not `null`, its `canDownload` is `true`, its
`canPlay` is `false` and its `videoSource` is `undefined`. -/
theorem canDownload_always_true_witness :
    Reachable afterTrending ∧
    ForItems (fun key r => getProp r "canDownload" = .ok (.bool true) ∧
      ((videoSources.lookup key).isSome = false → ¬ Inherited key →
        getProp r "canPlay" = .ok (.bool false) ∧ getProp r "videoSource" = .ok .undefined))
      (getTrendingMovies anyTitle afterTrending).1 ∧
    ((getMovieDetails anyTitle afterTrending "1").1 = .null ∨
      (getProp (getMovieDetails anyTitle afterTrending "1").1 "canDownload"
          = .ok (.bool true) ∧
        ((videoSources.lookup "1").isSome = false → ¬ Inherited "1" →
          getProp (getMovieDetails anyTitle afterTrending "1").1 "canPlay"
            = .ok (.bool false) ∧
          getProp (getMovieDetails anyTitle afterTrending "1").1 "videoSource"
            = .ok .undefined))) ∧
    (getMovieDetails anyTitle afterTrending "1").1 ≠ .null ∧
    (videoSources.lookup "1").isSome = false ∧ ¬ Inherited "1" ∧
    getProp (getMovieDetails anyTitle afterTrending "1").1 "canDownload" = .ok (.bool true) ∧
    getProp (getMovieDetails anyTitle afterTrending "1").1 "canPlay" = .ok (.bool false) :=
  ⟨reachable_afterTrending,
    (canDownload_always_true afterTrending reachable_afterTrending anyTitle "batman" "1").1,
    (canDownload_always_true afterTrending reachable_afterTrending anyTitle "batman" "1").2.2,
    by decide, by decide, by decide, by decide, by decide⟩

theorem findCanPlay_records (records : List (List (String × Val))) :
    findCanPlay (records.map Val.obj) =
      .ok (match records.find? (fun r => truthy (objGet r "canPlay")) with
        | some r => .obj r
        | none => .undefined) := by
  induction records with
  | nil => rfl
  | cons r rest ih =>
    simp only [List.map_cons, findCanPlay, getProp, List.find?_cons]
    cases h : truthy (objGet r "canPlay") with
    | true => simp
    | false => simpa using ih

/-- C5. For every list of movie records, `getFeaturedMovie` returns (without
throwing) the first record of the list whose `canPlay` is true; when no record
has it, the first record of the list; when the list is empty, `undefined`. -/
theorem getFeaturedMovie_eq_featuredSpec (records : List (List (String × Val))) :
    getFeaturedMovie (records.map Val.obj) = .ok (featuredSpec records) := by
  unfold getFeaturedMovie featuredSpec
  rw [findCanPlay_records]
  cases hf : records.find? (fun r => truthy (objGet r "canPlay")) with
  | some r => simp [truthy]
  | none =>
    cases records with
    | nil => simp [truthy]
    | cons r rest => simp [truthy]

theorem getOtherMovies_records (records : List (List (String × Val)))
    (featured : List (String × Val)) :
    getOtherMovies (records.map Val.obj) (.obj featured) =
      .ok ((records.filter (fun r => objGet r "id" != objGet featured "id")).map Val.obj) := by
  induction records with
  | nil => rfl
  | cons r rest ih =>
    simp only [List.map_cons, getOtherMovies, getProp, ih, List.filter_cons]
    cases h : (objGet r "id" != objGet featured "id") <;> simp

/-- C6. For every list of movie records and every featured record,
`getOtherMovies` returns exactly the records whose `id` differs from the
featured record's `id`, in their original order; and for records A, B, C with
`canPlay` false, true, true and the ids of A and C different from B's, the
featured record of `[A, B, C]` is B and the others are `[A, C]`. -/
theorem getOtherMovies_eq_filter :
    (∀ (records : List (List (String × Val))) (featured : List (String × Val)),
      getOtherMovies (records.map Val.obj) (.obj featured) =
        .ok ((records.filter (fun r => objGet r "id" != objGet featured "id")).map Val.obj)) ∧
    (∀ a b c : List (String × Val),
      objGet a "canPlay" = .bool false → objGet b "canPlay" = .bool true →
      objGet c "canPlay" = .bool true →
      objGet a "id" ≠ objGet b "id" → objGet c "id" ≠ objGet b "id" →
      getFeaturedMovie [.obj a, .obj b, .obj c] = .ok (.obj b) ∧
      getOtherMovies [.obj a, .obj b, .obj c] (.obj b) = .ok [.obj a, .obj c]) := by
  refine ⟨getOtherMovies_records, ?_⟩
  intro a b c ha hb hc hab hcb
  constructor
  · simp [getFeaturedMovie, findCanPlay, getProp, ha, hb, truthy]
  · have hab2 : (objGet a "id" != objGet b "id") = true := by simpa using hab
    have hcb2 : (objGet c "id" != objGet b "id") = true := by simpa using hcb
    have h := getOtherMovies_records [a, b, c] b
    simpa [List.filter, hab2, hcb2] using h

/-- Witness of C6: the records A, B, C of the example. -/
theorem getOtherMovies_eq_filter_witness :
    objGet recordA "canPlay" = .bool false ∧ objGet recordB "canPlay" = .bool true ∧
    objGet recordC "canPlay" = .bool true ∧
    objGet recordA "id" ≠ objGet recordB "id" ∧ objGet recordC "id" ≠ objGet recordB "id" ∧
    getFeaturedMovie [.obj recordA, .obj recordB, .obj recordC] = .ok (.obj recordB) ∧
    getOtherMovies [.obj recordA, .obj recordB, .obj recordC] (.obj recordB)
      = .ok [.obj recordA, .obj recordC] :=
  ⟨by decide, by decide, by decide, by decide, by decide,
    getOtherMovies_eq_filter.2 recordA recordB recordC (by decide) (by decide) (by decide)
      (by decide) (by decide)⟩

/-- C7. For the empty list `getFeaturedMovie` returns `undefined`, and
`getOtherMovies` applied to the empty list and that value returns the empty
list without throwing (nothing is read from the featured value when there is
no item to filter). -/
theorem empty_list_featured_and_others :
    getFeaturedMovie [] = .ok .undefined ∧ getOtherMovies [] .undefined = .ok [] ∧
    (∀ featured : Val, getOtherMovies [] featured = .ok []) :=
  ⟨rfl, rfl, fun _ => rfl⟩

end CineNova

/-! ## server.js: the claims on enrichment -/

namespace MovieService

theorem table_descriptors_truthy : ∀ kv ∈ sampleMovies, truthy kv.2 = true := by
  decide

theorem truthy_movieFileOf_iff (imdbID : Val) :
    truthy (movieFileOf imdbID) = true ↔ HasDescriptor imdbID := by
  unfold HasDescriptor
  cases imdbID with
  | str s =>
    simp only [movieFileOf, objGet, Val.str.injEq, exists_and_left, exists_eq_left']
    cases hl : sampleMovies.lookup s with
    | none => simp [truthy]
    | some d => simp [table_descriptors_truthy (s, d) (mem_of_lookup_eq_some _ _ _ hl)]
  | _ => simp [movieFileOf, truthy]

theorem movieFileOf_eq (imdbID : Val) :
    movieFileOf imdbID =
      (match imdbID with
       | .str s =>
         (match sampleMovies.lookup s with
          | some d => d
          | none => .undefined)
       | _ => .undefined) := by
  cases imdbID with
  | str s =>
    simp only [movieFileOf, objGet]
    cases sampleMovies.lookup s <;> rfl
  | _ => rfl

theorem canDownloadMatches_of_enhanced (imdbID r : Val) (h : Enhanced imdbID r) :
    CanDownloadMatchesTable imdbID r :=
  ⟨_, h.1, truthy_movieFileOf_iff imdbID⟩

theorem downloadInfoMatches_of_enhanced (imdbID r : Val) (h : Enhanced imdbID r) :
    DownloadInfoMatchesTable imdbID r := by
  unfold DownloadInfoMatchesTable
  rw [← movieFileOf_eq]
  exact h.2

theorem details_fetched_enhanced (u : Upstream) (w : World) (imdbID data : Val)
    (h : DetailsFetched u w imdbID data) : Enhanced imdbID (getMovieDetails u w imdbID).1 := by
  obtain ⟨s, _, heq⟩ := getMovieDetails_fetched u w imdbID data h
  rw [heq]
  exact enhanced_enhancedData data imdbID

theorem search_fetched_items (P : Val → Val → Prop) (hP : ∀ id r, Enhanced id r → P id r)
    (u : Upstream) (w : World) (query : String) (page : Int) (data : Val) (items : List Val)
    (h : SearchFetched u w query page data items) :
    ∃ enhanced, getProp (searchMovies u w query page).1 "Search" = .ok (.arr enhanced) ∧
      List.Forall₂ (fun movie item => ∃ id, getProp movie "imdbID" = .ok id ∧ P id item)
        items enhanced := by
  obtain ⟨enhanced, w2, hb, heq, _⟩ := searchMovies_fresh u w query page data items h
  refine ⟨enhanced, ?_, ?_⟩
  · rw [heq]
    simp only [getProp]
    rw [objGet_objSet_same]
  · refine List.Forall₂.imp ?_ hb
    rintro movie item ⟨id, details, hid, hitem⟩
    refine ⟨id, hid, hP id item ?_⟩
    rw [hitem]
    exact enhanced_enhancedMovie movie details id

theorem detailKeysOK_of_reachablePlain (w : World) (h : ReachablePlain w) :
    DetailKeysOK w.cache := by
  induction h with
  | start now => intro s e hmem; simp at hmem
  | tick w t _ _ ih => exact ih
  | search u w query page hu _ ih => exact searchMovies_keysOK u w query page hu ih
  | details u w imdbID _ ih =>
    exact (getMovieDetails_plain u w (.str imdbID) imdbID (Or.inl ⟨imdbID, rfl⟩) rfl ih).2
  | trending u w pick hu _ ih => exact searchMovies_keysOK u w _ 1 hu ih

theorem details_enhanced_of_reachablePlain (w : World) (h : ReachablePlain w) (u : Upstream)
    (imdbID : String) :
    (getMovieDetails u w (.str imdbID)).1 = .null ∨
      Enhanced (.str imdbID) (getMovieDetails u w (.str imdbID)).1 :=
  (getMovieDetails_plain u w (.str imdbID) imdbID (Or.inl ⟨imdbID, rfl⟩) rfl
    (detailKeysOK_of_reachablePlain w h)).1

theorem plainIds_omdb : PlainIds omdb := by
  intro n req data items movie imdbID hu hs hm hid
  unfold omdb at hu
  split at hu
  · cases hu
    have hS : getProp forrestSearch "Search" = .ok (.arr forrestItems) := by decide
    rw [hS] at hs
    cases hs
    simp only [forrestItems, List.mem_cons, List.mem_singleton, List.not_mem_nil,
      or_false] at hm
    rcases hm with hm | hm
    · subst hm
      have h1 : getProp (.obj [("Title", .str "Forrest Gump"), ("Year", .str "1994"),
        ("imdbID", .str "tt0109830")]) "imdbID" = .ok (.str "tt0109830") := by decide
      rw [h1] at hid
      cases hid
      exact Or.inl ⟨_, rfl⟩
    · subst hm
      have h1 : getProp (.obj [("Title", .str "Forrest"), ("Year", .str "2006"),
        ("imdbID", .str "tt0000001")]) "imdbID" = .ok (.str "tt0000001") := by decide
      rw [h1] at hid
      cases hid
      exact Or.inl ⟨_, rfl⟩
  · cases hu
    have hS : getProp forrestDetails "Search" = .ok .undefined := by decide
    rw [hS] at hs
    cases hs
  · cases hu
    have hS : getProp (.obj [("Response", .str "False"), ("Error", .str "Error getting data.")])
      "Search" = .ok .undefined := by decide
    rw [hS] at hs
    cases hs

theorem reachablePlain_afterSearch : ReachablePlain afterSearch :=
  ReachablePlain.search omdb initial "forrest" 1 plainIds_omdb (ReachablePlain.start 0)

theorem reachable_afterArraySearch : Reachable afterArraySearch :=
  Reachable.search arrayIds initial "forrest" 1 (Reachable.start 0)

/-- C2, the claim as stated fails, in two ways. The table holds a descriptor
under `tt0109830`. After a search whose provider item carries the id as the
array `['tt0109830']` (its detail record is cached under `movie-tt0109830`
with the table lookup of the array), `getMovieDetails('tt0109830')` returns a
record with `canDownload = false`. And a search whose provider item has the
id `tt0000001` and whose detail record carries `imdbID: 'tt0109830'` returns
an item with `imdbID = 'tt0109830'` and `canDownload = false`. -/
theorem canDownload_false_for_table_id :
    HasDescriptor (.str "tt0109830") ∧
    Reachable afterArraySearch ∧
    getProp (getMovieDetails down afterArraySearch (.str "tt0109830")).1 "canDownload"
      = .ok (.bool false) ∧
    ¬ CanDownloadMatchesTable (.str "tt0109830")
      (getMovieDetails down afterArraySearch (.str "tt0109830")).1 ∧
    (∃ item, getProp (searchMovies otherId initial "forrest" 1).1 "Search" = .ok (.arr [item]) ∧
      getProp item "imdbID" = .ok (.str "tt0109830") ∧
      getProp item "canDownload" = .ok (.bool false)) := by
  have hd : HasDescriptor (.str "tt0109830") := ⟨"tt0109830", _, rfl, rfl⟩
  have hc : getProp (getMovieDetails down afterArraySearch (.str "tt0109830")).1 "canDownload"
      = .ok (.bool false) := by decide
  refine ⟨hd, reachable_afterArraySearch, hc, ?_,
    enhancedMovie otherIdItem (enhancedData otherIdDetails (.str "tt0000001"))
      (.str "tt0000001"), by decide, by decide, by decide⟩
  rintro ⟨b, hb, hiff⟩
  rw [hc] at hb
  have hb2 : b = false := by
    injection hb with hb
    injection hb with hb
    exact hb.symm
  subst hb2
  exact absurd (hiff.mpr hd) (by decide)

/-- C2, amended. In `MovieService`, the record a `getMovieDetails(imdbID)`
that fetches builds has `canDownload = true` exactly when the `movieFiles`
table holds a descriptor under the requested `imdbID`; a `searchMovies` that
fetches returns a `Search` array with one item per provider item, in order,
each with `canDownload = true` exactly when the table holds a descriptor under
the `imdbID` of the provider item it is built from; and in every state
reached with string ids (route parameters, and a provider whose search items
carry string ids), whatever `getMovieDetails` returns for a string id, from
the provider or from the cache, is `null` (its failure value) or a record with
`canDownload = true` exactly when the table holds a descriptor under that
id. -/
theorem canDownload_iff_descriptor :
    (∀ (u : Upstream) (w : World) (imdbID data : Val), DetailsFetched u w imdbID data →
      CanDownloadMatchesTable imdbID (getMovieDetails u w imdbID).1) ∧
    (∀ (u : Upstream) (w : World) (query : String) (page : Int) (data : Val) (items : List Val),
      SearchFetched u w query page data items →
      ∃ enhanced, getProp (searchMovies u w query page).1 "Search" = .ok (.arr enhanced) ∧
        List.Forall₂
          (fun movie item => ∃ id, getProp movie "imdbID" = .ok id ∧
            CanDownloadMatchesTable id item)
          items enhanced) ∧
    (∀ (w : World), ReachablePlain w → ∀ (u : Upstream) (imdbID : String),
      (getMovieDetails u w (.str imdbID)).1 = .null ∨
        CanDownloadMatchesTable (.str imdbID) (getMovieDetails u w (.str imdbID)).1) :=
  ⟨fun u w imdbID data h =>
      canDownloadMatches_of_enhanced _ _ (details_fetched_enhanced u w imdbID data h),
    search_fetched_items CanDownloadMatchesTable canDownloadMatches_of_enhanced,
    fun w hw u imdbID =>
      (details_enhanced_of_reachablePlain w hw u imdbID).imp id
        (canDownloadMatches_of_enhanced _ _)⟩

theorem detailsFetched_scenario :
    DetailsFetched omdb initial (.str "tt0109830") forrestDetails :=
  ⟨"tt0109830", by decide, by decide, by decide, by decide⟩

theorem searchFetched_scenario :
    SearchFetched omdb initial "forrest" 1 forrestSearch forrestItems :=
  ⟨by decide, by decide, by decide, by decide, by decide⟩

/-- Witness of C2: the detail fetch and the search of the scenario succeed,
and the theorem applies to them. -/
theorem canDownload_iff_descriptor_witness :
    DetailsFetched omdb initial (.str "tt0109830") forrestDetails ∧
    CanDownloadMatchesTable (.str "tt0109830")
      (getMovieDetails omdb initial (.str "tt0109830")).1 ∧
    (∃ enhanced, getProp (searchMovies omdb initial "forrest" 1).1 "Search"
        = .ok (.arr enhanced) ∧
      List.Forall₂
        (fun movie item => ∃ id, getProp movie "imdbID" = .ok id ∧
          CanDownloadMatchesTable id item)
        forrestItems enhanced) ∧
    ReachablePlain afterSearch ∧
    ((getMovieDetails omdb afterSearch (.str "tt0109830")).1 = .null ∨
      CanDownloadMatchesTable (.str "tt0109830")
        (getMovieDetails omdb afterSearch (.str "tt0109830")).1) :=
  ⟨detailsFetched_scenario,
    canDownload_iff_descriptor.1 omdb initial (.str "tt0109830") forrestDetails
      detailsFetched_scenario,
    canDownload_iff_descriptor.2.1 omdb initial "forrest" 1 forrestSearch _
      searchFetched_scenario,
    reachablePlain_afterSearch,
    canDownload_iff_descriptor.2.2 afterSearch reachablePlain_afterSearch omdb "tt0109830"⟩

end MovieService

/-! ## Both variants: the availability field and the cache hit -/

/-- C4, the claim as stated fails. In app.js the table holds nothing under
`constructor`, yet the record `getMovieDetails('constructor')` builds has the
inherited member `Object` as `videoSource`, not `undefined`. In server.js the
table holds a descriptor under `tt0109830`, yet after a search whose provider
item carries that id as a one-element array, the record
`getMovieDetails('tt0109830')` returns from the cache has `downloadInfo`
`undefined`; and a search item built from a provider item with id `tt0000001`
whose detail record carries `imdbID: 'tt0109830'` has `imdbID = 'tt0109830'`
and `downloadInfo` `undefined`. -/
theorem availability_is_not_always_the_lookup :
    CineNova.videoSources.lookup "constructor" = none ∧
    getProp (CineNova.getMovieDetails CineNova.anyTitle CineNova.initial "constructor").1
      "videoSource" = .ok (.native "Object") ∧
    ¬ CineNova.VideoSourceMatchesTable "constructor"
      (CineNova.getMovieDetails CineNova.anyTitle CineNova.initial "constructor").1 ∧
    (∃ d, MovieService.sampleMovies.lookup "tt0109830" = some d) ∧
    MovieService.Reachable MovieService.afterArraySearch ∧
    getProp (MovieService.getMovieDetails down MovieService.afterArraySearch
      (.str "tt0109830")).1 "downloadInfo" = .ok .undefined ∧
    ¬ MovieService.DownloadInfoMatchesTable (.str "tt0109830")
      (MovieService.getMovieDetails down MovieService.afterArraySearch (.str "tt0109830")).1 ∧
    (∃ item, getProp (MovieService.searchMovies MovieService.otherId MovieService.initial
        "forrest" 1).1 "Search" = .ok (.arr [item]) ∧
      getProp item "imdbID" = .ok (.str "tt0109830") ∧
      getProp item "downloadInfo" = .ok .undefined) := by
  refine ⟨by decide, by decide, by unfold CineNova.VideoSourceMatchesTable; decide, ⟨_, rfl⟩,
    MovieService.reachable_afterArraySearch, by decide,
    by unfold MovieService.DownloadInfoMatchesTable; decide,
    MovieService.enhancedMovie MovieService.otherIdItem
      (MovieService.enhancedData MovieService.otherIdDetails (.str "tt0000001"))
      (.str "tt0000001"), by decide, by decide, by decide⟩

/-- C4, amended. In app.js the field `videoSource` of every record of a
listing, and of the detail record for the requested id, in every reachable
state, is exactly what the table holds under the record's id, the descriptor
itself or `undefined` when the table has no such key, for every id that is not
the name of an inherited object member. In server.js the field `downloadInfo`
is exactly what the table holds under the id the lookup is made with, the
descriptor itself or `undefined`: the requested id for the record a fetching
`getMovieDetails` builds, the id of the provider's item for every item a
fetching `searchMovies` builds, and the requested id for whatever
`getMovieDetails` returns for a string id in a state reached with string
ids. -/
theorem availability_is_table_lookup :
    (∀ (w : World), CineNova.Reachable w → ∀ (u : Upstream) (query movieId : String),
      CineNova.ForItems (fun key r => ¬ Inherited key → CineNova.VideoSourceMatchesTable key r)
        (CineNova.getTrendingMovies u w).1 ∧
      CineNova.ForItems (fun key r => ¬ Inherited key → CineNova.VideoSourceMatchesTable key r)
        (CineNova.searchMovies u w query).1 ∧
      ((CineNova.getMovieDetails u w movieId).1 = .null ∨
        (¬ Inherited movieId →
          CineNova.VideoSourceMatchesTable movieId (CineNova.getMovieDetails u w movieId).1))) ∧
    (∀ (u : Upstream) (w : World) (imdbID data : Val),
      MovieService.DetailsFetched u w imdbID data →
      MovieService.DownloadInfoMatchesTable imdbID (MovieService.getMovieDetails u w imdbID).1) ∧
    (∀ (u : Upstream) (w : World) (query : String) (page : Int) (data : Val) (items : List Val),
      MovieService.SearchFetched u w query page data items →
      ∃ enhanced,
        getProp (MovieService.searchMovies u w query page).1 "Search" = .ok (.arr enhanced) ∧
        List.Forall₂
          (fun movie item => ∃ id, getProp movie "imdbID" = .ok id ∧
            MovieService.DownloadInfoMatchesTable id item)
          items enhanced) ∧
    (∀ (w : World), MovieService.ReachablePlain w → ∀ (u : Upstream) (imdbID : String),
      (MovieService.getMovieDetails u w (.str imdbID)).1 = .null ∨
        MovieService.DownloadInfoMatchesTable (.str imdbID)
          (MovieService.getMovieDetails u w (.str imdbID)).1) := by
  refine ⟨fun w hw u query movieId => ⟨?_, ?_, ?_⟩, ?_, ?_, ?_⟩
  · exact CineNova.forItems_of_listOK _ _ CineNova.videoSourceMatches_of_overlaid
      (CineNova.trending_listOK u w hw)
  · exact CineNova.forItems_of_listOK _ _ CineNova.videoSourceMatches_of_overlaid
      (CineNova.search_listOK u w query hw)
  · exact (CineNova.details_overlaid u w movieId hw).imp id
      (CineNova.videoSourceMatches_of_overlaid _ _)
  · exact fun u w imdbID data h => MovieService.downloadInfoMatches_of_enhanced _ _
      (MovieService.details_fetched_enhanced u w imdbID data h)
  · exact MovieService.search_fetched_items MovieService.DownloadInfoMatchesTable
      MovieService.downloadInfoMatches_of_enhanced
  · exact fun w hw u imdbID => (MovieService.details_enhanced_of_reachablePlain w hw u imdbID).imp
      id (MovieService.downloadInfoMatches_of_enhanced _ _)

/-- Witness of C4 (amended): the theorem applied to the scenarios of both
variants; the app.js detail record is fetched for an id of the table and is
not `null`. -/
theorem availability_is_table_lookup_witness :
    CineNova.Reachable CineNova.afterTrending ∧
    CineNova.ForItems (fun key r => ¬ Inherited key → CineNova.VideoSourceMatchesTable key r)
      (CineNova.getTrendingMovies CineNova.trendingOnly CineNova.afterTrending).1 ∧
    ((CineNova.getMovieDetails CineNova.anyTitle CineNova.afterTrending "299534").1 = .null ∨
      (¬ Inherited "299534" →
        CineNova.VideoSourceMatchesTable "299534"
          (CineNova.getMovieDetails CineNova.anyTitle CineNova.afterTrending "299534").1)) ∧
    (CineNova.getMovieDetails CineNova.anyTitle CineNova.afterTrending "299534").1 ≠ .null ∧
    ¬ Inherited "299534" ∧
    MovieService.DetailsFetched MovieService.omdb MovieService.initial (.str "tt0109830")
      MovieService.forrestDetails ∧
    MovieService.DownloadInfoMatchesTable (.str "tt0109830")
      (MovieService.getMovieDetails MovieService.omdb MovieService.initial
        (.str "tt0109830")).1 ∧
    MovieService.SearchFetched MovieService.omdb MovieService.initial "forrest" 1
      MovieService.forrestSearch MovieService.forrestItems ∧
    (∃ enhanced,
      getProp (MovieService.searchMovies MovieService.omdb MovieService.initial "forrest" 1).1
        "Search" = .ok (.arr enhanced) ∧
      List.Forall₂
        (fun movie item => ∃ id, getProp movie "imdbID" = .ok id ∧
          MovieService.DownloadInfoMatchesTable id item)
        MovieService.forrestItems enhanced) ∧
    MovieService.ReachablePlain MovieService.afterSearch ∧
    ((MovieService.getMovieDetails MovieService.omdb MovieService.afterSearch
        (.str "tt0109830")).1 = .null ∨
      MovieService.DownloadInfoMatchesTable (.str "tt0109830")
        (MovieService.getMovieDetails MovieService.omdb MovieService.afterSearch
          (.str "tt0109830")).1) :=
  ⟨CineNova.reachable_afterTrending,
    (availability_is_table_lookup.1 CineNova.afterTrending CineNova.reachable_afterTrending
      CineNova.trendingOnly "batman" "299534").1,
    (availability_is_table_lookup.1 CineNova.afterTrending CineNova.reachable_afterTrending
      CineNova.anyTitle "batman" "299534").2.2,
    by decide, by decide,
    MovieService.detailsFetched_scenario,
    availability_is_table_lookup.2.1 MovieService.omdb MovieService.initial (.str "tt0109830")
      MovieService.forrestDetails MovieService.detailsFetched_scenario,
    MovieService.searchFetched_scenario,
    availability_is_table_lookup.2.2.1 MovieService.omdb MovieService.initial "forrest" 1
      MovieService.forrestSearch MovieService.forrestItems MovieService.searchFetched_scenario,
    MovieService.reachablePlain_afterSearch,
    availability_is_table_lookup.2.2.2 MovieService.afterSearch
      MovieService.reachablePlain_afterSearch MovieService.omdb "tt0109830"⟩

theorem CineNova.truthy_of_overlaid (key : String) (v : Val) (h : CineNova.Overlaid key v) :
    truthy v = true := by
  have h1 := h.1
  cases v with
  | obj fields => rfl
  | _ => simp [getProp] at h1

theorem CineNova.truthy_of_entryOK (key : String) (v : Val) (h : CineNova.EntryOK key v) :
    truthy v = true := by
  by_cases hk : ∃ id, key = "movie_" ++ id
  · obtain ⟨id, hk⟩ := hk
    exact CineNova.truthy_of_overlaid id v (h.1 id hk)
  · obtain ⟨items, hv, _⟩ := h.2 (fun id hid => hk ⟨id, hid⟩)
    rw [hv]
    rfl

theorem CineNova.truthy_of_live (w : World) (hw : CineNova.Reachable w) (key : String) (v : Val)
    (hl : w.cache.live w.now key = some v) : truthy (w.cache.get w.now key) = true := by
  obtain ⟨e, hmem, hval⟩ := Cache.mem_of_live _ _ _ _ hl
  rw [Cache.get_of_live _ _ _ _ hl, ← hval]
  exact CineNova.truthy_of_entryOK key _ (CineNova.cacheOK_of_reachable w hw key e hmem)

/-- C8. In both variants and in every reachable state, when the cache holds a
live (non-expired) entry under the cache key of the request, each operation
(trending, search, details) returns that entry's value and leaves the world as
it was: no request is added to the log of outbound requests and the cache is
not written. -/
theorem cache_hit_returns_entry :
    (∀ (w : World), CineNova.Reachable w → ∀ (u : Upstream) (query movieId : String) (v : Val),
      (w.cache.live w.now "trending_movies" = some v →
        CineNova.getTrendingMovies u w = (v, w)) ∧
      (w.cache.live w.now ("search_" ++ query) = some v →
        CineNova.searchMovies u w query = (v, w)) ∧
      (w.cache.live w.now ("movie_" ++ movieId) = some v →
        CineNova.getMovieDetails u w movieId = (v, w))) ∧
    (∀ (w : World), MovieService.Reachable w →
      ∀ (u : Upstream) (query : String) (page : Int) (imdbID : Val) (s : String)
        (pick : Fin 5) (v : Val),
      (w.cache.live w.now (MovieService.searchKey query page) = some v →
        MovieService.searchMovies u w query page = (v, w)) ∧
      (imdbID.toStr = .ok s → w.cache.live w.now ("movie-" ++ s) = some v →
        MovieService.getMovieDetails u w imdbID = (v, w)) ∧
      (w.cache.live w.now
          (MovieService.searchKey (MovieService.popularSearches.getD pick.val "") 1) = some v →
        MovieService.getTrendingMovies u w pick = (v, w))) := by
  refine ⟨fun w hw u query movieId v => ⟨fun hl => ?_, fun hl => ?_, fun hl => ?_⟩,
    fun w hw u query page imdbID s pick v => ⟨fun hl => ?_, fun hs hl => ?_, fun hl => ?_⟩⟩
  · have ht := CineNova.truthy_of_live w hw _ v hl
    rw [CineNova.getTrendingMovies, CineNova.fetchList_hit u w _ _ _ ht,
      Cache.get_of_live _ _ _ _ hl]
  · have ht := CineNova.truthy_of_live w hw _ v hl
    rw [CineNova.searchMovies, CineNova.fetchList_hit u w _ _ _ ht,
      Cache.get_of_live _ _ _ _ hl]
  · have ht := CineNova.truthy_of_live w hw _ v hl
    rw [CineNova.getMovieDetails_hit u w movieId ht, Cache.get_of_live _ _ _ _ hl]
  · have ht := MovieService.truthy_of_live_entry w (MovieService.allObjects_of_reachable w hw) _ v hl
    rw [MovieService.searchMovies_hit u w query page ht, Cache.get_of_live _ _ _ _ hl]
  · have ht := MovieService.truthy_of_live_entry w (MovieService.allObjects_of_reachable w hw) _ v hl
    rw [MovieService.getMovieDetails_cached u w imdbID s hs ht, Cache.get_of_live _ _ _ _ hl]
  · have ht := MovieService.truthy_of_live_entry w (MovieService.allObjects_of_reachable w hw) _ v hl
    rw [MovieService.getTrendingMovies, MovieService.searchMovies_hit u w _ 1 ht,
      Cache.get_of_live _ _ _ _ hl]

theorem MovieService.reachable_afterSearch : MovieService.Reachable MovieService.afterSearch :=
  MovieService.Reachable.search MovieService.omdb MovieService.initial "forrest" 1
    (MovieService.Reachable.start 0)

/-- Witness of C8: after one trending call (app.js) and after one search
(server.js) the entries are live, and the repeated calls are served from
them, whatever the provider would answer. -/
theorem cache_hit_returns_entry_witness :
    CineNova.Reachable CineNova.afterTrending ∧
    CineNova.afterTrending.cache.live CineNova.afterTrending.now "trending_movies"
      = some (CineNova.getTrendingMovies CineNova.trendingOnly CineNova.initial).1 ∧
    CineNova.getTrendingMovies (fun _ _ => none) CineNova.afterTrending
      = ((CineNova.getTrendingMovies CineNova.trendingOnly CineNova.initial).1,
          CineNova.afterTrending) ∧
    MovieService.Reachable MovieService.afterSearch ∧
    MovieService.afterSearch.cache.live MovieService.afterSearch.now
        (MovieService.searchKey "forrest" 1)
      = some (MovieService.searchMovies MovieService.omdb MovieService.initial "forrest" 1).1 ∧
    MovieService.searchMovies (fun _ _ => none) MovieService.afterSearch "forrest" 1
      = ((MovieService.searchMovies MovieService.omdb MovieService.initial "forrest" 1).1,
          MovieService.afterSearch) :=
  ⟨CineNova.reachable_afterTrending, by decide,
    (cache_hit_returns_entry.1 CineNova.afterTrending CineNova.reachable_afterTrending
      (fun _ _ => none) "batman" "299534" _).1 (by decide),
    MovieService.reachable_afterSearch, by decide,
    (cache_hit_returns_entry.2 MovieService.afterSearch MovieService.reachable_afterSearch
      (fun _ _ => none) "forrest" 1 (.str "tt0109830") "tt0109830" 0 _).1 (by decide)⟩

/-! ## server.js: repeated searches and the TTL -/

namespace MovieService

/-- C9, the claim as stated fails: the provider answers the search for
"zzzz" with `Response: 'False'`; the first call returns the empty result and
stores nothing, and the same call one second later (well inside 600 seconds)
returns an equal value but puts a new request on the wire. -/
theorem repeated_search_counterexample :
    (searchMovies notFound initial "zzzz" 1).1 = emptyResult ∧
    afterNotFound.now = 0 ∧ afterNotFound.cache = [] ∧
    (searchMovies notFound { afterNotFound with now := 1000 } "zzzz" 1).1 = emptyResult ∧
    (searchMovies notFound { afterNotFound with now := 1000 } "zzzz" 1).2.sent
      = afterNotFound.sent ++ [searchRequest "zzzz" 1] := by
  decide

/-- C9, amended. For every query and page, when a call `searchMovies(query,
page)` has fetched a result with `Response: 'True'` from the provider, every
call `searchMovies(query, page)` made no later than 600 seconds after it
returns a value equal to the first call's result, sends no request and leaves
the cache as it is, whatever the provider would answer by then. -/
theorem repeated_search_served_from_cache (u u2 : Upstream) (w : World) (query : String)
    (page : Int) (data : Val) (items : List Val) (t : Nat)
    (h : SearchFetched u w query page data items) (ht : t ≤ w.now + 600 * 1000) :
    searchMovies u2 { (searchMovies u w query page).2 with now := t } query page =
      ((searchMovies u w query page).1, { (searchMovies u w query page).2 with now := t }) := by
  obtain ⟨enhanced, w2, _, heq, hnow⟩ := searchMovies_fresh u w query page data items h
  rw [heq]
  have hl : ({ (w2.store (searchKey query page)
      (.obj (objSet (spread data) "Search" (.arr enhanced))) 600) with now := t } : World).cache.live
      t (searchKey query page) = some (.obj (objSet (spread data) "Search" (.arr enhanced))) := by
    simp only [World.store]
    rw [Cache.live_set_same, hnow]
    simp [Nat.not_lt.mpr ht]
  have hg := Cache.get_of_live _ _ _ _ hl
  have htr : truthy (({ (w2.store (searchKey query page)
      (.obj (objSet (spread data) "Search" (.arr enhanced))) 600) with now := t } : World).cache.get
      t (searchKey query page)) = true := by
    rw [hg]
    rfl
  rw [searchMovies_hit u2 _ query page htr, hg]

/-- Witness of C9 (amended): the search of the scenario, repeated exactly 600
seconds later against a provider that is down. -/
theorem repeated_search_served_from_cache_witness :
    SearchFetched omdb initial "forrest" 1 forrestSearch forrestItems ∧
    (600000 : Nat) ≤ initial.now + 600 * 1000 ∧
    searchMovies (fun _ _ => none) { afterSearch with now := 600000 } "forrest" 1 =
      ((searchMovies omdb initial "forrest" 1).1, { afterSearch with now := 600000 }) :=
  ⟨searchFetched_scenario, by decide,
    repeated_search_served_from_cache omdb (fun _ _ => none) initial "forrest" 1 forrestSearch
      forrestItems 600000 searchFetched_scenario (by decide)⟩

theorem searchRequest_ne_detailsRequest (query : String) (page : Int) (imdbID : Val) :
    detailsRequest imdbID ≠ searchRequest query page := by
  intro h
  have h2 := congrArg (fun r => r.params.map Prod.fst) h
  simp [detailsRequest, searchRequest] at h2

theorem missingDetails_spec (w : World) (items : List Val) :
    ∀ r ∈ missingDetails w items, ∃ imdbID s, r = detailsRequest imdbID ∧
      imdbID.toStr = .ok s ∧ truthy (w.cache.get w.now ("movie-" ++ s)) = false := by
  induction items with
  | nil => intro r hr; simp [missingDetails] at hr
  | cons movie rest ih =>
    intro r hr
    unfold missingDetails at hr
    cases hg : getProp movie "imdbID" with
    | error e =>
      simp only [hg] at hr
      exact ih r hr
    | ok imdbID =>
      simp only [hg] at hr
      cases hs : imdbID.toStr with
      | error e =>
        simp only [hs] at hr
        exact ih r hr
      | ok s =>
        simp only [hs] at hr
        cases ht : truthy (w.cache.get w.now ("movie-" ++ s)) with
        | true =>
          simp only [ht, if_true] at hr
          exact ih r hr
        | false =>
          simp only [ht, Bool.false_eq_true, if_false, List.mem_cons] at hr
          rcases hr with hr | hr
          · exact ⟨imdbID, s, hr, hs, ht⟩
          · exact ih r hr

theorem followUp_spec (u : Upstream) (w : World) (query : String) (page : Int) :
    ∀ r ∈ followUpRequests u w query page, ∃ imdbID s, r = detailsRequest imdbID ∧
      imdbID.toStr = .ok s ∧ truthy (w.cache.get w.now ("movie-" ++ s)) = false := by
  intro r hr
  cases hu : u w.sent.length (searchRequest query page) with
  | none => simp [followUp_rejected u w query page hu] at hr
  | some data =>
    by_cases hl : ∃ items, getProp data "Search" = .ok (.arr items)
    · obtain ⟨items, hl⟩ := hl
      cases hresp : getProp data "Response" with
      | error e => simp [followUp_thrown u w query page data e hu hresp] at hr
      | ok resp =>
        by_cases hne : resp = .str "True"
        · subst hne
          rw [followUp_list u w query page data items hu hresp hl] at hr
          exact missingDetails_spec w items r hr
        · simp [followUp_notTrue u w query page data resp hu hresp hne] at hr
    · simp [followUp_noList u w query page data hu (fun items hi => hl ⟨items, hi⟩)] at hr

/-- C10, the claim as stated fails: in the scenario the search entry written
at time 0 is live at 600000 ms and gone at 600001 ms; the repeated call at
600001 ms puts two requests on the wire, the search and the detail request of
the title whose detail record is not in the cache. -/
theorem search_after_expiry_counterexample :
    afterSearch.cache.live 600000 (searchKey "forrest" 1)
      = some (searchMovies omdb initial "forrest" 1).1 ∧
    afterSearch.cache.live 600001 (searchKey "forrest" 1) = none ∧
    (searchMovies omdb { afterSearch with now := 600001 } "forrest" 1).2.sent
      = afterSearch.sent ++
          [searchRequest "forrest" 1, detailsRequest (.str "tt0000001")] := by
  decide

/-- C10, amended. When `searchMovies(query, page)` runs with no live entry
under its key (the TTL of the entry has elapsed), it sends exactly one search
request, and after it one detail request for every item of the provider's
result list whose detail record is not live in the cache (none when the
provider fails or answers without `Response: 'True'`); these are all the
requests it sends. -/
theorem search_after_expiry_requests (u : Upstream) (w : World) (query : String) (page : Int)
    (h : w.cache.live w.now (searchKey query page) = none) :
    (searchMovies u w query page).2.sent =
      w.sent ++ searchRequest query page :: followUpRequests u w query page ∧
    (∀ r ∈ followUpRequests u w query page, r ≠ searchRequest query page ∧
      ∃ imdbID s, r = detailsRequest imdbID ∧ imdbID.toStr = .ok s ∧
        truthy (w.cache.get w.now ("movie-" ++ s)) = false) ∧
    (u w.sent.length (searchRequest query page) = none → followUpRequests u w query page = []) := by
  have ht : truthy (w.cache.get w.now (searchKey query page)) = false := by
    simp [Cache.get, h, truthy]
  refine ⟨searchMovies_sent u w query page ht, fun r hr => ?_, followUp_rejected u w query page⟩
  obtain ⟨imdbID, s, hreq, hs, hmiss⟩ := followUp_spec u w query page r hr
  refine ⟨?_, imdbID, s, hreq, hs, hmiss⟩
  rw [hreq]
  exact searchRequest_ne_detailsRequest query page imdbID

/-- Witness of C10 (amended): the repeated search of the scenario, one
millisecond after its entry expired. -/
theorem search_after_expiry_requests_witness :
    ({ afterSearch with now := 600001 } : World).cache.live 600001 (searchKey "forrest" 1)
      = none ∧
    (searchMovies omdb { afterSearch with now := 600001 } "forrest" 1).2.sent =
      afterSearch.sent ++ searchRequest "forrest" 1 ::
        followUpRequests omdb { afterSearch with now := 600001 } "forrest" 1 :=
  ⟨by decide,
    (search_after_expiry_requests omdb { afterSearch with now := 600001 } "forrest" 1
      (by decide)).1⟩

end MovieService

/-! ## Both variants: failed fetches -/

theorem MovieService.details_failed_frame (u : Upstream) (w : World) (imdbID : Val)
    (h : FailsOrNotTrue u w.sent.length (MovieService.detailsRequest imdbID)) :
    ∃ w2, MovieService.getMovieDetails u w imdbID =
        (match imdbID.toStr with
         | .ok s =>
           if truthy (w.cache.get w.now ("movie-" ++ s)) then w.cache.get w.now ("movie-" ++ s)
           else .null
         | .error _ => .null, w2) ∧
      w2.cache = w.cache := by
  cases hs : imdbID.toStr with
  | error e =>
    refine ⟨w, ?_, rfl⟩
    simp [MovieService.getMovieDetails, MovieService.detailsStart_unkeyed w imdbID e hs,
      MovieService.detailsFinish]
  | ok s =>
    cases ht : truthy (w.cache.get w.now ("movie-" ++ s)) with
    | true =>
      refine ⟨w, ?_, rfl⟩
      rw [MovieService.getMovieDetails_cached u w imdbID s hs ht]
      simp [ht]
    | false =>
      refine ⟨w.send (MovieService.detailsRequest imdbID), ?_, rfl⟩
      simp only [MovieService.getMovieDetails, MovieService.detailsStart_miss w imdbID s hs ht,
        ht, Bool.false_eq_true, if_false]
      rcases h with hu | ⟨data, hu, hr⟩
      · exact MovieService.detailsFinish_rejected u _ imdbID _ _ hu
      · cases hresp : getProp data "Response" with
        | error e => exact MovieService.detailsFinish_thrown u _ imdbID data _ _ e hu hresp
        | ok r =>
          have hne : r ≠ .str "True" := fun hr2 => hr (by rw [hresp, hr2])
          exact MovieService.detailsFinish_notTrue u _ imdbID data r _ _ hu hresp hne

theorem MovieService.searchMovies_failed (u : Upstream) (w : World) (query : String) (page : Int)
    (h : FailsOrNotTrue u w.sent.length (MovieService.searchRequest query page)) :
    (MovieService.searchMovies u w query page).2.cache = w.cache := by
  cases ht : truthy (w.cache.get w.now (MovieService.searchKey query page)) with
  | true => rw [MovieService.searchMovies_hit u w query page ht]
  | false =>
    rcases h with hu | ⟨data, hu, hr⟩
    · rw [MovieService.searchMovies_rejected u w query page ht hu]
      rfl
    · cases hresp : getProp data "Response" with
      | error e =>
        rw [MovieService.searchMovies_thrown u w query page data e ht hu hresp]
        rfl
      | ok r =>
        have hne : r ≠ .str "True" := fun hr2 => hr (by rw [hresp, hr2])
        rw [MovieService.searchMovies_notTrue u w query page data r ht hu hresp hne]
        rfl

theorem CineNova.fetchList_failed (u : Upstream) (w : World) (key : String) (req : Request)
    (fallback : Val) (hu : u w.sent.length req = none) :
    (CineNova.fetchList u w key req fallback).2.cache = w.cache := by
  cases ht : truthy (w.cache.get w.now key) with
  | true => rw [CineNova.fetchList_hit u w key req fallback ht]
  | false =>
    rw [CineNova.fetchList_rejected u w key req fallback ht hu]
    rfl

theorem CineNova.getMovieDetails_failed (u : Upstream) (w : World) (movieId : String)
    (hu : u w.sent.length (CineNova.detailsRequest movieId) = none) :
    (CineNova.getMovieDetails u w movieId).2.cache = w.cache := by
  cases ht : truthy (w.cache.get w.now ("movie_" ++ movieId)) with
  | true => rw [CineNova.getMovieDetails_hit u w movieId ht]
  | false =>
    rw [CineNova.getMovieDetails_rejected u w movieId ht hu]
    rfl

/-- C11. In both variants, whenever the upstream request of
`getTrendingMovies`, `searchMovies` or `getMovieDetails` fails (the request is
rejected, or in server.js the answer does not carry `Response: 'True'`), the
cache after the call is identical to the cache before it: a cache write needs
a fetch that succeeded. -/
theorem failed_fetch_leaves_cache :
    (∀ (u : Upstream) (w : World) (query movieId : String),
      (u w.sent.length CineNova.trendingRequest = none →
        (CineNova.getTrendingMovies u w).2.cache = w.cache) ∧
      (u w.sent.length (CineNova.searchRequest query) = none →
        (CineNova.searchMovies u w query).2.cache = w.cache) ∧
      (u w.sent.length (CineNova.detailsRequest movieId) = none →
        (CineNova.getMovieDetails u w movieId).2.cache = w.cache)) ∧
    (∀ (u : Upstream) (w : World) (query : String) (page : Int) (imdbID : Val) (pick : Fin 5),
      (FailsOrNotTrue u w.sent.length (MovieService.searchRequest query page) →
        (MovieService.searchMovies u w query page).2.cache = w.cache) ∧
      (FailsOrNotTrue u w.sent.length (MovieService.detailsRequest imdbID) →
        (MovieService.getMovieDetails u w imdbID).2.cache = w.cache) ∧
      (FailsOrNotTrue u w.sent.length
          (MovieService.searchRequest (MovieService.popularSearches.getD pick.val "") 1) →
        (MovieService.getTrendingMovies u w pick).2.cache = w.cache)) := by
  refine ⟨fun u w query movieId => ⟨?_, ?_, ?_⟩, fun u w query page imdbID pick => ⟨?_, ?_, ?_⟩⟩
  · exact CineNova.fetchList_failed u w _ _ _
  · exact CineNova.fetchList_failed u w _ _ _
  · exact CineNova.getMovieDetails_failed u w movieId
  · exact MovieService.searchMovies_failed u w query page
  · intro h
    obtain ⟨w2, heq, hc⟩ := MovieService.details_failed_frame u w imdbID h
    rw [heq]
    exact hc
  · exact MovieService.searchMovies_failed u w _ 1

/-- Witness of C11: with live entries in the cache and the provider down (or,
in server.js, answering `Response: 'False'`), the calls leave the cache as it
was. -/
theorem failed_fetch_leaves_cache_witness :
    down CineNova.afterTrending.sent.length (CineNova.searchRequest "batman") = none ∧
    (CineNova.searchMovies down CineNova.afterTrending "batman").2.cache
      = CineNova.afterTrending.cache ∧
    FailsOrNotTrue MovieService.notFound MovieService.afterSearch.sent.length
      (MovieService.searchRequest "zzzz" 1) ∧
    (MovieService.searchMovies MovieService.notFound MovieService.afterSearch "zzzz" 1).2.cache
      = MovieService.afterSearch.cache ∧
    FailsOrNotTrue down MovieService.afterSearch.sent.length
      (MovieService.detailsRequest (.str "tt0000001")) ∧
    (MovieService.getMovieDetails down MovieService.afterSearch (.str "tt0000001")).2.cache
      = MovieService.afterSearch.cache :=
  ⟨rfl,
    (failed_fetch_leaves_cache.1 down CineNova.afterTrending "batman" "1").2.1 rfl,
    Or.inr ⟨_, rfl, by decide⟩,
    (failed_fetch_leaves_cache.2 MovieService.notFound MovieService.afterSearch "zzzz" 1
      (.str "tt0000001") 0).1 (Or.inr ⟨_, rfl, by decide⟩),
    Or.inl rfl,
    (failed_fetch_leaves_cache.2 down MovieService.afterSearch "zzzz" 1
      (.str "tt0000001") 0).2.1 (Or.inl rfl)⟩

/-! ## Both variants: fallback values, and nothing escapes -/

theorem get_falsy_of_not_live (c : Cache) (now : Nat) (key : String)
    (h : c.live now key = none) : truthy (c.get now key) = false := by
  simp [Cache.get, h, truthy]

theorem mapItems_error_of_mem (f : Val → Js Val) (items : List Val) (item : Val)
    (hmem : item ∈ items) (e : JsError) (h : f item = .error e) :
    ∃ e2, mapItems f items = .error e2 := by
  induction items with
  | nil => simp at hmem
  | cons x xs ih =>
    unfold mapItems
    cases hx : f x with
    | error e3 => exact ⟨e3, rfl⟩
    | ok y =>
      rcases List.mem_cons.mp hmem with hm | hm
      · rw [hm, hx] at h
        cases h
      · obtain ⟨e2, he2⟩ := ih hm
        exact ⟨e2, by simp [he2]⟩

theorem CineNova.enrichResults_malformed (data : Val) (h : CineNova.Malformed data) :
    ∃ e, CineNova.enrichResults data = .error e := by
  unfold CineNova.enrichResults
  rcases h with h | ⟨items, hl, item, hmem, hitem⟩
  · cases hr : getProp data "results" with
    | error e => exact ⟨e, rfl⟩
    | ok results =>
      cases results with
      | arr items => exact absurd hr (h items)
      | _ => exact ⟨_, rfl⟩
  · have hbad : ∃ e, CineNova.enrich item = .error e := by
      rcases hitem with h1 | h1 | h1 | h1
      · exact ⟨_, by rw [h1]; rfl⟩
      · exact ⟨_, by rw [h1]; rfl⟩
      · exact ⟨.typeError, by simp [CineNova.enrich, h1, Val.toStringCall]⟩
      · exact ⟨.typeError, by simp [CineNova.enrich, h1, Val.toStringCall]⟩
    obtain ⟨e, he⟩ := hbad
    obtain ⟨e2, he2⟩ := mapItems_error_of_mem CineNova.enrich items item hmem e he
    exact ⟨e2, by simp [hl, mapArray, he2]⟩

theorem promise_resolves {α : Type} (p : Completion α × World) (v : α) (w : World)
    (h : p = (.ok v, w)) : ∃ v2 w2, p = (.ok v2, w2) :=
  ⟨v, w, h⟩

theorem MovieService.startItems_rejected (w : World) (items : List Val)
    (h : ∃ item ∈ items, item = .null ∨ item = .undefined) :
    MovieService.Task.rejected ∈ (MovieService.startItems w items).1 := by
  induction items generalizing w with
  | nil =>
    obtain ⟨item, hmem, _⟩ := h
    simp at hmem
  | cons x xs ih =>
    obtain ⟨item, hmem, hitem⟩ := h
    unfold MovieService.startItems
    rcases List.mem_cons.mp hmem with hm | hm
    · subst hm
      have hg : ∃ e, getProp item "imdbID" = .error e := by
        rcases hitem with h1 | h1 <;> exact ⟨_, by rw [h1]; rfl⟩
      obtain ⟨e, hg⟩ := hg
      simp [hg]
    · cases hg : getProp x "imdbID" with
      | error e => simp
      | ok imdbID =>
        simp only
        exact List.mem_cons_of_mem _ (ih _ ⟨item, hm, hitem⟩)

theorem MovieService.finishItems_rejected (u : Upstream) (w : World)
    (tasks : List MovieService.Task) (h : MovieService.Task.rejected ∈ tasks) :
    (MovieService.finishItems u w tasks).1 = none := by
  induction tasks generalizing w with
  | nil => simp at h
  | cons t rest ih =>
    cases t with
    | rejected => rfl
    | running movie imdbID st =>
      have hrest : MovieService.Task.rejected ∈ rest := by
        rcases List.mem_cons.mp h with h1 | h1
        · cases h1
        · exact h1
      simp [MovieService.finishItems, ih _ hrest]

theorem MovieService.searchMovies_malformed (u : Upstream) (w : World) (query : String)
    (page : Int) (data : Val)
    (ht : truthy (w.cache.get w.now (MovieService.searchKey query page)) = false)
    (hu : u w.sent.length (MovieService.searchRequest query page) = some data)
    (hbad : MovieService.Malformed data) :
    (MovieService.searchMovies u w query page).1 = MovieService.getSampleData := by
  rcases hbad with ⟨e, hr⟩ | ⟨hr, hl | ⟨items, hl, hitem⟩⟩
  · rw [MovieService.searchMovies_thrown u w query page data e ht hu hr]
  · rw [MovieService.searchMovies_true u w query page data ht hu hr,
      MovieService.enhanceSearch_noList u _ _ data hl]
  · rw [MovieService.searchMovies_true u w query page data ht hu hr]
    have hnone := MovieService.finishItems_rejected u
      (MovieService.startItems (w.send (MovieService.searchRequest query page)) items).2 _
      (MovieService.startItems_rejected (w.send (MovieService.searchRequest query page)) items
        hitem)
    rcases MovieService.enhanceSearch_outcome u (w.send (MovieService.searchRequest query page))
      (MovieService.searchKey query page) data items hl with ⟨enhanced, hf, _⟩ | ⟨_, he⟩
    · rw [hnone] at hf
      cases hf
    · rw [he]

/-- C14, the claim as stated fails: at start-up, when the provider of
server.js answers the search of `getTrendingMovies` with a failure flag
(`Response: 'False'`), the call returns the empty result, whose `Search` is
`[]`, not the one-item sample set of `getSampleData()`. -/
theorem trending_failure_flag_returns_empty :
    MovieService.initial.cache.live MovieService.initial.now (MovieService.trendingKey 2)
      = none ∧
    MovieService.notFound MovieService.initial.sent.length
        (MovieService.searchRequest "superman" 1) =
      some (.obj [("Response", .str "False"), ("Error", .str "Movie not found!")]) ∧
    (MovieService.getTrendingMovies MovieService.notFound MovieService.initial 2).1 =
      MovieService.emptyResult ∧
    getProp (MovieService.getTrendingMovies MovieService.notFound MovieService.initial 2).1
      "Search" = .ok (.arr []) ∧
    (MovieService.getTrendingMovies MovieService.notFound MovieService.initial 2).1 ≠
      MovieService.getSampleData := by
  decide

/-- C14, amended. In both variants the promise of `getTrendingMovies` always
resolves (nothing it throws escapes its `try`/`catch`). Whenever the call has
to ask the provider (nothing live under its cache key) and the request is
rejected or its payload is malformed, it returns the fixed fallback of the
variant: the empty array of `getFallbackContent()` in app.js, the one-item
result of `getSampleData()` in server.js. Whenever the provider of server.js
answers with a failure flag (a `Response` other than `'True'`), the call
returns the fixed empty result `{ Search: [], totalResults: "0",
Response: "False" }`. After a rejected request, after a malformed payload in
app.js and after a failure flag, the call has sent that one request and
written nothing. -/
theorem trending_fallback_on_failure :
    (∀ (u : Upstream) (w : World),
      ∃ v w2, CineNova.getTrendingMoviesPromise u w = (.ok v, w2)) ∧
    (∀ (u : Upstream) (w : World) (pick : Fin 5),
      ∃ v w2, MovieService.getTrendingMoviesPromise u pick w = (.ok v, w2)) ∧
    (∀ (u : Upstream) (w : World), w.cache.live w.now "trending_movies" = none →
      u w.sent.length CineNova.trendingRequest = none →
      CineNova.getTrendingMovies u w =
        (CineNova.getFallbackContent, w.send CineNova.trendingRequest)) ∧
    (∀ (u : Upstream) (w : World) (data : Val), w.cache.live w.now "trending_movies" = none →
      u w.sent.length CineNova.trendingRequest = some data → CineNova.Malformed data →
      CineNova.getTrendingMovies u w =
        (CineNova.getFallbackContent, w.send CineNova.trendingRequest)) ∧
    CineNova.getFallbackContent = .arr [] ∧
    (∀ (u : Upstream) (w : World) (pick : Fin 5),
      w.cache.live w.now (MovieService.trendingKey pick) = none →
      u w.sent.length
        (MovieService.searchRequest (MovieService.popularSearches.getD pick.val "") 1) = none →
      MovieService.getTrendingMovies u w pick =
        (MovieService.getSampleData,
          w.send (MovieService.searchRequest (MovieService.popularSearches.getD pick.val "") 1))) ∧
    (∀ (u : Upstream) (w : World) (pick : Fin 5) (data : Val),
      w.cache.live w.now (MovieService.trendingKey pick) = none →
      u w.sent.length
        (MovieService.searchRequest (MovieService.popularSearches.getD pick.val "") 1) =
          some data →
      MovieService.Malformed data →
      (MovieService.getTrendingMovies u w pick).1 = MovieService.getSampleData) ∧
    (∃ item, getProp MovieService.getSampleData "Search" = .ok (.arr [item])) ∧
    (∀ (u : Upstream) (w : World) (pick : Fin 5) (data r : Val),
      w.cache.live w.now (MovieService.trendingKey pick) = none →
      u w.sent.length
        (MovieService.searchRequest (MovieService.popularSearches.getD pick.val "") 1) =
          some data →
      getProp data "Response" = .ok r → r ≠ .str "True" →
      MovieService.getTrendingMovies u w pick =
        (MovieService.emptyResult,
          w.send (MovieService.searchRequest (MovieService.popularSearches.getD pick.val "") 1))) ∧
    getProp MovieService.emptyResult "Search" = .ok (.arr []) := by
  refine ⟨fun u w => ?_, fun u w pick => ?_, fun u w hl hu => ?_, fun u w data hl hu hbad => ?_,
    rfl, fun u w pick hl hu => ?_, fun u w pick data hl hu hbad => ?_, ⟨_, rfl⟩,
    fun u w pick data r hl hu hr hne => ?_, rfl⟩
  · exact promise_resolves _ _ _ (CineNova.fetchListPromise_eq u w _ _ _)
  · exact promise_resolves _ _ _ (MovieService.searchMoviesPromise_eq u w _ 1)
  · exact CineNova.fetchList_rejected u w _ _ _ (get_falsy_of_not_live _ _ _ hl) hu
  · obtain ⟨e, he⟩ := CineNova.enrichResults_malformed data hbad
    exact CineNova.fetchList_malformed u w _ _ _ data e (get_falsy_of_not_live _ _ _ hl) hu he
  · exact MovieService.searchMovies_rejected u w _ 1 (get_falsy_of_not_live _ _ _ hl) hu
  · exact MovieService.searchMovies_malformed u w _ 1 data (get_falsy_of_not_live _ _ _ hl) hu
      hbad
  · exact MovieService.searchMovies_notTrue u w _ 1 data r (get_falsy_of_not_live _ _ _ hl) hu
      hr hne

/-- Witness of C14 (amended): at start-up, with the provider down, with a
payload without result list (app.js), with a `Response: 'True'` answer without
`Search` list (server.js), and with a failure flag (server.js). -/
theorem trending_fallback_on_failure_witness :
    CineNova.initial.cache.live CineNova.initial.now "trending_movies" = none ∧
    down CineNova.initial.sent.length CineNova.trendingRequest = none ∧
    CineNova.getTrendingMovies down CineNova.initial =
      (CineNova.getFallbackContent, CineNova.initial.send CineNova.trendingRequest) ∧
    CineNova.Malformed (.obj [("status_message", .str "Invalid API key")]) ∧
    CineNova.getTrendingMovies CineNova.noResults CineNova.initial =
      (CineNova.getFallbackContent, CineNova.initial.send CineNova.trendingRequest) ∧
    MovieService.initial.cache.live MovieService.initial.now (MovieService.trendingKey 2)
      = none ∧
    MovieService.getTrendingMovies down MovieService.initial 2 =
      (MovieService.getSampleData,
        MovieService.initial.send (MovieService.searchRequest "superman" 1)) ∧
    MovieService.Malformed (.obj [("Response", .str "True")]) ∧
    (MovieService.getTrendingMovies MovieService.noSearchList MovieService.initial 2).1 =
      MovieService.getSampleData ∧
    MovieService.getTrendingMovies MovieService.notFound MovieService.initial 2 =
      (MovieService.emptyResult,
        MovieService.initial.send (MovieService.searchRequest "superman" 1)) :=
  ⟨rfl, rfl, trending_fallback_on_failure.2.2.1 down CineNova.initial rfl rfl,
    Or.inl (fun items h => by cases h),
    trending_fallback_on_failure.2.2.2.1 CineNova.noResults CineNova.initial _ rfl rfl
      (Or.inl (fun items h => by cases h)),
    rfl,
    trending_fallback_on_failure.2.2.2.2.2.1 down MovieService.initial 2 rfl rfl,
    Or.inr ⟨rfl, Or.inl (fun items h => by cases h)⟩,
    trending_fallback_on_failure.2.2.2.2.2.2.1 MovieService.noSearchList MovieService.initial 2 _
      rfl rfl (Or.inr ⟨rfl, Or.inl (fun items h => by cases h)⟩),
    trending_fallback_on_failure.2.2.2.2.2.2.2.2.1 MovieService.notFound MovieService.initial 2 _
      (.str "False") rfl rfl rfl (by decide)⟩

/-- C15, the claim as stated fails: with the provider down, `searchMovies`
returns the result of `getSampleData()`, whose `Search` sequence holds one
item (Forrest Gump), not an empty sequence. -/
theorem search_down_returns_sample :
    MovieService.initial.cache.live MovieService.initial.now
      (MovieService.searchKey "batman" 1) = none ∧
    down MovieService.initial.sent.length (MovieService.searchRequest "batman" 1) = none ∧
    (MovieService.searchMovies down MovieService.initial "batman" 1).1
      = MovieService.getSampleData ∧
    (∃ item, getProp (MovieService.searchMovies down MovieService.initial "batman" 1).1 "Search"
      = .ok (.arr [item])) ∧
    getProp (MovieService.searchMovies down MovieService.initial "batman" 1).1 "Search"
      ≠ .ok (.arr []) :=
  ⟨rfl, rfl, rfl, ⟨_, rfl⟩, fun h => by cases h⟩

/-- C15, amended. In `MovieService`, for every query and page, when the call
has to ask the provider (nothing live under its key): if the provider answers
and the answer's `Response` is not `'True'` (a failure flag, or no flag at
all), `searchMovies` returns a result whose `Search` sequence is empty; if the
request is rejected, or the answer is `null`, or it carries `Response: 'True'`
without a `Search` array or with a `null` item in it, `searchMovies` returns
the fixed result of `getSampleData()`, whose `Search` sequence holds one
item. -/
theorem search_failure_results (u : Upstream) (w : World) (query : String) (page : Int)
    (hmiss : w.cache.live w.now (MovieService.searchKey query page) = none) :
    (∀ data r, u w.sent.length (MovieService.searchRequest query page) = some data →
      getProp data "Response" = .ok r → r ≠ .str "True" →
      (MovieService.searchMovies u w query page).1 = MovieService.emptyResult) ∧
    getProp MovieService.emptyResult "Search" = .ok (.arr []) ∧
    (u w.sent.length (MovieService.searchRequest query page) = none →
      (MovieService.searchMovies u w query page).1 = MovieService.getSampleData) ∧
    (∀ data e, u w.sent.length (MovieService.searchRequest query page) = some data →
      getProp data "Response" = .error e →
      (MovieService.searchMovies u w query page).1 = MovieService.getSampleData) ∧
    (∀ data, u w.sent.length (MovieService.searchRequest query page) = some data →
      getProp data "Response" = .ok (.str "True") →
      (∀ items, getProp data "Search" ≠ .ok (.arr items)) →
      (MovieService.searchMovies u w query page).1 = MovieService.getSampleData) ∧
    (∀ data items, u w.sent.length (MovieService.searchRequest query page) = some data →
      getProp data "Response" = .ok (.str "True") →
      getProp data "Search" = .ok (.arr items) →
      (∃ item ∈ items, item = .null ∨ item = .undefined) →
      (MovieService.searchMovies u w query page).1 = MovieService.getSampleData) ∧
    (∃ item, getProp MovieService.getSampleData "Search" = .ok (.arr [item])) := by
  have ht := get_falsy_of_not_live _ _ _ hmiss
  refine ⟨fun data r hu hr hne => ?_, rfl, fun hu => ?_, fun data e hu hr => ?_,
    fun data hu hr hl => ?_, fun data items hu hr hl hbad => ?_, ⟨_, rfl⟩⟩
  · rw [MovieService.searchMovies_notTrue u w query page data r ht hu hr hne]
  · rw [MovieService.searchMovies_rejected u w query page ht hu]
  · rw [MovieService.searchMovies_thrown u w query page data e ht hu hr]
  · rw [MovieService.searchMovies_true u w query page data ht hu hr,
      MovieService.enhanceSearch_noList u _ _ data hl]
  · rw [MovieService.searchMovies_true u w query page data ht hu hr]
    have hnone := MovieService.finishItems_rejected u
      (MovieService.startItems (w.send (MovieService.searchRequest query page)) items).2 _
      (MovieService.startItems_rejected (w.send (MovieService.searchRequest query page)) items
        hbad)
    rcases MovieService.enhanceSearch_outcome u (w.send (MovieService.searchRequest query page))
      (MovieService.searchKey query page) data items hl with ⟨enhanced, hf, _⟩ | ⟨_, he⟩
    · rw [hnone] at hf
      cases hf
    · rw [he]

/-- Witness of C15 (amended): at start-up nothing is live in the cache. -/
theorem search_failure_results_witness :
    MovieService.initial.cache.live MovieService.initial.now
      (MovieService.searchKey "zzzz" 1) = none ∧
    (MovieService.searchMovies MovieService.notFound MovieService.initial "zzzz" 1).1
      = MovieService.emptyResult :=
  ⟨rfl,
    (search_failure_results MovieService.notFound MovieService.initial "zzzz" 1 rfl).1 _
      (.str "False") rfl (by decide) (by decide)⟩

/-- C16. In `CineNovaMovieService`, for every query, whenever the call has to
ask the provider (nothing live under its key) and the request is rejected or
its payload is malformed (no result list, a `null` item, an item without
`id`), `searchMovies` returns the empty array; it writes nothing to the
cache. -/
theorem search_failure_returns_empty (u : Upstream) (w : World) (query : String)
    (hmiss : w.cache.live w.now ("search_" ++ query) = none)
    (h : u w.sent.length (CineNova.searchRequest query) = none ∨
      ∃ data, u w.sent.length (CineNova.searchRequest query) = some data ∧
        CineNova.Malformed data) :
    CineNova.searchMovies u w query = (.arr [], w.send (CineNova.searchRequest query)) := by
  have ht := get_falsy_of_not_live _ _ _ hmiss
  rcases h with hu | ⟨data, hu, hbad⟩
  · exact CineNova.fetchList_rejected u w _ _ _ ht hu
  · obtain ⟨e, he⟩ := CineNova.enrichResults_malformed data hbad
    exact CineNova.fetchList_malformed u w _ _ _ data e ht hu he

/-- Witness of C16: a payload whose result list holds a `null` item. -/
theorem search_failure_returns_empty_witness :
    CineNova.initial.cache.live CineNova.initial.now ("search_" ++ "batman") = none ∧
    (∃ data, CineNova.badItems CineNova.initial.sent.length (CineNova.searchRequest "batman")
        = some data ∧ CineNova.Malformed data) ∧
    CineNova.searchMovies CineNova.badItems CineNova.initial "batman" =
      (.arr [], CineNova.initial.send (CineNova.searchRequest "batman")) :=
  ⟨rfl,
    ⟨_, rfl, Or.inr ⟨_, rfl, .null, by decide, Or.inl rfl⟩⟩,
    search_failure_returns_empty CineNova.badItems CineNova.initial "batman" rfl
      (Or.inr ⟨_, rfl, Or.inr ⟨_, rfl, .null, by decide, Or.inl rfl⟩⟩)⟩

/-- C17. In both variants, `getMovieDetails` returns `null` whenever it has to
ask the provider (nothing live under its key) and the request is rejected, in
server.js also whenever the answer does not carry `Response: 'True'`; and a
result other than `null` is either the live cache entry (a cache hit) or the
record built from the answer of a successful fetch. -/
theorem details_absent_on_failure :
    (∀ (u : Upstream) (w : World) (movieId : String),
      (w.cache.live w.now ("movie_" ++ movieId) = none →
        u w.sent.length (CineNova.detailsRequest movieId) = none →
        (CineNova.getMovieDetails u w movieId).1 = .null) ∧
      ((CineNova.getMovieDetails u w movieId).1 ≠ .null →
        w.cache.live w.now ("movie_" ++ movieId) = some (CineNova.getMovieDetails u w movieId).1 ∨
        ∃ data, u w.sent.length (CineNova.detailsRequest movieId) = some data ∧
          (CineNova.getMovieDetails u w movieId).1 = CineNova.overlay data movieId)) ∧
    (∀ (u : Upstream) (w : World) (imdbID : Val),
      (∀ s, imdbID.toStr = .ok s → w.cache.live w.now ("movie-" ++ s) = none →
        FailsOrNotTrue u w.sent.length (MovieService.detailsRequest imdbID) →
        (MovieService.getMovieDetails u w imdbID).1 = .null) ∧
      ((MovieService.getMovieDetails u w imdbID).1 ≠ .null →
        ∃ s, imdbID.toStr = .ok s ∧
          (w.cache.live w.now ("movie-" ++ s) = some (MovieService.getMovieDetails u w imdbID).1 ∨
            ∃ data, MovieService.DetailsFetched u w imdbID data ∧
              (MovieService.getMovieDetails u w imdbID).1
                = MovieService.enhancedData data imdbID))) := by
  refine ⟨fun u w movieId => ⟨fun hl hu => ?_, fun hne => ?_⟩,
    fun u w imdbID => ⟨fun s hs hl hfail => ?_, fun hne => ?_⟩⟩
  · rw [CineNova.getMovieDetails_rejected u w movieId (get_falsy_of_not_live _ _ _ hl) hu]
  · cases ht : truthy (w.cache.get w.now ("movie_" ++ movieId)) with
    | true =>
      left
      rw [CineNova.getMovieDetails_hit u w movieId ht]
      exact Cache.live_of_truthy_get _ _ _ ht
    | false =>
      cases hu : u w.sent.length (CineNova.detailsRequest movieId) with
      | none =>
        rw [CineNova.getMovieDetails_rejected u w movieId ht hu] at hne
        exact absurd rfl hne
      | some data =>
        right
        exact ⟨data, rfl, by rw [CineNova.getMovieDetails_fresh u w movieId data ht hu]⟩
  · obtain ⟨w2, heq, _⟩ := MovieService.details_failed_frame u w imdbID hfail
    rw [heq]
    simp [hs, get_falsy_of_not_live _ _ _ hl]
  · cases hs : imdbID.toStr with
    | error e =>
      exfalso
      apply hne
      simp [MovieService.getMovieDetails, MovieService.detailsStart_unkeyed w imdbID e hs,
        MovieService.detailsFinish]
    | ok s =>
      refine ⟨s, rfl, ?_⟩
      cases ht : truthy (w.cache.get w.now ("movie-" ++ s)) with
      | true =>
        left
        rw [MovieService.getMovieDetails_cached u w imdbID s hs ht]
        exact Cache.live_of_truthy_get _ _ _ ht
      | false =>
        right
        by_cases hfail : FailsOrNotTrue u w.sent.length (MovieService.detailsRequest imdbID)
        · exfalso
          apply hne
          obtain ⟨w2, heq, _⟩ := MovieService.details_failed_frame u w imdbID hfail
          rw [heq]
          simp [hs, ht]
        · cases hu : u w.sent.length (MovieService.detailsRequest imdbID) with
          | none => exact absurd (Or.inl hu) hfail
          | some data =>
            have hr : getProp data "Response" = .ok (.str "True") := by
              by_contra hr
              exact hfail (Or.inr ⟨data, hu, hr⟩)
            have hf : MovieService.DetailsFetched u w imdbID data := ⟨s, hs, ht, hu, hr⟩
            obtain ⟨s2, _, heq⟩ := MovieService.getMovieDetails_fetched u w imdbID data hf
            exact ⟨data, hf, by rw [heq]⟩

/-- Witness of C17: the provider is down and nothing is cached; and after the
search of the scenario the detail record of `tt0109830` is served from the
cache although the provider is down. -/
theorem details_absent_on_failure_witness :
    CineNova.initial.cache.live CineNova.initial.now ("movie_" ++ "299534") = none ∧
    (CineNova.getMovieDetails down CineNova.initial "299534").1 = .null ∧
    FailsOrNotTrue MovieService.notFound MovieService.initial.sent.length
      (MovieService.detailsRequest (.str "tt0109830")) ∧
    (MovieService.getMovieDetails MovieService.notFound MovieService.initial
      (.str "tt0109830")).1 = .null ∧
    (MovieService.getMovieDetails down MovieService.afterSearch (.str "tt0109830")).1 ≠ .null ∧
    (∃ s, (Val.str "tt0109830").toStr = .ok s ∧
      (MovieService.afterSearch.cache.live MovieService.afterSearch.now ("movie-" ++ s)
          = some (MovieService.getMovieDetails down MovieService.afterSearch
            (.str "tt0109830")).1 ∨
        ∃ data, MovieService.DetailsFetched down MovieService.afterSearch (.str "tt0109830")
            data ∧
          (MovieService.getMovieDetails down MovieService.afterSearch (.str "tt0109830")).1
            = MovieService.enhancedData data (.str "tt0109830"))) :=
  ⟨rfl,
    (details_absent_on_failure.1 down CineNova.initial "299534").1 rfl rfl,
    Or.inr ⟨_, rfl, by decide⟩,
    (details_absent_on_failure.2 MovieService.notFound MovieService.initial
      (.str "tt0109830")).1 "tt0109830" rfl rfl (Or.inr ⟨_, rfl, by decide⟩),
    by decide,
    (details_absent_on_failure.2 down MovieService.afterSearch (.str "tt0109830")).2
      (by decide)⟩

/-- C18, the claim as stated fails: in app.js the key of `searchMovies` and of
`getMovieDetails` is built before the `try`, so for an argument whose
conversion to a string throws, the promise rejects with that `TypeError`,
without a request; the methods of server.js, which build their key inside the
`try`, resolve with their fallback on the same argument. -/
theorem app_promises_reject_unconvertible_input :
    unconvertible.toStr = .error .typeError ∧
    CineNova.searchMoviesPromise down unconvertible CineNova.initial =
      (.error (.error .typeError), CineNova.initial) ∧
    CineNova.getMovieDetailsPromise down unconvertible CineNova.initial =
      (.error (.error .typeError), CineNova.initial) ∧
    (MovieService.searchMoviesPromiseOf down unconvertible .undefined MovieService.initial).1 =
      .ok MovieService.getSampleData ∧
    (MovieService.getMovieDetailsPromise down unconvertible MovieService.initial).1 =
      .ok .null :=
  ⟨rfl, rfl, rfl, rfl, rfl⟩

/-- C18, amended. In both variants the promises of `getTrendingMovies`,
`searchMovies` and `getMovieDetails` resolve in every state and against every
provider behaviour (whatever is thrown inside the `try`, a rejected request or
a `TypeError` on a malformed payload, is caught and turned into the fallback
value): in server.js for arguments of any kind, in app.js for every argument
whose conversion to a string does not throw (every string among them). In
particular a rejected request, a payload without result list and a result
list with a `null` item or an item without id all end in the fallback
value. -/
theorem methods_never_throw :
    (∀ (u : Upstream) (w : World),
      ∃ v w2, CineNova.getTrendingMoviesPromise u w = (.ok v, w2)) ∧
    (∀ (u : Upstream) (w : World) (query : Val) (s : String), query.toStr = .ok s →
      ∃ v w2, CineNova.searchMoviesPromise u query w = (.ok v, w2)) ∧
    (∀ (u : Upstream) (w : World) (movieId : Val) (s : String), movieId.toStr = .ok s →
      ∃ v w2, CineNova.getMovieDetailsPromise u movieId w = (.ok v, w2)) ∧
    (∀ (u : Upstream) (w : World) (query movieId : String),
      (∃ v w2, CineNova.searchMoviesPromise u (.str query) w = (.ok v, w2)) ∧
      (∃ v w2, CineNova.getMovieDetailsPromise u (.str movieId) w = (.ok v, w2))) ∧
    (∀ (u : Upstream) (w : World) (query page imdbID : Val) (pick : Fin 5),
      (∃ v w2, MovieService.getTrendingMoviesPromise u pick w = (.ok v, w2)) ∧
      (∃ v w2, MovieService.searchMoviesPromiseOf u query page w = (.ok v, w2)) ∧
      (∃ v w2, MovieService.getMovieDetailsPromise u imdbID w = (.ok v, w2))) ∧
    (CineNova.getTrendingMoviesPromise down CineNova.initial).1 = .ok (.arr []) ∧
    (CineNova.getTrendingMoviesPromise CineNova.noResults CineNova.initial).1 = .ok (.arr []) ∧
    (CineNova.searchMoviesPromise CineNova.badItems (.str "batman") CineNova.initial).1
      = .ok (.arr []) ∧
    (CineNova.getMovieDetailsPromise down (.str "299534") CineNova.initial).1 = .ok .null ∧
    (MovieService.searchMoviesPromiseOf down (.str "batman") (.num 1) MovieService.initial).1
      = .ok MovieService.getSampleData ∧
    (MovieService.searchMoviesPromiseOf MovieService.noSearchList (.str "batman") .undefined
      MovieService.initial).1 = .ok MovieService.getSampleData ∧
    (MovieService.searchMoviesPromiseOf MovieService.badItems (.str "batman") (.num 1)
      MovieService.initial).1 = .ok MovieService.getSampleData ∧
    (MovieService.getMovieDetailsPromise down (.str "tt0109830") MovieService.initial).1
      = .ok .null := by
  refine ⟨fun u w => ?_, fun u w query s hs => ?_, fun u w movieId s hs => ?_,
    fun u w query movieId => ⟨?_, ?_⟩, fun u w query page imdbID pick => ⟨?_, ?_, ?_⟩,
    rfl, rfl, rfl, rfl, rfl, rfl, rfl, rfl⟩
  · exact promise_resolves _ _ _ (CineNova.fetchListPromise_eq u w _ _ _)
  · exact CineNova.searchMoviesPromise_resolves u w query s hs
  · exact CineNova.getMovieDetailsPromise_resolves u w movieId s hs
  · exact promise_resolves _ _ _ (CineNova.app_searchMoviesPromise_eq u w query)
  · exact promise_resolves _ _ _ (CineNova.getMovieDetailsPromise_eq u w movieId)
  · exact promise_resolves _ _ _ (MovieService.searchMoviesPromise_eq u w _ 1)
  · exact MovieService.searchMoviesPromiseOf_resolves u w query page
  · exact promise_resolves _ _ _ (MovieService.detailsPromise_eq u w imdbID)

/-- Witness of C18 (amended): an array and `null`, whose conversions to a
string do not throw, as arguments of the methods of app.js, against a provider
that answers every request. -/
theorem methods_never_throw_witness :
    (Val.arr [.str "bat", .str "man"]).toStr = .ok "bat,man" ∧
    (∃ v w2, CineNova.searchMoviesPromise CineNova.anyTitle (.arr [.str "bat", .str "man"])
      CineNova.initial = (.ok v, w2)) ∧
    Val.null.toStr = .ok "null" ∧
    (∃ v w2, CineNova.getMovieDetailsPromise CineNova.anyTitle .null CineNova.initial
      = (.ok v, w2)) ∧
    (CineNova.getMovieDetailsPromise CineNova.anyTitle .null CineNova.initial).1 = .ok .null :=
  ⟨by decide, methods_never_throw.2.1 CineNova.anyTitle CineNova.initial _ "bat,man" (by decide),
    by decide, methods_never_throw.2.2.1 CineNova.anyTitle CineNova.initial .null "null"
      (by decide),
    rfl⟩

/-! ## server.js: the cache keys -/

theorem digitValue_digitChar (k : Nat) (h : k < 10) : digitValue (Nat.digitChar k) = k := by
  interval_cases k <;> rfl

theorem digitChar_ne_dash (k : Nat) (h : k < 10) : Nat.digitChar k ≠ '-' := by
  interval_cases k <;> decide

theorem toDigitsCore_append (fuel n : Nat) (ds : List Char) :
    Nat.toDigitsCore 10 fuel n ds = Nat.toDigitsCore 10 fuel n [] ++ ds := by
  induction fuel generalizing n ds with
  | zero => simp [Nat.toDigitsCore]
  | succ fuel ih =>
    simp only [Nat.toDigitsCore]
    by_cases h : n / 10 = 0
    · simp [h]
    · simp only [h, if_false]
      rw [ih (n / 10) (Nat.digitChar (n % 10) :: ds), ih (n / 10) [Nat.digitChar (n % 10)]]
      simp

theorem decodeDigits_append_one (cs : List Char) (c : Char) :
    decodeDigits (cs ++ [c]) = decodeDigits cs * 10 + digitValue c := by
  simp [decodeDigits, List.foldl_append]

theorem decodeDigits_toDigitsCore (fuel n : Nat) (h : n < fuel) :
    decodeDigits (Nat.toDigitsCore 10 fuel n []) = n := by
  induction fuel generalizing n with
  | zero => omega
  | succ fuel ih =>
    simp only [Nat.toDigitsCore]
    by_cases h0 : n / 10 = 0
    · simp only [h0, if_true]
      have hlt : n < 10 := by omega
      have hmod : n % 10 = n := Nat.mod_eq_of_lt hlt
      rw [hmod]
      simp [decodeDigits, digitValue_digitChar n hlt]
    · simp only [h0, if_false]
      rw [toDigitsCore_append, decodeDigits_append_one, ih (n / 10) (by omega),
        digitValue_digitChar (n % 10) (Nat.mod_lt _ (by decide))]
      omega

theorem mem_toDigitsCore (fuel n : Nat) (ds : List Char) (c : Char)
    (h : c ∈ Nat.toDigitsCore 10 fuel n ds) : c ∈ ds ∨ ∃ k, k < 10 ∧ c = Nat.digitChar k := by
  induction fuel generalizing n ds with
  | zero => exact Or.inl (by simpa [Nat.toDigitsCore] using h)
  | succ fuel ih =>
    simp only [Nat.toDigitsCore] at h
    by_cases h0 : n / 10 = 0
    · simp only [h0, if_true, List.mem_cons] at h
      rcases h with h | h
      · exact Or.inr ⟨n % 10, Nat.mod_lt _ (by decide), h⟩
      · exact Or.inl h
    · simp only [h0, if_false] at h
      rcases ih (n / 10) _ h with h2 | h2
      · rcases List.mem_cons.mp h2 with h3 | h3
        · exact Or.inr ⟨n % 10, Nat.mod_lt _ (by decide), h3⟩
        · exact Or.inl h3
      · exact Or.inr h2

theorem toString_nat_data (n : Nat) : (toString n).data = Nat.toDigits 10 n := rfl

theorem toString_nat_injective (a b : Nat) (h : toString a = toString b) : a = b := by
  have h2 := congrArg (fun s => decodeDigits s.data) h
  simp only [toString_nat_data, Nat.toDigits] at h2
  rwa [decodeDigits_toDigitsCore _ _ (Nat.lt_succ_self a),
    decodeDigits_toDigitsCore _ _ (Nat.lt_succ_self b)] at h2

theorem dash_not_in_toString_nat (n : Nat) : '-' ∉ (toString n).data := by
  intro h
  rw [toString_nat_data] at h
  rcases mem_toDigitsCore _ _ _ _ h with h2 | ⟨k, hk, h2⟩
  · simp at h2
  · exact digitChar_ne_dash k hk h2.symm

theorem split_at_last_dash (a b d1 d2 : List Char) (h1 : '-' ∉ d1) (h2 : '-' ∉ d2)
    (h : a ++ '-' :: d1 = b ++ '-' :: d2) : a = b ∧ d1 = d2 := by
  induction a generalizing b with
  | nil =>
    cases b with
    | nil => simpa using h
    | cons y b2 =>
      simp only [List.nil_append, List.cons_append, List.cons.injEq] at h
      exact absurd (by rw [h.2]; simp) h1
  | cons x a2 ih =>
    cases b with
    | nil =>
      simp only [List.nil_append, List.cons_append, List.cons.injEq] at h
      exact absurd (by rw [← h.2]; simp) h2
    | cons y b2 =>
      simp only [List.cons_append, List.cons.injEq] at h
      obtain ⟨hab, hd⟩ := ih b2 h.2
      exact ⟨by rw [h.1, hab], hd⟩

theorem searchKey_data (query : String) (page : Int) :
    (MovieService.searchKey query page).data =
      "search-".data ++ (query.data ++ '-' :: (toString page).data) := by
  simp [MovieService.searchKey, String.data_append]

theorem toString_int_of_nonneg (page : Int) (h : 0 ≤ page) :
    toString page = toString page.toNat := by
  cases page with
  | ofNat n => rfl
  | negSucc n => exact absurd h (by simp)

/-- C12, the claim as stated fails: with the integer pages 1 and -1, the
searches `("a-", 1)` and `("a", -1)` have the same cache key `search-a--1`,
although the queries and the pages differ. -/
theorem search_keys_collide :
    MovieService.searchKey "a-" 1 = MovieService.searchKey "a" (-1) ∧
    ("a-" : String) ≠ "a" ∧ (1 : Int) ≠ -1 := by
  decide

/-- C12, amended. For all query strings and all pages that are not negative,
the key of `searchMovies(q1, p1)` equals the key of `searchMovies(q2, p2)`
exactly when `q1 = q2` and `p1 = p2`; and no search key, for any query and any
integer page, equals a `getMovieDetails` key. -/
theorem search_key_injective (q1 q2 : String) (p1 p2 : Int) (h1 : 0 ≤ p1) (h2 : 0 ≤ p2) :
    (MovieService.searchKey q1 p1 = MovieService.searchKey q2 p2 ↔ q1 = q2 ∧ p1 = p2) ∧
    (∀ (query : String) (page : Int) (s : String),
      MovieService.searchKey query page ≠ "movie-" ++ s) := by
  refine ⟨⟨fun h => ?_, fun h => by rw [h.1, h.2]⟩, MovieService.search_key_not_detail⟩
  have hd := congrArg String.data h
  rw [searchKey_data, searchKey_data, toString_int_of_nonneg p1 h1,
    toString_int_of_nonneg p2 h2] at hd
  obtain ⟨hq, hp⟩ := split_at_last_dash _ _ _ _ (dash_not_in_toString_nat _)
    (dash_not_in_toString_nat _) (List.append_cancel_left hd)
  refine ⟨String.ext hq, ?_⟩
  have hn := toString_nat_injective _ _ (String.ext hp)
  omega

/-- Witness of C12 (amended): two searches on pages 1 and 2. -/
theorem search_key_injective_witness :
    (0 : Int) ≤ 1 ∧ (0 : Int) ≤ 2 ∧
    (MovieService.searchKey "batman" 1 = MovieService.searchKey "batman" 2 ↔
      ("batman" : String) = "batman" ∧ (1 : Int) = 2) :=
  ⟨by decide, by decide, (search_key_injective "batman" "batman" 1 2 (by decide) (by decide)).1⟩

theorem MovieService.searchMovies_stores (u : Upstream) (w : World) (query : String)
    (page : Int) (data : Val) (items : List Val)
    (h : MovieService.SearchFetched u w query page data items) :
    (MovieService.searchMovies u w query page).2.cache.live w.now
        (MovieService.searchKey query page)
      = some (MovieService.searchMovies u w query page).1 := by
  obtain ⟨enhanced, w2, _, heq, hnow⟩ := MovieService.searchMovies_fresh u w query page data items h
  rw [heq]
  simp only [World.store]
  rw [Cache.live_set_same, hnow]
  simp

/-- C13, the claim as stated fails: the key depends on the search picked at
random. After a call that picked "avengers" its result is live under
`search-avengers-1`; a call that picks "batman" works with the different key
`search-batman-1`, finds nothing there, and asks the provider again. -/
theorem trending_keys_differ :
    MovieService.trendingKey 0 = "search-avengers-1" ∧
    MovieService.trendingKey 1 = "search-batman-1" ∧
    MovieService.trendingKey 0 ≠ MovieService.trendingKey 1 ∧
    (MovieService.getTrendingMovies MovieService.omdb MovieService.initial 0).2.cache.live 0
        (MovieService.trendingKey 0)
      = some (MovieService.getTrendingMovies MovieService.omdb MovieService.initial 0).1 ∧
    (MovieService.getTrendingMovies MovieService.omdb MovieService.initial 0).2.cache.live 0
        (MovieService.trendingKey 1) = none ∧
    (MovieService.getTrendingMovies MovieService.omdb
        (MovieService.getTrendingMovies MovieService.omdb MovieService.initial 0).2 1).2.sent
      = (MovieService.getTrendingMovies MovieService.omdb MovieService.initial 0).2.sent ++
          [MovieService.searchRequest "batman" 1,
           MovieService.detailsRequest (.str "tt0000001")] := by
  decide

/-- C13, amended. `getTrendingMovies` caches its result under the key of the
search it picks: one of the five fixed keys `search-<term>-1`, a different key
for each of the five terms. A call that picks a term is served from the live
entry under that term's key, and a call that fetches successfully leaves its
result live under that key. -/
theorem trending_key_per_pick :
    (∀ pick : Fin 5, MovieService.trendingKey pick ∈
      ["search-avengers-1", "search-batman-1", "search-superman-1", "search-spiderman-1",
        "search-iron man-1"]) ∧
    (∀ p1 p2 : Fin 5, MovieService.trendingKey p1 = MovieService.trendingKey p2 → p1 = p2) ∧
    (∀ (w : World), MovieService.Reachable w → ∀ (u : Upstream) (pick : Fin 5) (v : Val),
      w.cache.live w.now (MovieService.trendingKey pick) = some v →
      MovieService.getTrendingMovies u w pick = (v, w)) ∧
    (∀ (u : Upstream) (w : World) (pick : Fin 5) (data : Val) (items : List Val),
      MovieService.SearchFetched u w (MovieService.popularSearches.getD pick.val "") 1 data
        items →
      (MovieService.getTrendingMovies u w pick).2.cache.live w.now
          (MovieService.trendingKey pick)
        = some (MovieService.getTrendingMovies u w pick).1) := by
  refine ⟨by decide, by decide, fun w hw u pick v hl => ?_, fun u w pick data items h => ?_⟩
  · have ht := MovieService.truthy_of_live_entry w (MovieService.allObjects_of_reachable w hw)
      _ v hl
    rw [MovieService.getTrendingMovies, MovieService.searchMovies_hit u w _ 1 ht]
    exact congrArg (fun x => (x, w)) (Cache.get_of_live _ _ _ _ hl)
  · exact MovieService.searchMovies_stores u w _ 1 data items h

theorem MovieService.searchFetched_trending_scenario :
    MovieService.SearchFetched MovieService.omdb MovieService.initial
      (MovieService.popularSearches.getD (1 : Fin 5).val "") 1 MovieService.forrestSearch
      MovieService.forrestItems :=
  ⟨by decide, by decide, by decide, by decide, by decide⟩

/-- Witness of C13 (amended): a trending call that picks "batman". -/
theorem trending_key_per_pick_witness :
    MovieService.SearchFetched MovieService.omdb MovieService.initial
      (MovieService.popularSearches.getD (1 : Fin 5).val "") 1 MovieService.forrestSearch
      MovieService.forrestItems ∧
    (MovieService.getTrendingMovies MovieService.omdb MovieService.initial 1).2.cache.live
        MovieService.initial.now (MovieService.trendingKey 1)
      = some (MovieService.getTrendingMovies MovieService.omdb MovieService.initial 1).1 ∧
    MovieService.Reachable MovieService.afterSearch ∧
    MovieService.afterSearch.cache.live MovieService.afterSearch.now
        (MovieService.trendingKey 0) = none :=
  ⟨MovieService.searchFetched_trending_scenario,
    trending_key_per_pick.2.2.2 MovieService.omdb MovieService.initial 1
      MovieService.forrestSearch MovieService.forrestItems
      MovieService.searchFetched_trending_scenario,
    MovieService.reachable_afterSearch, by decide⟩

/-! ## The static tables -/

theorem digitChar_isDigit (k : Nat) (h : k < 10) : (Nat.digitChar k).isDigit = true := by
  interval_cases k <;> rfl

theorem toString_int_chars (n : Int) (c : Char) (h : c ∈ (toString n).data) :
    c = '-' ∨ c.isDigit = true := by
  cases n with
  | ofNat m =>
    have h2 : c ∈ (toString m).data := h
    rw [toString_nat_data] at h2
    rcases mem_toDigitsCore _ _ _ _ h2 with h3 | ⟨k, hk, h3⟩
    · simp at h3
    · exact Or.inr (h3 ▸ digitChar_isDigit k hk)
  | negSucc m =>
    have h2 : c ∈ ("-" ++ toString (m + 1)).data := h
    rw [String.data_append, List.mem_append] at h2
    rcases h2 with h2 | h2
    · exact Or.inl (by simpa using h2)
    · rw [toString_nat_data] at h2
      rcases mem_toDigitsCore _ _ _ _ h2 with h3 | ⟨k, hk, h3⟩
      · simp at h3
      · exact Or.inr (h3 ▸ digitChar_isDigit k hk)

theorem inherited_names_have_letters :
    ∀ key ∈ objectPrototype.map Prod.fst, ∃ c ∈ key.data, c ≠ '-' ∧ c.isDigit = false := by
  decide

/-- The decimal text of an integer, which is what `id.toString()` gives for
the numeric ids of the provider, is never the name of an inherited member. -/
theorem not_inherited_of_int (n : Int) : ¬ Inherited (toString n) := by
  intro h
  obtain ⟨c, hc, hdash, hdigit⟩ := inherited_names_have_letters _ h
  rcases toString_int_chars n c hc with h2 | h2
  · exact hdash h2
  · rw [hdigit] at h2
    cases h2

/-- C19, the claim as stated fails: `constructor` is not one of the ids of
the `videoSources` table, and the lookup `this.videoSources['constructor']`
returns the inherited member `Object`, not `undefined`. -/
theorem videoSources_lookup_inherited :
    "constructor" ∉ CineNova.videoSources.map Prod.fst ∧
    CineNova.videoSourceOf "constructor" = .native "Object" ∧
    CineNova.videoSourceOf "constructor" ≠ .undefined ∧
    ¬ (∀ key, key ∉ CineNova.videoSources.map Prod.fst →
      CineNova.videoSourceOf key = .undefined) :=
  ⟨by decide, by decide, by decide, fun h => absurd (h "constructor" (by decide)) (by decide)⟩

/-- C19, amended. The `videoSources` table of app.js has exactly the eight
ids listed here; for each of them the lookup returns a descriptor whose
`streamUrl` and `downloadUrl` are non-empty strings; for every other key that
is not the name of an inherited object member the lookup returns
`undefined`, and so for the decimal text of every other integer id. -/
theorem videoSources_table :
    CineNova.videoSources.map Prod.fst =
      ["299534", "181808", "284054", "283995", "335983", "297762", "353081", "383498"] ∧
    (∀ key ∈ CineNova.videoSources.map Prod.fst, ∃ fields,
      CineNova.videoSourceOf key = .obj fields ∧
      (∃ url, objGet fields "streamUrl" = .str url ∧ url ≠ "") ∧
      (∃ url, objGet fields "downloadUrl" = .str url ∧ url ≠ "")) ∧
    (∀ key, key ∉ CineNova.videoSources.map Prod.fst → ¬ Inherited key →
      CineNova.videoSourceOf key = .undefined) ∧
    (∀ n : Int, toString n ∉ CineNova.videoSources.map Prod.fst →
      CineNova.videoSourceOf (toString n) = .undefined) := by
  refine ⟨rfl, fun key hk => ?_, fun key hk hin => ?_, fun n hk => ?_⟩
  · have hk2 : key ∈ ["299534", "181808", "284054", "283995", "335983", "297762", "353081",
        "383498"] := hk
    simp only [List.mem_cons, List.mem_singleton, List.not_mem_nil, or_false] at hk2
    rcases hk2 with h | h | h | h | h | h | h | h <;> subst h <;>
      exact ⟨_, rfl, ⟨_, rfl, by decide⟩, ⟨_, rfl, by decide⟩⟩
  · rw [CineNova.videoSourceOf, objIndex_plain _ _ hin, lookup_eq_none_of_not_mem _ _ hk]
  · rw [CineNova.videoSourceOf, objIndex_plain _ _ (not_inherited_of_int n),
      lookup_eq_none_of_not_mem _ _ hk]

/-- Witness of C19 (amended): a listed id and an id that is neither listed
nor an inherited name. -/
theorem videoSources_table_witness :
    "299534" ∈ CineNova.videoSources.map Prod.fst ∧
    (∃ fields, CineNova.videoSourceOf "299534" = .obj fields ∧
      (∃ url, objGet fields "streamUrl" = .str url ∧ url ≠ "") ∧
      (∃ url, objGet fields "downloadUrl" = .str url ∧ url ≠ "")) ∧
    "1" ∉ CineNova.videoSources.map Prod.fst ∧ ¬ Inherited "1" ∧
    CineNova.videoSourceOf "1" = .undefined ∧
    toString (550 : Int) ∉ CineNova.videoSources.map Prod.fst ∧
    CineNova.videoSourceOf (toString (550 : Int)) = .undefined :=
  ⟨by decide, videoSources_table.2.1 "299534" (by decide), by decide, by decide,
    videoSources_table.2.2.1 "1" (by decide) (by decide), by decide,
    videoSources_table.2.2.2 550 (by decide)⟩

/-- C20, the claim as stated fails: `tt0109830` is in the `movieFiles` table
and `getDownloadInfo` returns its descriptor, but the descriptor has no stream
reference: its `streamUrl` is `undefined` (the fields of a descriptor of this
variant are `title`, `downloadUrl`, `filename`, `quality`, `size`). -/
theorem downloadInfo_has_no_stream :
    "tt0109830" ∈ MovieService.sampleMovies.map Prod.fst ∧
    (∃ fields, MovieService.getDownloadInfo (.str "tt0109830") = .obj fields ∧
      fields.map Prod.fst = ["title", "downloadUrl", "filename", "quality", "size"] ∧
      objGet fields "streamUrl" = .undefined ∧
      truthy (objGet fields "streamUrl") = false) :=
  ⟨by decide, _, rfl, rfl, rfl, rfl⟩

/-- C20, amended. In `MovieService`, for every id present in the `movieFiles`
table (the five ids listed here), `getDownloadInfo` returns a descriptor with
a non-empty download reference `downloadUrl` and no `streamUrl`; for every
string absent from the table, and for every value that is not a string, it
returns `undefined`. -/
theorem downloadInfo_table :
    MovieService.sampleMovies.map Prod.fst =
      ["tt0109830", "tt0111161", "tt0068646", "tt0468569", "tt0050083"] ∧
    (∀ s ∈ MovieService.sampleMovies.map Prod.fst, ∃ fields,
      MovieService.getDownloadInfo (.str s) = .obj fields ∧
      (∃ url, objGet fields "downloadUrl" = .str url ∧ url ≠ "") ∧
      objGet fields "streamUrl" = .undefined) ∧
    (∀ s, s ∉ MovieService.sampleMovies.map Prod.fst →
      MovieService.getDownloadInfo (.str s) = .undefined) ∧
    (∀ imdbID, (∀ s, imdbID ≠ .str s) → MovieService.getDownloadInfo imdbID = .undefined) := by
  refine ⟨rfl, fun s hs => ?_, fun s hs => ?_, fun imdbID hne => ?_⟩
  · have hs2 : s ∈ ["tt0109830", "tt0111161", "tt0068646", "tt0468569", "tt0050083"] := hs
    simp only [List.mem_cons, List.mem_singleton, List.not_mem_nil, or_false] at hs2
    rcases hs2 with h | h | h | h | h <;> subst h <;>
      exact ⟨_, rfl, ⟨_, rfl, by decide⟩, rfl⟩
  · simp [MovieService.getDownloadInfo, MovieService.movieFileOf, objGet,
      lookup_eq_none_of_not_mem _ _ hs]
  · cases imdbID with
    | str s => exact absurd rfl (hne s)
    | _ => rfl

/-- Witness of C20 (amended): an id of the table and a string that is not in
it. -/
theorem downloadInfo_table_witness :
    "tt0468569" ∈ MovieService.sampleMovies.map Prod.fst ∧
    (∃ fields, MovieService.getDownloadInfo (.str "tt0468569") = .obj fields ∧
      (∃ url, objGet fields "downloadUrl" = .str url ∧ url ≠ "") ∧
      objGet fields "streamUrl" = .undefined) ∧
    "tt0000001" ∉ MovieService.sampleMovies.map Prod.fst ∧
    MovieService.getDownloadInfo (.str "tt0000001") = .undefined :=
  ⟨by decide, downloadInfo_table.2.1 "tt0468569" (by decide), by decide,
    downloadInfo_table.2.2.1 "tt0000001" (by decide)⟩

/-! ## The service instances -/

namespace CineNova

theorem app_fetchList_table (self : Service) (u : Upstream) (cacheKey : String)
    (req : Request) (fallback : Val) :
    (self.fetchList u cacheKey req fallback).2.videoSources = self.videoSources := by
  unfold Service.fetchList
  simp only
  split
  · rfl
  · split
    · rfl
    · split <;> rfl

theorem app_getMovieDetails_table (self : Service) (u : Upstream) (movieId : String) :
    (self.getMovieDetails u movieId).2.videoSources = self.videoSources := by
  unfold Service.getMovieDetails
  simp only
  split
  · rfl
  · split <;> rfl

theorem app_overlay_create (w : World) (movie : Val) (key : String) :
    (Service.create w).overlay movie key = overlay movie key := rfl

theorem app_enrich_create (w : World) : (Service.create w).enrich = enrich := by
  funext movie
  rfl

theorem app_enrichResults_create (w : World) (data : Val) :
    (Service.create w).enrichResults data = enrichResults data := by
  unfold Service.enrichResults enrichResults
  rw [app_enrich_create]

/-- On a constructed instance the methods are the functions that read the
table literal. -/
theorem app_fetchList_create (w : World) (u : Upstream) (cacheKey : String)
    (req : Request) (fallback : Val) :
    (Service.create w).fetchList u cacheKey req fallback =
      ((fetchList u w cacheKey req fallback).1,
        Service.create (fetchList u w cacheKey req fallback).2) := by
  unfold Service.fetchList fetchList
  simp only [app_enrichResults_create]
  simp only [Service.create]
  split
  · rfl
  · cases u w.sent.length req with
    | none => rfl
    | some data =>
      simp only
      cases enrichResults data with
      | error e => rfl
      | ok movies => rfl

theorem app_getMovieDetails_create (w : World) (u : Upstream) (movieId : String) :
    (Service.create w).getMovieDetails u movieId =
      ((getMovieDetails u w movieId).1, Service.create (getMovieDetails u w movieId).2) := by
  unfold Service.getMovieDetails getMovieDetails
  simp only [Service.create]
  split
  · rfl
  · cases u w.sent.length (detailsRequest movieId) with
    | none => rfl
    | some data => rfl

end CineNova

namespace MovieService

theorem server_detailsFinish_table (self : Service) (u : Upstream) (imdbID : Val) (st : Started) :
    (self.detailsFinish u imdbID st).2.movieFiles = self.movieFiles := by
  cases st with
  | settled v => rfl
  | waiting seq cacheKey =>
    unfold Service.detailsFinish
    repeat (first | rfl | split)

theorem server_getMovieDetails_table (self : Service) (u : Upstream) (imdbID : Val) :
    (self.getMovieDetails u imdbID).2.movieFiles = self.movieFiles := by
  unfold Service.getMovieDetails
  rw [server_detailsFinish_table]
  rfl

theorem server_finishItems_table (u : Upstream) (tasks : List Task) :
    ∀ self : Service, (self.finishItems u tasks).2.movieFiles = self.movieFiles := by
  induction tasks with
  | nil => intro self; rfl
  | cons t rest ih =>
    intro self
    cases t with
    | rejected => exact ih self
    | running movie imdbID s =>
      show (Service.finishItems (self.detailsFinish u imdbID s).2 u rest).2.movieFiles = _
      rw [ih, server_detailsFinish_table]

theorem server_enhanceSearch_table (self : Service) (u : Upstream) (cacheKey : String)
    (data : Val) : (self.enhanceSearch u cacheKey data).2.movieFiles = self.movieFiles := by
  unfold Service.enhanceSearch
  split
  · next items heq =>
    have h := server_finishItems_table u (startItems self.world items).1
      { self with world := (startItems self.world items).2 }
    split
    · next enhancedMovies after hf =>
      rw [hf] at h
      exact h
    · next after hf =>
      rw [hf] at h
      exact h
  · rfl

theorem server_searchMovies_table (self : Service) (u : Upstream) (query : String) (page : Int) :
    (self.searchMovies u query page).2.movieFiles = self.movieFiles := by
  unfold Service.searchMovies
  simp only
  split
  · rfl
  · split
    · rfl
    · split
      · rfl
      · split
        · rw [server_enhanceSearch_table]
        · rfl

theorem server_downloadMovie_table (self : Service) (src : ByteSource) (res : Res)
    (imdbID : Val) : (self.downloadMovie src res imdbID).2.1.movieFiles = self.movieFiles := by
  unfold Service.downloadMovie
  simp only
  split
  · split
    · rfl
    · split <;> rfl
  · rfl

theorem server_getVideoSources_table (self : Service) (imdbID : Val) :
    (self.getVideoSources imdbID).2.movieFiles = self.movieFiles := by
  unfold Service.getVideoSources
  simp only
  split <;> rfl

theorem server_movieFile_create (w : World) (imdbID : Val) :
    (Service.create w).movieFile imdbID = movieFileOf imdbID := by
  cases imdbID <;> rfl

theorem server_enhancedData_create (w : World) (data imdbID : Val) :
    (Service.create w).enhancedData data imdbID = enhancedData data imdbID := by
  unfold Service.enhancedData enhancedData
  rw [server_movieFile_create]

theorem server_enhancedMovie_create (w : World) (movie details imdbID : Val) :
    (Service.create w).enhancedMovie movie details imdbID = enhancedMovie movie details imdbID := by
  unfold Service.enhancedMovie enhancedMovie
  rw [server_movieFile_create]

/-- On a constructed instance the methods are the functions that read the
table literal. -/
theorem server_detailsFinish_create (w : World) (u : Upstream) (imdbID : Val) (st : Started) :
    (Service.create w).detailsFinish u imdbID st =
      ((detailsFinish u w imdbID st).1, Service.create (detailsFinish u w imdbID st).2) := by
  cases st with
  | settled v => rfl
  | waiting seq cacheKey =>
    unfold Service.detailsFinish detailsFinish
    simp only [server_enhancedData_create]
    cases u seq (detailsRequest imdbID) with
    | none => rfl
    | some data =>
      simp only
      cases getProp data "Response" with
      | error e => rfl
      | ok r =>
        simp only
        split <;> rfl

theorem server_getMovieDetails_create (w : World) (u : Upstream) (imdbID : Val) :
    (Service.create w).getMovieDetails u imdbID =
      ((getMovieDetails u w imdbID).1, Service.create (getMovieDetails u w imdbID).2) := by
  unfold Service.getMovieDetails getMovieDetails
  exact server_detailsFinish_create (detailsStart w imdbID).2 u imdbID (detailsStart w imdbID).1

theorem server_finishItems_create (u : Upstream) (tasks : List Task) :
    ∀ w : World, (Service.create w).finishItems u tasks =
      ((finishItems u w tasks).1, Service.create (finishItems u w tasks).2) := by
  induction tasks with
  | nil => intro w; rfl
  | cons t rest ih =>
    intro w
    cases t with
    | rejected =>
      show (none, (Service.finishItems (Service.create w) u rest).2) = _
      rw [ih w]
      rfl
    | running movie imdbID s =>
      show ((Service.finishItems ((Service.create w).detailsFinish u imdbID s).2 u rest).1.map
          (fun items => ((Service.create w).detailsFinish u imdbID s).2.enhancedMovie movie
            ((Service.create w).detailsFinish u imdbID s).1 imdbID :: items),
        (Service.finishItems ((Service.create w).detailsFinish u imdbID s).2 u rest).2) = _
      rw [server_detailsFinish_create]
      simp only [server_enhancedMovie_create]
      rw [ih]
      rfl

theorem server_getSampleData_create (w : World) :
    (Service.create w).getSampleData = (getSampleData, Service.create w) := rfl

theorem server_enhanceSearch_create (w : World) (u : Upstream) (cacheKey : String) (data : Val) :
    (Service.create w).enhanceSearch u cacheKey data =
      ((enhanceSearch u w cacheKey data).1, Service.create (enhanceSearch u w cacheKey data).2) := by
  unfold Service.enhanceSearch enhanceSearch
  split
  · next items heq =>
    have h := server_finishItems_create u (startItems w items).1 (startItems w items).2
    show (match Service.finishItems (Service.create (startItems w items).2) u
        (startItems w items).1 with
      | (some enhancedMovies, after) => _
      | (none, after) => _) = _
    rw [h]
    cases hf : finishItems u (startItems w items).2 (startItems w items).1 with
    | mk r w2 =>
      cases r with
      | none => rfl
      | some enhancedMovies => rfl
  · rfl

theorem server_searchMovies_create (w : World) (u : Upstream) (query : String) (page : Int) :
    (Service.create w).searchMovies u query page =
      ((searchMovies u w query page).1, Service.create (searchMovies u w query page).2) := by
  unfold Service.searchMovies searchMovies
  simp only [Service.create]
  split
  · rfl
  · cases u w.sent.length (searchRequest query page) with
    | none => rfl
    | some data =>
      simp only
      cases getProp data "Response" with
      | error e => rfl
      | ok r =>
        simp only
        split
        · exact server_enhanceSearch_create (w.send (searchRequest query page)) u _ data
        · rfl

theorem server_getVideoSources_create (w : World) (imdbID : Val) :
    (Service.create w).getVideoSources imdbID = (getVideoSources imdbID, Service.create w) := by
  unfold Service.getVideoSources getVideoSources
  simp only [server_movieFile_create]
  split <;> rfl

theorem server_downloadMovie_create (w : World) (src : ByteSource) (res : Res) (imdbID : Val) :
    (Service.create w).downloadMovie src res imdbID =
      ((downloadMovie src w res imdbID).1, Service.create (downloadMovie src w res imdbID).2.1,
        (downloadMovie src w res imdbID).2.2) := by
  unfold Service.downloadMovie downloadMovie
  simp only [server_movieFile_create]
  simp only [Service.create]
  split
  · cases src w.sent.length (downloadRequest (movieFileOf imdbID)) with
    | error message => rfl
    | ok response =>
      simp only
      cases hs : sendFile (movieFileOf imdbID) response res with
      | mk r res1 =>
        cases r with
        | error message => rfl
        | ok x => rfl
  · rfl

end MovieService

/-! ## The table is read-only; the enrichment join is pure -/

/-- C21. In both variants no service operation writes the availability
table: run on any instance, each of `getTrendingMovies`, `searchMovies`,
`getMovieDetails`, `getFallbackContent`, `getFeaturedMovie` and
`getOtherMovies` of app.js hands back an instance whose `videoSources` is the
one it started with, and each of `searchMovies`, `getMovieDetails`,
`getTrendingMovies`, `getSampleData`, `getVideoSources`, `getDownloadInfo` and
`downloadMovie` of server.js hands back an instance whose `movieFiles` is the
one it started with: the same ids with the same descriptors. -/
theorem table_read_only :
    (∀ (self : CineNova.Service) (u : Upstream) (query movieId : String) (movies : List Val)
        (featuredMovie : Val),
      (self.getTrendingMovies u).2.videoSources = self.videoSources ∧
      (self.searchMovies u query).2.videoSources = self.videoSources ∧
      (self.getMovieDetails u movieId).2.videoSources = self.videoSources ∧
      self.getFallbackContent.2.videoSources = self.videoSources ∧
      (self.getFeaturedMovie movies).2.videoSources = self.videoSources ∧
      (self.getOtherMovies movies featuredMovie).2.videoSources = self.videoSources) ∧
    (∀ (self : MovieService.Service) (u : Upstream) (src : ByteSource) (res : Res)
        (query : String) (page : Int) (pick : Fin 5) (imdbID : Val),
      (self.searchMovies u query page).2.movieFiles = self.movieFiles ∧
      (self.getMovieDetails u imdbID).2.movieFiles = self.movieFiles ∧
      (self.getTrendingMovies u pick).2.movieFiles = self.movieFiles ∧
      self.getSampleData.2.movieFiles = self.movieFiles ∧
      (self.getVideoSources imdbID).2.movieFiles = self.movieFiles ∧
      (self.getDownloadInfo imdbID).2.movieFiles = self.movieFiles ∧
      (self.downloadMovie src res imdbID).2.1.movieFiles = self.movieFiles) :=
  ⟨fun self u _ movieId _ _ =>
    ⟨CineNova.app_fetchList_table self u _ _ _, CineNova.app_fetchList_table self u _ _ _,
      CineNova.app_getMovieDetails_table self u movieId, rfl, rfl, rfl⟩,
  fun self u src res query page _ imdbID =>
    ⟨MovieService.server_searchMovies_table self u query page,
      MovieService.server_getMovieDetails_table self u imdbID,
      MovieService.server_searchMovies_table self u _ 1, rfl,
      MovieService.server_getVideoSources_table self imdbID, rfl,
      MovieService.server_downloadMovie_table self src res imdbID⟩⟩

/-- C22. The enrichment join depends on the record and the table only: two
instances with the same table, whatever their caches, clocks and request logs,
build equal records from the same provider record, in app.js (the callback of
`results.map`, and the record of `getMovieDetails`) and in server.js (the
record of `getMovieDetails`, and the record of `searchMovies` from the same
item and detail record); in particular the record built before a listing call
equals the record built after it. -/
theorem enrichment_is_pure :
    (∀ (s t : CineNova.Service) (movie : Val), s.videoSources = t.videoSources →
      s.enrich movie = t.enrich movie) ∧
    (∀ (s t : CineNova.Service) (data : Val) (movieId : String),
      s.videoSources = t.videoSources → s.overlay data movieId = t.overlay data movieId) ∧
    (∀ (s t : MovieService.Service) (data imdbID : Val), s.movieFiles = t.movieFiles →
      s.enhancedData data imdbID = t.enhancedData data imdbID) ∧
    (∀ (s t : MovieService.Service) (movie details imdbID : Val), s.movieFiles = t.movieFiles →
      s.enhancedMovie movie details imdbID = t.enhancedMovie movie details imdbID) ∧
    (∀ (s : CineNova.Service) (u : Upstream) (query : String) (movie : Val),
      (s.searchMovies u query).2.enrich movie = s.enrich movie) ∧
    (∀ (s : MovieService.Service) (u : Upstream) (query : String) (page : Int)
        (data imdbID : Val),
      (s.searchMovies u query page).2.enhancedData data imdbID = s.enhancedData data imdbID) := by
  have happ : ∀ (s t : CineNova.Service) (data : Val) (key : String),
      s.videoSources = t.videoSources → s.overlay data key = t.overlay data key := by
    intro s t data key h
    unfold CineNova.Service.overlay
    rw [h]
  have henrich : ∀ (s t : CineNova.Service) (movie : Val), s.videoSources = t.videoSources →
      s.enrich movie = t.enrich movie := by
    intro s t movie h
    have ho : s.overlay movie = t.overlay movie := funext fun key => happ s t movie key h
    unfold CineNova.Service.enrich
    rw [ho]
  have hfile : ∀ (s t : MovieService.Service) (imdbID : Val), s.movieFiles = t.movieFiles →
      s.movieFile imdbID = t.movieFile imdbID := by
    intro s t imdbID h
    cases imdbID <;> simp only [MovieService.Service.movieFile, h]
  have hdata : ∀ (s t : MovieService.Service) (data imdbID : Val), s.movieFiles = t.movieFiles →
      s.enhancedData data imdbID = t.enhancedData data imdbID := by
    intro s t data imdbID h
    unfold MovieService.Service.enhancedData
    rw [hfile s t imdbID h]
  refine ⟨henrich, happ, hdata, ?_, ?_, ?_⟩
  · intro s t movie details imdbID h
    unfold MovieService.Service.enhancedMovie
    rw [hfile s t imdbID h]
  · intro s u query movie
    exact henrich _ _ movie (CineNova.app_fetchList_table s u _ _ _)
  · intro s u query page data imdbID
    exact hdata _ _ data imdbID (MovieService.server_searchMovies_table s u query page)

/-- Witness of C22: an instance with an empty cache and an instance whose
cache holds a listing build the same record, in both variants. -/
theorem enrichment_is_pure_witness :
    (CineNova.Service.create CineNova.initial).videoSources =
      (CineNova.Service.create CineNova.afterTrending).videoSources ∧
    (CineNova.Service.create CineNova.initial).enrich (.obj CineNova.recordA) =
      (CineNova.Service.create CineNova.afterTrending).enrich (.obj CineNova.recordA) ∧
    (CineNova.Service.create CineNova.initial).overlay (.obj CineNova.recordA) "299534" =
      (CineNova.Service.create CineNova.afterTrending).overlay (.obj CineNova.recordA) "299534" ∧
    (MovieService.Service.create MovieService.initial).movieFiles =
      (MovieService.Service.create MovieService.afterSearch).movieFiles ∧
    (MovieService.Service.create MovieService.initial).enhancedData MovieService.forrestDetails
        (.str "tt0109830") =
      (MovieService.Service.create MovieService.afterSearch).enhancedData
        MovieService.forrestDetails (.str "tt0109830") ∧
    (MovieService.Service.create MovieService.initial).enhancedMovie
        (.obj [("imdbID", .str "tt0109830")]) MovieService.forrestDetails (.str "tt0109830") =
      (MovieService.Service.create MovieService.afterSearch).enhancedMovie
        (.obj [("imdbID", .str "tt0109830")]) MovieService.forrestDetails (.str "tt0109830") :=
  ⟨rfl, enrichment_is_pure.1 _ _ _ rfl, enrichment_is_pure.2.1 _ _ _ _ rfl, rfl,
    enrichment_is_pure.2.2.1 _ _ _ _ rfl, enrichment_is_pure.2.2.2.1 _ _ _ _ _ rfl⟩

/-! ## server.js: playback sources and the download proxy -/

namespace MovieService

theorem table_descriptors_objects : ∀ kv ∈ sampleMovies, kv.2 = .obj (spread kv.2) := by
  decide

theorem movieFileOf_of_lookup (s : String) (d : Val) (h : sampleMovies.lookup s = some d) :
    movieFileOf (.str s) = d := by
  simp only [movieFileOf, objGet, h, Option.getD_some]

theorem not_truthy_movieFileOf (imdbID : Val) (h : ¬ HasDescriptor imdbID) :
    truthy (movieFileOf imdbID) = false := by
  cases ht : truthy (movieFileOf imdbID) with
  | false => rfl
  | true => exact absurd ((truthy_movieFileOf_iff imdbID).1 ht) h

theorem movieFileOf_undefined (imdbID : Val) (h : ¬ HasDescriptor imdbID) :
    movieFileOf imdbID = .undefined := by
  cases imdbID with
  | str s =>
    cases hl : sampleMovies.lookup s with
    | none => simp only [movieFileOf, objGet, hl, Option.getD_none]
    | some d => exact absurd ⟨s, d, rfl, hl⟩ h
  | _ => rfl

theorem getVideoSources_absent (imdbID : Val) (h : ¬ HasDescriptor imdbID) :
    getVideoSources imdbID = .arr [] := by
  unfold getVideoSources
  simp only [not_truthy_movieFileOf imdbID h, Bool.false_eq_true, if_false]

theorem getVideoSources_present (s : String) (d : Val) (h : sampleMovies.lookup s = some d) :
    getVideoSources (.str s) =
      .arr [.obj [("quality", objGet (spread d) "quality"),
        ("url", objGet (spread d) "downloadUrl"), ("type", .str "video/mp4"),
        ("title", objGet (spread d) "title")]] := by
  have hm := mem_of_lookup_eq_some _ _ _ h
  have ht : truthy d = true := table_descriptors_truthy (s, d) hm
  have ho : d = .obj (spread d) := table_descriptors_objects (s, d) hm
  unfold getVideoSources
  simp only [movieFileOf_of_lookup s d h, ht, if_true]
  have hf : ∀ name, field d name = objGet (spread d) name := by
    intro name
    rw [ho]
    rfl
  rw [hf, hf, hf]

theorem download_failed_ne (message : String) :
    "Download failed: " ++ message ≠ "Movie not available for download" := by
  intro h
  have h2 := congrArg (fun s => s.data.head?) h
  simp only [String.data_append] at h2
  have h3 : some 'D' = some 'M' := h2
  exact absurd h3 (by decide)

theorem no_descriptor_example : ¬ HasDescriptor (.str "tt0000001") := by
  intro ⟨s, d, hs, hl⟩
  cases hs
  rw [show sampleMovies.lookup "tt0000001" = none from rfl] at hl
  cases hl

theorem has_descriptor_example : HasDescriptor (.str "tt0109830") :=
  ⟨"tt0109830", _, rfl, rfl⟩

end MovieService

/-- C30. In server.js, `getVideoSources(id)` is the empty list for every id
the `movieFiles` table does not hold, and for an id the table holds under
descriptor `d` it is the one-element list whose source has `d.quality` as
`quality`, `d.downloadUrl` as `url`, `'video/mp4'` as `type` and `d.title` as
`title`; so `getVideoSources(id)` is non-empty exactly when
`getDownloadInfo(id)` is not `undefined`. -/
theorem videoSources_from_descriptor (imdbID : Val) :
    (¬ MovieService.HasDescriptor imdbID → MovieService.getVideoSources imdbID = .arr []) ∧
    (∀ s d, imdbID = .str s → MovieService.sampleMovies.lookup s = some d →
      ∃ fields, d = .obj fields ∧
        MovieService.getVideoSources imdbID =
          .arr [.obj [("quality", objGet fields "quality"), ("url", objGet fields "downloadUrl"),
            ("type", .str "video/mp4"), ("title", objGet fields "title")]]) ∧
    ((∃ source rest, MovieService.getVideoSources imdbID = .arr (source :: rest)) ↔
      MovieService.getDownloadInfo imdbID ≠ .undefined) := by
  refine ⟨MovieService.getVideoSources_absent imdbID, ?_, ?_⟩
  · intro s d hs hl
    subst hs
    exact ⟨spread d,
      MovieService.table_descriptors_objects (s, d) (mem_of_lookup_eq_some _ _ _ hl),
      MovieService.getVideoSources_present s d hl⟩
  · by_cases hd : MovieService.HasDescriptor imdbID
    · obtain ⟨s, d, hs, hl⟩ := hd
      subst hs
      constructor
      · intro _ hu
        have hm := MovieService.movieFileOf_of_lookup s d hl
        have ht := MovieService.table_descriptors_truthy (s, d) (mem_of_lookup_eq_some _ _ _ hl)
        unfold MovieService.getDownloadInfo at hu
        rw [hm] at hu
        simp only at ht
        rw [hu] at ht
        exact absurd ht (by decide)
      · intro _
        exact ⟨_, _, MovieService.getVideoSources_present s d hl⟩
    · constructor
      · intro ⟨source, rest, hv⟩
        rw [MovieService.getVideoSources_absent imdbID hd] at hv
        cases hv
      · intro hne
        exact absurd (MovieService.movieFileOf_undefined imdbID hd) hne

/-- Witness of C30: an id outside the table and an id of the table. -/
theorem videoSources_from_descriptor_witness :
    ¬ MovieService.HasDescriptor (.str "tt0000001") ∧
    MovieService.getVideoSources (.str "tt0000001") = .arr [] ∧
    MovieService.sampleMovies.lookup "tt0468569" =
      some (MovieService.movieFile "The Dark Knight"
        "https://commondatastorage.googleapis.com/gtv-videos-bucket/sample/ForBiggerEscapes.mp4"
        "The_Dark_Knight_2008.mp4" "1080p" "210MB") ∧
    (∃ fields, MovieService.movieFile "The Dark Knight"
        "https://commondatastorage.googleapis.com/gtv-videos-bucket/sample/ForBiggerEscapes.mp4"
        "The_Dark_Knight_2008.mp4" "1080p" "210MB" = .obj fields ∧
      MovieService.getVideoSources (.str "tt0468569") =
        .arr [.obj [("quality", objGet fields "quality"), ("url", objGet fields "downloadUrl"),
          ("type", .str "video/mp4"), ("title", objGet fields "title")]]) :=
  ⟨MovieService.no_descriptor_example,
    (videoSources_from_descriptor (.str "tt0000001")).1 MovieService.no_descriptor_example,
    rfl,
    (videoSources_from_descriptor (.str "tt0468569")).2.1 "tt0468569" _ rfl rfl⟩

namespace MovieService

theorem downloadMovie_absent (src : ByteSource) (w : World) (res : Res) (imdbID : Val)
    (h : ¬ HasDescriptor imdbID) :
    downloadMovie src w res imdbID = (.error "Movie not available for download", w, res) := by
  unfold downloadMovie
  simp only [not_truthy_movieFileOf imdbID h, Bool.false_eq_true, if_false]

theorem downloadMovie_rejected (src : ByteSource) (w : World) (res : Res) (imdbID : Val)
    (message : String) (h : HasDescriptor imdbID)
    (hs : src w.sent.length (downloadRequest (movieFileOf imdbID)) = .error message) :
    downloadMovie src w res imdbID =
      (.error ("Download failed: " ++ message), w.send (downloadRequest (movieFileOf imdbID)),
        res) := by
  unfold downloadMovie
  simp only [(truthy_movieFileOf_iff imdbID).2 h, if_true, hs]

theorem downloadMovie_present (src : ByteSource) (w : World) (res : Res) (imdbID : Val)
    (h : HasDescriptor imdbID) :
    (downloadMovie src w res imdbID).1 = .ok () ∨
      ∃ message, (downloadMovie src w res imdbID).1 = .error ("Download failed: " ++ message) := by
  unfold downloadMovie
  simp only [(truthy_movieFileOf_iff imdbID).2 h, if_true]
  cases src w.sent.length (downloadRequest (movieFileOf imdbID)) with
  | error message => exact Or.inr ⟨message, rfl⟩
  | ok response =>
    simp only
    cases sendFile (movieFileOf imdbID) response res with
    | mk r res1 =>
      cases r with
      | error message => exact Or.inr ⟨message, rfl⟩
      | ok x => exact Or.inl rfl

end MovieService

/-- C23. In server.js, `downloadMovie(id, res)` rejects with the message
'Movie not available for download' exactly when the `movieFiles` table does
not hold `id`, and then it issues no outbound request, leaves the cache alone
and sets no header on `res`; when the table holds `id` and the request to the
byte source is rejected with some `message`, it rejects with
'Download failed: ' followed by `message`, the request log has grown by that
single request, and the cache and `res` are as before. -/
theorem downloadMovie_failures (src : ByteSource) (w : World) (res : Res) (imdbID : Val) :
    ((MovieService.downloadMovie src w res imdbID).1 = .error "Movie not available for download" ↔
      ¬ MovieService.HasDescriptor imdbID) ∧
    (¬ MovieService.HasDescriptor imdbID →
      (MovieService.downloadMovie src w res imdbID).2 = (w, res)) ∧
    (∀ message, MovieService.HasDescriptor imdbID →
      src w.sent.length (MovieService.downloadRequest (MovieService.movieFileOf imdbID)) =
        .error message →
      (MovieService.downloadMovie src w res imdbID).1 = .error ("Download failed: " ++ message) ∧
      (MovieService.downloadMovie src w res imdbID).2.1.sent =
        w.sent ++ [MovieService.downloadRequest (MovieService.movieFileOf imdbID)] ∧
      (MovieService.downloadMovie src w res imdbID).2.1.cache = w.cache ∧
      (MovieService.downloadMovie src w res imdbID).2.2 = res) := by
  refine ⟨⟨fun he hd => ?_, fun hd => ?_⟩, fun hd => ?_, fun message hd hs => ?_⟩
  · rcases MovieService.downloadMovie_present src w res imdbID hd with h | ⟨message, h⟩
    · rw [h] at he
      cases he
    · rw [h] at he
      exact MovieService.download_failed_ne message (Except.error.inj he)
  · rw [MovieService.downloadMovie_absent src w res imdbID hd]
  · rw [MovieService.downloadMovie_absent src w res imdbID hd]
  · rw [MovieService.downloadMovie_rejected src w res imdbID message hd hs]
    exact ⟨rfl, rfl, rfl, rfl⟩

/-- Witness of C23: an id outside the table, and an id of the table against a
byte source that refuses the connection. -/
theorem downloadMovie_failures_witness :
    ¬ MovieService.HasDescriptor (.str "tt0000001") ∧
    (MovieService.downloadMovie MovieService.unreachable MovieService.initial
      MovieService.freshRes (.str "tt0000001")).2 =
        (MovieService.initial, MovieService.freshRes) ∧
    MovieService.HasDescriptor (.str "tt0109830") ∧
    MovieService.unreachable MovieService.initial.sent.length
      (MovieService.downloadRequest (MovieService.movieFileOf (.str "tt0109830"))) =
        .error "connect ECONNREFUSED" ∧
    ((MovieService.downloadMovie MovieService.unreachable MovieService.initial
        MovieService.freshRes (.str "tt0109830")).1 =
        .error ("Download failed: " ++ "connect ECONNREFUSED") ∧
      (MovieService.downloadMovie MovieService.unreachable MovieService.initial
        MovieService.freshRes (.str "tt0109830")).2.1.sent =
        MovieService.initial.sent ++
          [MovieService.downloadRequest (MovieService.movieFileOf (.str "tt0109830"))] ∧
      (MovieService.downloadMovie MovieService.unreachable MovieService.initial
        MovieService.freshRes (.str "tt0109830")).2.1.cache = MovieService.initial.cache ∧
      (MovieService.downloadMovie MovieService.unreachable MovieService.initial
        MovieService.freshRes (.str "tt0109830")).2.2 = MovieService.freshRes) :=
  ⟨MovieService.no_descriptor_example,
    (downloadMovie_failures MovieService.unreachable MovieService.initial MovieService.freshRes
      (.str "tt0000001")).2.1 MovieService.no_descriptor_example,
    MovieService.has_descriptor_example, rfl,
    (downloadMovie_failures MovieService.unreachable MovieService.initial MovieService.freshRes
      (.str "tt0109830")).2.2 "connect ECONNREFUSED" MovieService.has_descriptor_example rfl⟩

/-! ## Both variants: the detail endpoint on an absent record -/

theorem CineNova.app_apiMovie_eq (u : Upstream) (w : World) (id : String) :
    CineNova.apiMovie u w id =
      (if truthy (CineNova.getMovieDetails u w id).1 then
          { status := 200, body := (CineNova.getMovieDetails u w id).1 }
        else { status := 404, body := .obj [("error", .str "Movie not found")] },
        (CineNova.getMovieDetails u w id).2) := by
  unfold CineNova.apiMovie
  rw [CineNova.getMovieDetailsPromise_eq]
  simp only
  split <;> rfl

theorem MovieService.server_apiMovie_eq (u : Upstream) (w : World) (id : String) :
    MovieService.apiMovie u w id =
      ({ status := 200,
         body := if truthy (MovieService.getMovieDetails u w (.str id)).1 then
           (MovieService.getMovieDetails u w (.str id)).1 else .obj [] },
        (MovieService.getMovieDetails u w (.str id)).2) := by
  unfold MovieService.apiMovie
  rw [MovieService.detailsPromise_eq]

/-- C26, counterexample. In server.js, with the provider down and an empty
cache, `getMovieDetails('tt0000001')` returns `null` and `GET
/api/movie/tt0000001` answers with status 200 and the body `{}`, not with a
404. -/
theorem server_api_movie_absent_is_200 :
    (MovieService.getMovieDetails down MovieService.initial (.str "tt0000001")).1 = .null ∧
    (MovieService.apiMovie down MovieService.initial "tt0000001").1 =
      { status := 200, body := .obj [] } := by
  decide

/-- C26 (amended). For every id for which `getMovieDetails` returns `null`,
the endpoint `GET /api/movie/:id` of app.js answers with status 404 and the
body `{ error: 'Movie not found' }`, and the endpoint of server.js answers
with status 200 and the empty object `{}`. -/
theorem api_movie_absent_answer :
    (∀ (u : Upstream) (w : World) (id : String),
      (CineNova.getMovieDetails u w id).1 = .null →
      (CineNova.apiMovie u w id).1 =
        { status := 404, body := .obj [("error", .str "Movie not found")] }) ∧
    (∀ (u : Upstream) (w : World) (id : String),
      (MovieService.getMovieDetails u w (.str id)).1 = .null →
      (MovieService.apiMovie u w id).1 = { status := 200, body := .obj [] }) := by
  constructor
  · intro u w id h
    rw [CineNova.app_apiMovie_eq, h]
    rfl
  · intro u w id h
    rw [MovieService.server_apiMovie_eq, h]
    rfl

/-- Witness of C26 (amended): both endpoints with the provider down and an
empty cache. -/
theorem api_movie_absent_answer_witness :
    (CineNova.getMovieDetails down CineNova.initial "299534").1 = .null ∧
    (CineNova.apiMovie down CineNova.initial "299534").1 =
      { status := 404, body := .obj [("error", .str "Movie not found")] } ∧
    (MovieService.getMovieDetails down MovieService.initial (.str "tt0109830")).1 = .null ∧
    (MovieService.apiMovie down MovieService.initial "tt0109830").1 =
      { status := 200, body := .obj [] } :=
  ⟨rfl, api_movie_absent_answer.1 down CineNova.initial "299534" rfl, rfl,
    api_movie_absent_answer.2 down MovieService.initial "tt0109830" rfl⟩

/-! ## app.js: the featured record and the others partition the list -/

theorem filter_ne_perm {α β : Type} [DecidableEq β] (g : α → β) (l : List α) (f : α)
    (hd : (l.map g).Nodup) (hf : f ∈ l) :
    (f :: l.filter (fun r => g r != g f)).Perm l := by
  induction l with
  | nil => cases hf
  | cons x xs ih =>
    rw [List.map_cons, List.nodup_cons] at hd
    obtain ⟨hx, hxs⟩ := hd
    by_cases hfx : f = x
    · subst hfx
      have hall : ∀ r ∈ xs, (g r != g f) = true := by
        intro r hr
        have hne : g r ≠ g f := fun he => hx (he ▸ List.mem_map_of_mem g hr)
        simpa using hne
      have hfilter : xs.filter (fun r => g r != g f) = xs := List.filter_eq_self.2 hall
      have hself : (g f != g f) = false := by simp
      rw [List.filter_cons, hself]
      simp only [Bool.false_eq_true, if_false]
      rw [hfilter]
    · have hfxs : f ∈ xs := by
        rcases List.mem_cons.1 hf with h | h
        · exact absurd h hfx
        · exact h
      have hne : g x ≠ g f := fun he => hx (he ▸ List.mem_map_of_mem g hfxs)
      have hkeep : (g x != g f) = true := by simpa using hne
      rw [List.filter_cons, hkeep]
      simp only [if_true]
      exact (List.Perm.swap x f _).trans ((ih hxs hfxs).cons x)

namespace CineNova

theorem featured_mem (records : List (List (String × Val))) (hne : records ≠ []) :
    ∃ f, f ∈ records ∧ getFeaturedMovie (records.map Val.obj) = .ok (.obj f) := by
  unfold getFeaturedMovie
  rw [findCanPlay_records]
  cases hf : records.find? (fun r => truthy (objGet r "canPlay")) with
  | some r => exact ⟨r, List.mem_of_find?_eq_some hf, by simp [truthy]⟩
  | none =>
    cases records with
    | nil => exact absurd rfl hne
    | cons r rest => exact ⟨r, List.mem_cons_self _ _, by simp [truthy]⟩

end CineNova

/-- C28. In app.js, for every non-empty list of records whose ids are
pairwise distinct, `getFeaturedMovie(movies)` returns a record `f` of the
list, and `getOtherMovies(movies, f)` returns `length(movies) - 1` records,
does not contain `f`, and together with `f` is a permutation of `movies`. -/
theorem featured_and_others_partition (records : List (List (String × Val)))
    (hne : records ≠ []) (hd : (records.map (fun r => objGet r "id")).Nodup) :
    ∃ f others, CineNova.getFeaturedMovie (records.map Val.obj) = .ok (.obj f) ∧
      CineNova.getOtherMovies (records.map Val.obj) (.obj f) = .ok (others.map Val.obj) ∧
      others.length = records.length - 1 ∧ f ∉ others ∧ (f :: others).Perm records := by
  obtain ⟨f, hf, hfeat⟩ := CineNova.featured_mem records hne
  have hperm := filter_ne_perm (fun r => objGet r "id") records f hd hf
  refine ⟨f, records.filter (fun r => objGet r "id" != objGet f "id"), hfeat,
    CineNova.getOtherMovies_records records f, ?_, ?_, hperm⟩
  · have hlen := hperm.length_eq
    simp only [List.length_cons] at hlen
    omega
  · intro hmem
    have h := (List.mem_filter.1 hmem).2
    simp at h

/-- Witness of C28: the records A, B, C of the featured-item example. -/
theorem featured_and_others_partition_witness :
    [CineNova.recordA, CineNova.recordB, CineNova.recordC] ≠ [] ∧
    ([CineNova.recordA, CineNova.recordB, CineNova.recordC].map
      (fun r => objGet r "id")).Nodup ∧
    (∃ f others,
      CineNova.getFeaturedMovie
        ([CineNova.recordA, CineNova.recordB, CineNova.recordC].map Val.obj) = .ok (.obj f) ∧
      CineNova.getOtherMovies
        ([CineNova.recordA, CineNova.recordB, CineNova.recordC].map Val.obj) (.obj f) =
          .ok (others.map Val.obj) ∧
      others.length = [CineNova.recordA, CineNova.recordB, CineNova.recordC].length - 1 ∧
      f ∉ others ∧
      (f :: others).Perm [CineNova.recordA, CineNova.recordB, CineNova.recordC]) :=
  ⟨by decide, by decide,
    featured_and_others_partition [CineNova.recordA, CineNova.recordB, CineNova.recordC]
      (by decide) (by decide)⟩

/-! ## Both variants: a failed request is not repeated -/

theorem MovieService.searchMovies_failed_world (u : Upstream) (w : World) (query : String)
    (page : Int) (ht : truthy (w.cache.get w.now (MovieService.searchKey query page)) = false)
    (h : FailsOrNotTrue u w.sent.length (MovieService.searchRequest query page)) :
    (MovieService.searchMovies u w query page).2 =
      w.send (MovieService.searchRequest query page) := by
  rcases h with hu | ⟨data, hu, hr⟩
  · rw [MovieService.searchMovies_rejected u w query page ht hu]
  · cases hresp : getProp data "Response" with
    | error e => rw [MovieService.searchMovies_thrown u w query page data e ht hu hresp]
    | ok r =>
      have hne : r ≠ .str "True" := fun hr2 => hr (by rw [hresp, hr2])
      rw [MovieService.searchMovies_notTrue u w query page data r ht hu hresp hne]

theorem MovieService.details_failed_world (u : Upstream) (w : World) (imdbID : Val) (s : String)
    (hs : imdbID.toStr = .ok s) (ht : truthy (w.cache.get w.now ("movie-" ++ s)) = false)
    (h : FailsOrNotTrue u w.sent.length (MovieService.detailsRequest imdbID)) :
    MovieService.getMovieDetails u w imdbID =
      (.null, w.send (MovieService.detailsRequest imdbID)) := by
  simp only [MovieService.getMovieDetails, MovieService.detailsStart_miss w imdbID s hs ht]
  rcases h with hu | ⟨data, hu, hr⟩
  · exact MovieService.detailsFinish_rejected u _ imdbID _ _ hu
  · cases hresp : getProp data "Response" with
    | error e => exact MovieService.detailsFinish_thrown u _ imdbID data _ _ e hu hresp
    | ok r =>
      have hne : r ≠ .str "True" := fun hr2 => hr (by rw [hresp, hr2])
      exact MovieService.detailsFinish_notTrue u _ imdbID data r _ _ hu hresp hne

/-- C25. In both variants a call whose first outbound request fails makes no
second attempt: when nothing live is cached under its key and the request is
rejected (in server.js: rejected, or answered without `Response: 'True'`),
the request log after `getTrendingMovies`, `searchMovies` and
`getMovieDetails` is the log before the call followed by that one request;
the same holds for `downloadMovie` of server.js when the request to the byte
source is rejected. -/
theorem no_retry_after_failure :
    (∀ (u : Upstream) (w : World), w.cache.live w.now "trending_movies" = none →
      u w.sent.length CineNova.trendingRequest = none →
      (CineNova.getTrendingMovies u w).2.sent = w.sent ++ [CineNova.trendingRequest]) ∧
    (∀ (u : Upstream) (w : World) (query : String),
      w.cache.live w.now ("search_" ++ query) = none →
      u w.sent.length (CineNova.searchRequest query) = none →
      (CineNova.searchMovies u w query).2.sent = w.sent ++ [CineNova.searchRequest query]) ∧
    (∀ (u : Upstream) (w : World) (movieId : String),
      w.cache.live w.now ("movie_" ++ movieId) = none →
      u w.sent.length (CineNova.detailsRequest movieId) = none →
      (CineNova.getMovieDetails u w movieId).2.sent =
        w.sent ++ [CineNova.detailsRequest movieId]) ∧
    (∀ (u : Upstream) (w : World) (query : String) (page : Int),
      w.cache.live w.now (MovieService.searchKey query page) = none →
      FailsOrNotTrue u w.sent.length (MovieService.searchRequest query page) →
      (MovieService.searchMovies u w query page).2.sent =
        w.sent ++ [MovieService.searchRequest query page]) ∧
    (∀ (u : Upstream) (w : World) (pick : Fin 5),
      w.cache.live w.now (MovieService.trendingKey pick) = none →
      FailsOrNotTrue u w.sent.length
        (MovieService.searchRequest (MovieService.popularSearches.getD pick.val "") 1) →
      (MovieService.getTrendingMovies u w pick).2.sent =
        w.sent ++ [MovieService.searchRequest (MovieService.popularSearches.getD pick.val "") 1]) ∧
    (∀ (u : Upstream) (w : World) (imdbID : Val) (s : String), imdbID.toStr = .ok s →
      w.cache.live w.now ("movie-" ++ s) = none →
      FailsOrNotTrue u w.sent.length (MovieService.detailsRequest imdbID) →
      (MovieService.getMovieDetails u w imdbID).2.sent =
        w.sent ++ [MovieService.detailsRequest imdbID]) ∧
    (∀ (src : ByteSource) (w : World) (res : Res) (imdbID : Val) (message : String),
      MovieService.HasDescriptor imdbID →
      src w.sent.length (MovieService.downloadRequest (MovieService.movieFileOf imdbID)) =
        .error message →
      (MovieService.downloadMovie src w res imdbID).2.1.sent =
        w.sent ++ [MovieService.downloadRequest (MovieService.movieFileOf imdbID)]) := by
  refine ⟨fun u w hl hu => ?_, fun u w query hl hu => ?_, fun u w movieId hl hu => ?_,
    fun u w query page hl hf => ?_, fun u w pick hl hf => ?_, fun u w imdbID s hs hl hf => ?_,
    fun src w res imdbID message hd hs => ?_⟩
  · show (CineNova.fetchList u w _ _ _).2.sent = _
    rw [CineNova.fetchList_rejected u w _ _ _ (get_falsy_of_not_live _ _ _ hl) hu]
    rfl
  · show (CineNova.fetchList u w _ _ _).2.sent = _
    rw [CineNova.fetchList_rejected u w _ _ _ (get_falsy_of_not_live _ _ _ hl) hu]
    rfl
  · rw [CineNova.getMovieDetails_rejected u w movieId (get_falsy_of_not_live _ _ _ hl) hu]
    rfl
  · rw [MovieService.searchMovies_failed_world u w query page (get_falsy_of_not_live _ _ _ hl) hf]
    rfl
  · show (MovieService.searchMovies u w _ 1).2.sent = _
    rw [MovieService.searchMovies_failed_world u w _ 1 (get_falsy_of_not_live _ _ _ hl) hf]
    rfl
  · rw [MovieService.details_failed_world u w imdbID s hs (get_falsy_of_not_live _ _ _ hl) hf]
    rfl
  · rw [MovieService.downloadMovie_rejected src w res imdbID message hd hs]
    rfl

/-- Witness of C25: every operation at start-up, with the provider and the
byte source down. -/
theorem no_retry_after_failure_witness :
    (CineNova.getTrendingMovies down CineNova.initial).2.sent =
      CineNova.initial.sent ++ [CineNova.trendingRequest] ∧
    (CineNova.searchMovies down CineNova.initial "batman").2.sent =
      CineNova.initial.sent ++ [CineNova.searchRequest "batman"] ∧
    (CineNova.getMovieDetails down CineNova.initial "299534").2.sent =
      CineNova.initial.sent ++ [CineNova.detailsRequest "299534"] ∧
    (MovieService.searchMovies down MovieService.initial "batman" 1).2.sent =
      MovieService.initial.sent ++ [MovieService.searchRequest "batman" 1] ∧
    (MovieService.getTrendingMovies down MovieService.initial 2).2.sent =
      MovieService.initial.sent ++
        [MovieService.searchRequest (MovieService.popularSearches.getD 2 "") 1] ∧
    (MovieService.getMovieDetails down MovieService.initial (.str "tt0109830")).2.sent =
      MovieService.initial.sent ++ [MovieService.detailsRequest (.str "tt0109830")] ∧
    (MovieService.downloadMovie MovieService.unreachable MovieService.initial
        MovieService.freshRes (.str "tt0109830")).2.1.sent =
      MovieService.initial.sent ++
        [MovieService.downloadRequest (MovieService.movieFileOf (.str "tt0109830"))] :=
  ⟨no_retry_after_failure.1 down CineNova.initial rfl rfl,
    no_retry_after_failure.2.1 down CineNova.initial "batman" rfl rfl,
    no_retry_after_failure.2.2.1 down CineNova.initial "299534" rfl rfl,
    no_retry_after_failure.2.2.2.1 down MovieService.initial "batman" 1 rfl (Or.inl rfl),
    no_retry_after_failure.2.2.2.2.1 down MovieService.initial 2 rfl (Or.inl rfl),
    no_retry_after_failure.2.2.2.2.2.1 down MovieService.initial (.str "tt0109830") "tt0109830"
      rfl rfl (Or.inl rfl),
    no_retry_after_failure.2.2.2.2.2.2 MovieService.unreachable MovieService.initial
      MovieService.freshRes (.str "tt0109830") "connect ECONNREFUSED"
      MovieService.has_descriptor_example rfl⟩

/-! ## server.js: the time-to-live of the cache writes -/

namespace MovieService

theorem writes_mono {now : Nat} {P Q : String → Val → Nat → Prop} {c1 c2 : Cache}
    (hpq : ∀ k v t, P k v t → Q k v t) (h : Writes now P c1 c2) : Writes now Q c1 c2 := by
  induction h with
  | done => exact Writes.done
  | write c2 key value ttl _ hp ih => exact Writes.write c2 key value ttl ih (hpq _ _ _ hp)

theorem writes_trans {now : Nat} {P : String → Val → Nat → Prop} {c1 c2 c3 : Cache}
    (h12 : Writes now P c1 c2) (h23 : Writes now P c2 c3) : Writes now P c1 c3 := by
  induction h23 with
  | done => exact h12
  | write c3 key value ttl _ hp ih => exact Writes.write c3 key value ttl ih hp

theorem writes_mem {now : Nat} {P : String → Val → Nat → Prop} {c1 c2 : Cache}
    (h : Writes now P c1 c2) (k : String) (e : CacheEntry) (hmem : (k, e) ∈ c2) :
    (k, e) ∈ c1 ∨ ∃ ttl, P k e.value ttl ∧ e.expires = now + ttl * 1000 := by
  induction h with
  | done => exact Or.inl hmem
  | write c2 key value ttl _ hp ih =>
    rcases Cache.mem_set _ _ _ _ _ _ _ hmem with ⟨hk, hv, hx⟩ | hold
    · right
      subst hk
      rw [hv]
      exact ⟨ttl, hp, hx⟩
    · exact ih hold

theorem detailsFinish_writes (u : Upstream) (w : World) (imdbID : Val) (st : Started)
    (hst : StartedFor imdbID st) :
    Writes w.now DetailWrite w.cache (detailsFinish u w imdbID st).2.cache := by
  cases st with
  | settled v => exact Writes.done
  | waiting seq key =>
    obtain ⟨s, _, hk⟩ := hst seq key rfl
    rcases detailsFinish_outcome u w imdbID (.waiting seq key) with ⟨v, h⟩ | ⟨key2, data, h⟩
    · rw [h]
      exact Writes.done
    · cases hu : u seq (detailsRequest imdbID) with
      | none =>
        rw [detailsFinish_rejected u w imdbID seq key hu]
        exact Writes.done
      | some data2 =>
        cases hr : getProp data2 "Response" with
        | error e =>
          rw [detailsFinish_thrown u w imdbID data2 seq key e hu hr]
          exact Writes.done
        | ok r =>
          by_cases hne : r = .str "True"
          · subst hne
            rw [detailsFinish_true u w imdbID data2 seq key hu hr]
            exact Writes.write _ _ _ _ Writes.done ⟨⟨s, hk⟩, ⟨data2, imdbID, rfl⟩, rfl⟩
          · rw [detailsFinish_notTrue u w imdbID data2 r seq key hu hr hne]
            exact Writes.done

theorem startItems_keyed (w : World) (items : List Val) : TasksKeyed (startItems w items).1 := by
  induction items generalizing w with
  | nil => intro t ht; cases ht
  | cons movie rest ih =>
    unfold startItems
    cases hg : getProp movie "imdbID" with
    | error e =>
      intro t ht movie2 imdbID st heq
      simp only [List.mem_cons] at ht
      rcases ht with h | h
      · rw [h] at heq
        cases heq
      · exact ih w t h movie2 imdbID st heq
    | ok imdbID =>
      intro t ht movie2 imdbID2 st heq
      simp only [List.mem_cons] at ht
      rcases ht with h | h
      · rw [h] at heq
        cases heq
        exact detailsStart_startedFor w imdbID
      · exact ih _ t h movie2 imdbID2 st heq

theorem finishItems_writes (u : Upstream) (w : World) (tasks : List Task)
    (ht : TasksKeyed tasks) :
    Writes w.now DetailWrite w.cache (finishItems u w tasks).2.cache := by
  induction tasks generalizing w with
  | nil => exact Writes.done
  | cons t rest ih =>
    have hrest : TasksKeyed rest := fun t2 ht2 => ht t2 (List.mem_cons_of_mem _ ht2)
    cases t with
    | rejected => exact ih w hrest
    | running movie imdbID st =>
      simp only [finishItems]
      have hst := ht _ (List.mem_cons_self _ _) movie imdbID st rfl
      have h1 := detailsFinish_writes u w imdbID st hst
      have h2 := ih (detailsFinish u w imdbID st).2 hrest
      rw [(detailsFinish_frame u w imdbID st).2] at h2
      exact writes_trans h1 h2

theorem finishItems_items (u : Upstream) (w : World) (tasks : List Task) (enhanced : List Val)
    (h : (finishItems u w tasks).1 = some enhanced) :
    ∀ item ∈ enhanced, ∃ movie details imdbID, item = enhancedMovie movie details imdbID := by
  induction tasks generalizing w enhanced with
  | nil =>
    simp only [finishItems, Option.some.injEq] at h
    subst h
    intro item hi
    cases hi
  | cons t rest ih =>
    cases t with
    | rejected =>
      simp only [finishItems] at h
      cases h
    | running movie imdbID st =>
      simp only [finishItems, Option.map_eq_some'] at h
      obtain ⟨items, hitems, heq⟩ := h
      subst heq
      intro item hi
      rcases List.mem_cons.1 hi with h1 | h1
      · exact ⟨movie, _, imdbID, h1⟩
      · exact ih _ items hitems item h1

theorem enhanceSearch_writes (u : Upstream) (w : World) (key : String) (data : Val) :
    Writes w.now (fun k v t => DetailWrite k v t ∨ SearchWrite key k v t) w.cache
      (enhanceSearch u w key data).2.cache := by
  by_cases h : ∃ items, getProp data "Search" = .ok (.arr items)
  · obtain ⟨items, h⟩ := h
    have hw := finishItems_writes u (startItems w items).2 (startItems w items).1
      (startItems_keyed w items)
    obtain ⟨hc, hn, _⟩ := startItems_frame w items
    rw [hc, hn] at hw
    have hw2 := writes_mono (Q := fun k v t => DetailWrite k v t ∨ SearchWrite key k v t)
      (fun _ _ _ hp => Or.inl hp) hw
    rcases enhanceSearch_outcome u w key data items h with ⟨enhanced, he, heq⟩ | ⟨_, heq⟩
    · rw [heq]
      have hnow : (finishItems u (startItems w items).2 (startItems w items).1).2.now = w.now :=
        (finishItems_frame u _ _).2.trans hn
      have := Writes.write _ key (.obj (objSet (spread data) "Search" (.arr enhanced))) 600 hw2
        (Or.inr ⟨rfl, ⟨data, enhanced, rfl, finishItems_items u _ _ enhanced he⟩, rfl⟩)
      simp only [World.store, hnow]
      exact this
    · rw [heq]
      exact hw2
  · rw [enhanceSearch_noList u w key data (fun items hi => h ⟨items, hi⟩)]
    exact Writes.done

theorem searchMovies_writes (u : Upstream) (w : World) (query : String) (page : Int) :
    Writes w.now (fun k v t => DetailWrite k v t ∨ SearchWrite (searchKey query page) k v t)
      w.cache (searchMovies u w query page).2.cache := by
  cases ht : truthy (w.cache.get w.now (searchKey query page)) with
  | true =>
    rw [searchMovies_hit u w query page ht]
    exact Writes.done
  | false =>
    cases hu : u w.sent.length (searchRequest query page) with
    | none =>
      rw [searchMovies_rejected u w query page ht hu]
      exact Writes.done
    | some data =>
      cases hr : getProp data "Response" with
      | error e =>
        rw [searchMovies_thrown u w query page data e ht hu hr]
        exact Writes.done
      | ok r =>
        by_cases hne : r = .str "True"
        · subst hne
          rw [searchMovies_true u w query page data ht hu hr]
          exact enhanceSearch_writes u (w.send (searchRequest query page)) _ data
        · rw [searchMovies_notTrue u w query page data r ht hu hr hne]
          exact Writes.done

theorem getMovieDetails_writes (u : Upstream) (w : World) (imdbID : Val) :
    Writes w.now DetailWrite w.cache (getMovieDetails u w imdbID).2.cache := by
  have h := detailsFinish_writes u (detailsStart w imdbID).2 imdbID (detailsStart w imdbID).1
    (detailsStart_startedFor w imdbID)
  rw [(detailsStart_cache w imdbID).1, (detailsStart_cache w imdbID).2] at h
  exact h

end MovieService

theorem Cache.lookup_set_same (c : Cache) (now : Nat) (key : String) (v : Val) (ttl : Nat) :
    (c.set now key v ttl).lookup key = some { value := v, expires := now + ttl * 1000 } := by
  simp [Cache.set, List.lookup]

/-- C24. In server.js, the cache after `searchMovies` (and so after
`getTrendingMovies`) is the cache before it after writes made at the instant
of the call, each either under the key of the search with a TTL of 600
seconds, or (the nested `getMovieDetails` calls) under a key `movie-...` with
a TTL of 3600 seconds, and no key is of both kinds; the cache after
`getMovieDetails` is the cache before it after writes under a key `movie-...`
with a TTL of 3600 seconds. After a search that fetched, the entry under its
key expires 600 seconds after the call; after a detail call that fetched, the
entry under its key expires 3600 seconds after the call. So of two entries
written at the same instant, the 3600-second one is still served at every
later instant up to 3600 seconds after, while the 600-second one is no longer
served once 600 seconds have passed. -/
theorem cache_writes_ttl :
    (∀ (u : Upstream) (w : World) (query : String) (page : Int),
      MovieService.Writes w.now
        (fun key _ ttl => (key = MovieService.searchKey query page ∧ ttl = 600) ∨
          ((∃ s, key = "movie-" ++ s) ∧ ttl = 3600))
        w.cache (MovieService.searchMovies u w query page).2.cache) ∧
    (∀ (u : Upstream) (w : World) (pick : Fin 5),
      MovieService.Writes w.now
        (fun key _ ttl => (key = MovieService.trendingKey pick ∧ ttl = 600) ∨
          ((∃ s, key = "movie-" ++ s) ∧ ttl = 3600))
        w.cache (MovieService.getTrendingMovies u w pick).2.cache) ∧
    (∀ (u : Upstream) (w : World) (imdbID : Val),
      MovieService.Writes w.now (fun key _ ttl => (∃ s, key = "movie-" ++ s) ∧ ttl = 3600)
        w.cache (MovieService.getMovieDetails u w imdbID).2.cache) ∧
    (∀ (query : String) (page : Int) (s : String),
      MovieService.searchKey query page ≠ "movie-" ++ s) ∧
    (∀ (u : Upstream) (w : World) (query : String) (page : Int) (data : Val) (items : List Val),
      MovieService.SearchFetched u w query page data items →
      ((MovieService.searchMovies u w query page).2.cache.lookup
        (MovieService.searchKey query page)).map (fun e => e.expires) =
          some (w.now + 600 * 1000)) ∧
    (∀ (u : Upstream) (w : World) (imdbID data : Val),
      MovieService.DetailsFetched u w imdbID data →
      ∃ s, imdbID.toStr = .ok s ∧
        ((MovieService.getMovieDetails u w imdbID).2.cache.lookup ("movie-" ++ s)).map
          (fun e => e.expires) = some (w.now + 3600 * 1000)) ∧
    (∀ (c : Cache) (now t : Nat) (key : String) (value : Val), t ≤ now + 3600 * 1000 →
      (c.set now key value 3600).live t key = some value) ∧
    (∀ (c : Cache) (now t : Nat) (key : String) (value : Val), now + 600 * 1000 < t →
      (c.set now key value 600).live t key = none) := by
  have hsearch : ∀ (u : Upstream) (w : World) (query : String) (page : Int),
      MovieService.Writes w.now
        (fun key _ ttl => (key = MovieService.searchKey query page ∧ ttl = 600) ∨
          ((∃ s, key = "movie-" ++ s) ∧ ttl = 3600))
        w.cache (MovieService.searchMovies u w query page).2.cache := by
    intro u w query page
    refine MovieService.writes_mono ?_ (MovieService.searchMovies_writes u w query page)
    intro k v t hp
    rcases hp with ⟨hk, _, ht⟩ | ⟨hk, _, ht⟩
    · exact Or.inr ⟨hk, ht⟩
    · exact Or.inl ⟨hk, ht⟩
  refine ⟨hsearch, fun u w pick => hsearch u w _ 1, fun u w imdbID => ?_,
    MovieService.search_key_not_detail, fun u w query page data items hf => ?_,
    fun u w imdbID data hf => ?_, fun c now t key value ht => ?_,
    fun c now t key value ht => ?_⟩
  · exact MovieService.writes_mono (fun _ _ _ hp => ⟨hp.1, hp.2.2⟩)
      (MovieService.getMovieDetails_writes u w imdbID)
  · obtain ⟨enhanced, w2, _, heq, hnow⟩ := MovieService.searchMovies_fresh u w query page data items hf
    rw [heq]
    simp only [World.store, Cache.lookup_set_same, Option.map_some', hnow]
  · obtain ⟨s, hs, heq⟩ := MovieService.getMovieDetails_fetched u w imdbID data hf
    refine ⟨s, hs, ?_⟩
    rw [heq]
    simp only [World.store, Cache.lookup_set_same, Option.map_some']
    rfl
  · rw [Cache.live_set_same]
    have hn : ¬ (now + 3600 * 1000 < t) := by omega
    simp only [hn, if_false]
  · rw [Cache.live_set_same]
    simp only [ht, if_true]

/-- Witness of C24: the search and the detail fetch of the scenario, and a
listing entry and a detail entry written at instant 0, read 700 seconds
later. -/
theorem cache_writes_ttl_witness :
    MovieService.SearchFetched MovieService.omdb MovieService.initial "forrest" 1
      MovieService.forrestSearch MovieService.forrestItems ∧
    ((MovieService.searchMovies MovieService.omdb MovieService.initial "forrest" 1).2.cache.lookup
      (MovieService.searchKey "forrest" 1)).map (fun e => e.expires) =
        some (MovieService.initial.now + 600 * 1000) ∧
    MovieService.DetailsFetched MovieService.omdb MovieService.initial (.str "tt0109830")
      MovieService.forrestDetails ∧
    (∃ s, (Val.str "tt0109830").toStr = .ok s ∧
      ((MovieService.getMovieDetails MovieService.omdb MovieService.initial
        (.str "tt0109830")).2.cache.lookup ("movie-" ++ s)).map (fun e => e.expires) =
          some (MovieService.initial.now + 3600 * 1000)) ∧
    700000 ≤ 0 + 3600 * 1000 ∧
    (Cache.set [] 0 "movie-tt0109830" MovieService.forrestDetails 3600).live 700000
      "movie-tt0109830" = some MovieService.forrestDetails ∧
    0 + 600 * 1000 < 700000 ∧
    (Cache.set [] 0 "search-forrest-1" MovieService.forrestSearch 600).live 700000
      "search-forrest-1" = none :=
  ⟨MovieService.searchFetched_scenario,
    cache_writes_ttl.2.2.2.2.1 _ _ _ _ _ _ MovieService.searchFetched_scenario,
    MovieService.detailsFetched_scenario,
    cache_writes_ttl.2.2.2.2.2.1 _ _ _ _ MovieService.detailsFetched_scenario,
    by decide, cache_writes_ttl.2.2.2.2.2.2.1 [] 0 700000 _ _ (by decide), by decide,
    cache_writes_ttl.2.2.2.2.2.2.2 [] 0 700000 _ _ (by decide)⟩

/-! ## server.js: every record handed out has a consistent download flag -/

namespace MovieService

theorem handOK_writes (now : Nat) (key : String) (c1 c2 : Cache)
    (hkey : ∀ s, key ≠ "movie-" ++ s)
    (hw : Writes now (fun k v t => DetailWrite k v t ∨ SearchWrite key k v t) c1 c2)
    (h : HandOK c1) : HandOK c2 := by
  intro k e hmem
  rcases writes_mem hw k e hmem with hold | ⟨ttl, hp | hp, _⟩
  · exact h k e hold
  · obtain ⟨⟨s, hk⟩, ⟨data, imdbID, hv⟩, _⟩ := hp
    refine ⟨fun _ => ⟨imdbID, ?_⟩, fun hne => absurd hk (hne s)⟩
    rw [hv]
    exact enhanced_enhancedData data imdbID
  · obtain ⟨hk, ⟨data, items, hv, hitems⟩, _⟩ := hp
    refine ⟨fun ⟨s, hs⟩ => absurd (hk ▸ hs) (hkey s), fun _ => ⟨items, ?_, ?_⟩⟩
    · rw [hv]
      simp only [getProp]
      rw [objGet_objSet_same]
    · intro item hi
      obtain ⟨movie, details, imdbID, heq⟩ := hitems item hi
      exact ⟨imdbID, heq ▸ enhanced_enhancedMovie movie details imdbID⟩

theorem handOK_search (u : Upstream) (w : World) (query : String) (page : Int)
    (h : HandOK w.cache) : HandOK (searchMovies u w query page).2.cache :=
  handOK_writes w.now (searchKey query page) _ _ (search_key_not_detail query page)
    (searchMovies_writes u w query page) h

theorem handOK_details (u : Upstream) (w : World) (imdbID : Val)
    (h : HandOK w.cache) : HandOK (getMovieDetails u w imdbID).2.cache :=
  handOK_writes w.now (searchKey "" 1) _ _ (search_key_not_detail "" 1)
    (writes_mono (fun _ _ _ hp => Or.inl hp) (getMovieDetails_writes u w imdbID)) h

theorem handOK_of_reachable (w : World) (h : Reachable w) : HandOK w.cache := by
  induction h with
  | start now => intro k e hmem; cases hmem
  | tick w t _ _ ih => exact ih
  | search u w query page _ ih => exact handOK_search u w query page ih
  | details u w imdbID _ ih => exact handOK_details u w imdbID ih
  | trending u w pick _ ih => exact handOK_search u w _ 1 ih

theorem sample_listing : EnhancedListing getSampleData :=
  ⟨_, rfl, fun item hi => by
    rw [List.mem_singleton] at hi
    subst hi
    exact ⟨.str "tt0109830", rfl, rfl⟩⟩

theorem details_result_enhanced (u : Upstream) (w : World) (imdbID : Val) (h : HandOK w.cache) :
    (getMovieDetails u w imdbID).1 = .null ∨
      ∃ id, Enhanced id (getMovieDetails u w imdbID).1 := by
  cases hs : imdbID.toStr with
  | error e =>
    left
    simp [getMovieDetails, detailsStart_unkeyed w imdbID e hs, detailsFinish]
  | ok s =>
    cases ht : truthy (w.cache.get w.now ("movie-" ++ s)) with
    | true =>
      right
      rw [getMovieDetails_cached u w imdbID s hs ht]
      obtain ⟨e, hmem, hval⟩ := Cache.mem_of_live _ _ _ _ (Cache.live_of_truthy_get _ _ _ ht)
      obtain ⟨id, hid⟩ := (h _ e hmem).1 ⟨s, rfl⟩
      exact ⟨id, hval ▸ hid⟩
    | false =>
      simp only [getMovieDetails, detailsStart_miss w imdbID s hs ht]
      cases hu : u w.sent.length (detailsRequest imdbID) with
      | none =>
        left
        rw [detailsFinish_rejected u _ imdbID _ _ hu]
      | some data =>
        cases hr : getProp data "Response" with
        | error e =>
          left
          rw [detailsFinish_thrown u _ imdbID data _ _ e hu hr]
        | ok r =>
          by_cases hne : r = .str "True"
          · subst hne
            right
            rw [detailsFinish_true u _ imdbID data _ _ hu hr]
            exact ⟨imdbID, enhanced_enhancedData data imdbID⟩
          · left
            rw [detailsFinish_notTrue u _ imdbID data r _ _ hu hr hne]

theorem enhanceSearch_listing (u : Upstream) (w : World) (key : String) (data : Val) :
    EnhancedListing (enhanceSearch u w key data).1 := by
  by_cases h : ∃ items, getProp data "Search" = .ok (.arr items)
  · obtain ⟨items, h⟩ := h
    rcases enhanceSearch_outcome u w key data items h with ⟨enhanced, he, heq⟩ | ⟨_, heq⟩
    · rw [heq]
      refine ⟨enhanced, ?_, ?_⟩
      · simp only [getProp]
        rw [objGet_objSet_same]
      · intro item hi
        obtain ⟨movie, details, imdbID, hitem⟩ := finishItems_items u _ _ enhanced he item hi
        exact ⟨imdbID, hitem ▸ enhanced_enhancedMovie movie details imdbID⟩
    · rw [heq]
      exact sample_listing
  · rw [enhanceSearch_noList u w key data (fun items hi => h ⟨items, hi⟩)]
    exact sample_listing

theorem search_result_listing (u : Upstream) (w : World) (query : String) (page : Int)
    (h : HandOK w.cache) : EnhancedListing (searchMovies u w query page).1 := by
  cases ht : truthy (w.cache.get w.now (searchKey query page)) with
  | true =>
    rw [searchMovies_hit u w query page ht]
    obtain ⟨e, hmem, hval⟩ := Cache.mem_of_live _ _ _ _ (Cache.live_of_truthy_get _ _ _ ht)
    have := (h _ e hmem).2 (search_key_not_detail query page)
    exact hval ▸ this
  | false =>
    cases hu : u w.sent.length (searchRequest query page) with
    | none =>
      rw [searchMovies_rejected u w query page ht hu]
      exact sample_listing
    | some data =>
      cases hr : getProp data "Response" with
      | error e =>
        rw [searchMovies_thrown u w query page data e ht hu hr]
        exact sample_listing
      | ok r =>
        by_cases hne : r = .str "True"
        · subst hne
          rw [searchMovies_true u w query page data ht hu hr]
          exact enhanceSearch_listing u _ _ data
        · rw [searchMovies_notTrue u w query page data r ht hu hr hne]
          exact ⟨[], rfl, fun item hi => by cases hi⟩

theorem downloadConsistent_of_enhanced (imdbID r : Val) (h : Enhanced imdbID r) :
    DownloadConsistent r := by
  refine ⟨_, _, h.1, h.2, ?_, ?_⟩
  · intro ht hu
    rw [hu] at ht
    cases ht
  · intro hne
    by_cases hd : HasDescriptor imdbID
    · exact (truthy_movieFileOf_iff imdbID).2 hd
    · exact absurd (movieFileOf_undefined imdbID hd) hne

theorem getProp_ok_of_truthy (d : Val) (name : String) (h : truthy d = true) :
    ∃ x, getProp d name = .ok x := by
  cases d with
  | undefined => cases h
  | null => cases h
  | bool b => exact ⟨_, rfl⟩
  | num n => exact ⟨_, rfl⟩
  | str s => exact ⟨_, rfl⟩
  | arr items => exact ⟨_, rfl⟩
  | obj fields => exact ⟨_, rfl⟩
  | native name => exact ⟨_, rfl⟩

theorem page_reads_of_enhanced (imdbID r : Val) (h : Enhanced imdbID r) :
    ∃ x, pageDownloadInfo r = .ok x := by
  unfold pageDownloadInfo
  rw [h.1, h.2]
  cases ht : truthy (movieFileOf imdbID) with
  | false => exact ⟨none, by simp [truthy]⟩
  | true =>
    obtain ⟨q, hq⟩ := getProp_ok_of_truthy (movieFileOf imdbID) "quality" ht
    obtain ⟨z, hz⟩ := getProp_ok_of_truthy (movieFileOf imdbID) "size" ht
    exact ⟨some (q, z), by simp [truthy, hq, hz]⟩

theorem listing_consistent (v : Val) (h : EnhancedListing v) :
    ∃ items, getProp v "Search" = .ok (.arr items) ∧ ∀ item ∈ items, DownloadConsistent item := by
  obtain ⟨items, hs, hi⟩ := h
  exact ⟨items, hs, fun item hm =>
    (hi item hm).elim fun id hid => downloadConsistent_of_enhanced id item hid⟩

end MovieService

/-- C27. In server.js, in every state the service can reach, every record it
hands out has a boolean `canDownload` that is true exactly when its
`downloadInfo` is present: the result of `getMovieDetails` when it is not
`null` (fetched or cached), every item of the result of `searchMovies` and of
`getTrendingMovies` (fetched, cached, or the fallback), and the item of
`getSampleData()`; and on every record `getMovieDetails` returns, the reads
the detail page makes for its download box (`movie.canDownload`, then under a
truthy flag `movie.downloadInfo.quality` and `movie.downloadInfo.size`) do not
throw. -/
theorem canDownload_iff_downloadInfo (w : World) (hw : MovieService.Reachable w) (u : Upstream)
    (query : String) (page : Int) (pick : Fin 5) (imdbID : Val) :
    ((MovieService.getMovieDetails u w imdbID).1 = .null ∨
      (MovieService.DownloadConsistent (MovieService.getMovieDetails u w imdbID).1 ∧
        ∃ x, MovieService.pageDownloadInfo (MovieService.getMovieDetails u w imdbID).1 = .ok x)) ∧
    (∃ items, getProp (MovieService.searchMovies u w query page).1 "Search" = .ok (.arr items) ∧
      ∀ item ∈ items, MovieService.DownloadConsistent item) ∧
    (∃ items, getProp (MovieService.getTrendingMovies u w pick).1 "Search" = .ok (.arr items) ∧
      ∀ item ∈ items, MovieService.DownloadConsistent item) ∧
    (∃ items, getProp MovieService.getSampleData "Search" = .ok (.arr items) ∧
      ∀ item ∈ items, MovieService.DownloadConsistent item) := by
  have hok := MovieService.handOK_of_reachable w hw
  refine ⟨?_, ?_, ?_, ?_⟩
  · rcases MovieService.details_result_enhanced u w imdbID hok with h | ⟨id, h⟩
    · exact Or.inl h
    · exact Or.inr ⟨MovieService.downloadConsistent_of_enhanced id _ h,
        MovieService.page_reads_of_enhanced id _ h⟩
  · exact MovieService.listing_consistent _ (MovieService.search_result_listing u w query page hok)
  · exact MovieService.listing_consistent _ (MovieService.search_result_listing u w _ 1 hok)
  · exact MovieService.listing_consistent _ MovieService.sample_listing

/-- Witness of C27: the state after the search of the scenario, asked for a
title that is now cached. -/
theorem canDownload_iff_downloadInfo_witness :
    MovieService.Reachable MovieService.afterSearch ∧
    ((MovieService.getMovieDetails MovieService.omdb MovieService.afterSearch
        (.str "tt0109830")).1 = .null ∨
      (MovieService.DownloadConsistent
        (MovieService.getMovieDetails MovieService.omdb MovieService.afterSearch
          (.str "tt0109830")).1 ∧
        ∃ x, MovieService.pageDownloadInfo
          (MovieService.getMovieDetails MovieService.omdb MovieService.afterSearch
            (.str "tt0109830")).1 = .ok x)) ∧
    (MovieService.getMovieDetails MovieService.omdb MovieService.afterSearch
      (.str "tt0109830")).1 ≠ .null :=
  ⟨MovieService.reachable_afterSearch,
    (canDownload_iff_downloadInfo MovieService.afterSearch MovieService.reachable_afterSearch
      MovieService.omdb "forrest" 1 0 (.str "tt0109830")).1,
    by decide⟩

/-! ## Both variants: enrichment keeps the provider's sequence -/

theorem mapItems_forall₂ (f : Val → Js Val) (R : Val → Val → Prop) (items : List Val)
    (h : ∀ x ∈ items, ∃ y, f x = .ok y ∧ R x y) :
    ∃ ys, mapItems f items = .ok ys ∧ List.Forall₂ R items ys := by
  induction items with
  | nil => exact ⟨[], rfl, List.Forall₂.nil⟩
  | cons x xs ih =>
    obtain ⟨y, hy, hr⟩ := h x (List.mem_cons_self _ _)
    obtain ⟨ys, hys, hrs⟩ := ih (fun z hz => h z (List.mem_cons_of_mem _ hz))
    exact ⟨y :: ys, by simp [mapItems, hy, hys], List.Forall₂.cons hr hrs⟩

namespace CineNova

theorem enrich_enrichedFrom (movie id : Val) (key : String) (hid : getProp movie "id" = .ok id)
    (hkey : id.toStringCall = .ok key) :
    ∃ r, enrich movie = .ok r ∧ EnrichedFrom movie r :=
  ⟨overlay movie key, by simp [enrich, hid, hkey],
    id, key, hid, hkey, overlaid_overlay movie key,
    fun name h1 h2 h3 => getProp_overlay_other movie key name h1 h2 h3⟩

theorem fetchList_sequence (u : Upstream) (w : World) (cacheKey : String) (req : Request)
    (fallback data : Val) (items : List Val) (h : ListFetched u w cacheKey req data items) :
    ∃ enriched, (fetchList u w cacheKey req fallback).1 = .arr enriched ∧
      enriched.length = items.length ∧ List.Forall₂ EnrichedFrom items enriched := by
  obtain ⟨ht, hu, hres, hitems⟩ := h
  obtain ⟨enriched, hm, hf⟩ := mapItems_forall₂ enrich EnrichedFrom items (fun x hx => by
    obtain ⟨id, key, hid, hkey⟩ := hitems x hx
    exact enrich_enrichedFrom x id key hid hkey)
  have he : enrichResults data = .ok (.arr enriched) := by
    simp [enrichResults, hres, mapArray, hm]
  rw [fetchList_fresh u w cacheKey req fallback data (.arr enriched) ht hu he]
  exact ⟨enriched, rfl, hf.length_eq.symm, hf⟩

end CineNova

namespace MovieService

theorem startItems_startedIn (w0 w : World) (items : List Val)
    (hc : w.cache = w0.cache) (hn : w.now = w0.now)
    (h : ∀ movie ∈ items, movie ≠ .null ∧ movie ≠ .undefined) :
    List.Forall₂ (StartedIn w0) items (startItems w items).1 := by
  induction items generalizing w with
  | nil => exact List.Forall₂.nil
  | cons movie rest ih =>
    obtain ⟨imdbID, hid⟩ := getProp_ok_of_ne_null movie "imdbID" (h movie (List.mem_cons_self _ _))
    have hrest : ∀ m ∈ rest, m ≠ .null ∧ m ≠ .undefined :=
      fun m hm => h m (List.mem_cons_of_mem _ hm)
    simp only [startItems, hid]
    obtain ⟨hc2, hn2⟩ := detailsStart_cache w imdbID
    exact List.Forall₂.cons ⟨imdbID, w, hid, hc, hn, rfl⟩
      (ih (detailsStart w imdbID).2 (hc2.trans hc) (hn2.trans hn) hrest)

theorem detailsFinish_fails (u : Upstream) (w0 w2 w : World) (imdbID : Val)
    (hc : w2.cache = w0.cache) (hn : w2.now = w0.now) (hf : DetailFails u w0 imdbID) :
    (detailsFinish u w imdbID (detailsStart w2 imdbID).1).1 = .null := by
  cases hs : imdbID.toStr with
  | error e => rw [detailsStart_unkeyed w2 imdbID e hs, detailsFinish_settled]
  | ok s =>
    have ht : truthy (w2.cache.get w2.now ("movie-" ++ s)) = false := by
      rw [hc, hn]
      exact hf.1 s hs
    rw [detailsStart_miss w2 imdbID s hs ht]
    rcases hf.2 w2.sent.length with hu | ⟨data, hu, hr⟩
    · rw [detailsFinish_rejected u w imdbID _ _ hu]
    · cases hresp : getProp data "Response" with
      | error e => rw [detailsFinish_thrown u w imdbID data _ _ e hu hresp]
      | ok r =>
        have hne : r ≠ .str "True" := fun hr2 => hr (by rw [hresp, hr2])
        rw [detailsFinish_notTrue u w imdbID data r _ _ hu hresp hne]

theorem getProp_enhancedMovie_null (movie imdbID : Val) (name : String)
    (h1 : name ≠ "canDownload") (h2 : name ≠ "downloadInfo") :
    getProp (enhancedMovie movie .null imdbID) name = .ok (objGet (spread movie) name) := by
  simp only [enhancedMovie, getProp]
  rw [objGet_objSet_ne _ _ _ _ h2, objGet_objSet_ne _ _ _ _ h1]
  rfl

theorem finishItems_enhancedFrom (u : Upstream) (w0 w : World) (items : List Val)
    (tasks : List Task) (h : List.Forall₂ (StartedIn w0) items tasks) :
    ∃ enhanced, (finishItems u w tasks).1 = some enhanced ∧
      List.Forall₂ (EnhancedFrom u w0) items enhanced := by
  induction h generalizing w with
  | nil => exact ⟨[], rfl, List.Forall₂.nil⟩
  | @cons movie t rest tasks hrun _ ih =>
    obtain ⟨imdbID, w2, hid, hc, hn, ht⟩ := hrun
    subst ht
    obtain ⟨enhanced, he, hb⟩ := ih (detailsFinish u w imdbID (detailsStart w2 imdbID).1).2
    refine ⟨enhancedMovie movie (detailsFinish u w imdbID (detailsStart w2 imdbID).1).1 imdbID ::
      enhanced, ?_, ?_⟩
    · simp [finishItems, he]
    · refine List.Forall₂.cons ⟨imdbID, hid, enhanced_enhancedMovie _ _ _, ?_⟩ hb
      intro hf name h1 h2
      rw [detailsFinish_fails u w0 w2 w imdbID hc hn hf]
      exact getProp_enhancedMovie_null movie imdbID name h1 h2

theorem searchMovies_sequence (u : Upstream) (w : World) (query : String) (page : Int)
    (data : Val) (items : List Val) (h : SearchFetched u w query page data items) :
    ∃ enhanced, getProp (searchMovies u w query page).1 "Search" = .ok (.arr enhanced) ∧
      enhanced.length = items.length ∧ List.Forall₂ (EnhancedFrom u w) items enhanced := by
  obtain ⟨ht, hu, hr, hl, hnn⟩ := h
  rw [searchMovies_true u w query page data ht hu hr]
  obtain ⟨enhanced, he, hb⟩ := finishItems_enhancedFrom u w
    (startItems (w.send (searchRequest query page)) items).2 items _
    (startItems_startedIn w (w.send (searchRequest query page)) items rfl rfl hnn)
  rcases enhanceSearch_outcome u (w.send (searchRequest query page)) (searchKey query page)
    data items hl with ⟨enhanced2, he2, heq⟩ | ⟨hnone, _⟩
  · rw [he] at he2
    cases he2
    rw [heq]
    refine ⟨enhanced, ?_, hb.length_eq.symm, hb⟩
    simp only [getProp]
    rw [objGet_objSet_same]
  · rw [he] at hnone
    cases hnone

end MovieService

theorem CineNova.listFetched_scenario :
    CineNova.ListFetched CineNova.trendingOnly CineNova.initial "trending_movies"
      CineNova.trendingRequest CineNova.trendingData CineNova.trendingItems := by
  refine ⟨rfl, rfl, rfl, ?_⟩
  intro item hi
  simp only [CineNova.trendingItems, List.mem_cons, List.mem_singleton, List.not_mem_nil,
    or_false] at hi
  rcases hi with h | h | h <;> subst h <;> exact ⟨_, _, rfl, rfl⟩

theorem MovieService.searchFetched_searchOnly :
    MovieService.SearchFetched MovieService.searchOnly MovieService.initial "forrest" 1
      MovieService.forrestSearch MovieService.forrestItems :=
  ⟨by decide, by decide, by decide, by decide, by decide⟩

/-- C29. In both variants a fetched listing keeps the provider's sequence. In
app.js, when `getTrendingMovies` or `searchMovies` fetches a result list, the
returned array has the length of the provider's list and its i-th record is
the enrichment of the provider's i-th item: `canPlay`, `canDownload` and
`videoSource` are computed from that item's `id`, and every other field reads
as the item's own. In server.js, when `searchMovies` fetches, the `Search`
array of the result has the length of the provider's list and its i-th record
carries `canDownload` and `downloadInfo` computed from the `imdbID` of the
provider's i-th item; an item whose detail lookup fails is returned all the
same, every field other than those two reading as the item's own. -/
theorem enrichment_preserves_sequence :
    (∀ (u : Upstream) (w : World) (data : Val) (items : List Val),
      CineNova.ListFetched u w "trending_movies" CineNova.trendingRequest data items →
      ∃ enriched, (CineNova.getTrendingMovies u w).1 = .arr enriched ∧
        enriched.length = items.length ∧
        List.Forall₂ CineNova.EnrichedFrom items enriched) ∧
    (∀ (u : Upstream) (w : World) (query : String) (data : Val) (items : List Val),
      CineNova.ListFetched u w ("search_" ++ query) (CineNova.searchRequest query) data items →
      ∃ enriched, (CineNova.searchMovies u w query).1 = .arr enriched ∧
        enriched.length = items.length ∧
        List.Forall₂ CineNova.EnrichedFrom items enriched) ∧
    (∀ (u : Upstream) (w : World) (query : String) (page : Int) (data : Val) (items : List Val),
      MovieService.SearchFetched u w query page data items →
      ∃ enhanced,
        getProp (MovieService.searchMovies u w query page).1 "Search" = .ok (.arr enhanced) ∧
        enhanced.length = items.length ∧
        List.Forall₂ (MovieService.EnhancedFrom u w) items enhanced) :=
  ⟨fun u w data items h => CineNova.fetchList_sequence u w _ _ _ data items h,
    fun u w _ data items h => CineNova.fetchList_sequence u w _ _ _ data items h,
    fun u w query page data items h =>
      MovieService.searchMovies_sequence u w query page data items h⟩

/-- Witness of C29: the trending fetch of the app.js scenario, and in
server.js a search whose detail requests are all rejected. -/
theorem enrichment_preserves_sequence_witness :
    CineNova.ListFetched CineNova.trendingOnly CineNova.initial "trending_movies"
      CineNova.trendingRequest CineNova.trendingData CineNova.trendingItems ∧
    (∃ enriched, (CineNova.getTrendingMovies CineNova.trendingOnly CineNova.initial).1 =
        .arr enriched ∧
      enriched.length = CineNova.trendingItems.length ∧
      List.Forall₂ CineNova.EnrichedFrom CineNova.trendingItems enriched) ∧
    MovieService.SearchFetched MovieService.searchOnly MovieService.initial "forrest" 1
      MovieService.forrestSearch MovieService.forrestItems ∧
    MovieService.DetailFails MovieService.searchOnly MovieService.initial (.str "tt0109830") ∧
    (∃ enhanced,
      getProp (MovieService.searchMovies MovieService.searchOnly MovieService.initial
        "forrest" 1).1 "Search" = .ok (.arr enhanced) ∧
      enhanced.length = MovieService.forrestItems.length ∧
      List.Forall₂ (MovieService.EnhancedFrom MovieService.searchOnly MovieService.initial)
        MovieService.forrestItems enhanced) :=
  ⟨CineNova.listFetched_scenario,
    enrichment_preserves_sequence.1 _ _ _ _ CineNova.listFetched_scenario,
    MovieService.searchFetched_searchOnly,
    ⟨fun _ _ => rfl, fun _ => Or.inl rfl⟩,
    enrichment_preserves_sequence.2.2 _ _ _ _ _ _ MovieService.searchFetched_searchOnly⟩
